import Mathlib

/-!
# TrackReg core — shallow embedding and verification

Shallow embedding of the pipeline scheduler (`savant_core/src/pipeline2.rs`),
the keyed attribute store (`savant_core/src/webserver/kvs.rs`) and the HTTP
shutdown handler (`savant_core/src/webserver.rs`), together with proofs about
the specified properties.

Conventions of the embedding:
* Rust `i64` counters and payload IDs are modelled as unbounded `Int`
  (the counters only ever grow by 1 from 0, so wrap-around never matters).
* `hashbrown::HashMap` is modelled as an association list with key-replacing
  insertion (`kvSet`) and key-removing deletion (`kvErase`); only membership
  and lookup are relied upon, never iteration order.
* An OpenTelemetry `Context` is modelled by its only observable used by this
  code: whether its trace id differs from `TraceId::INVALID`.  `true` means a
  real (sampled-in) span context, `false` the `Context::default()` value.
* Fallible operations return `Except PErr α × Pipeline`: the Rust code
  mutates `self` in place, so the state component is also meaningful when the
  call errors (several operations mutate before failing).
* A Rust `.unwrap()` on a `None`/`Err` is modelled by the `PErr.panicked`
  outcome; re-acquiring a `parking_lot` lock already held by the same thread
  (which deadlocks, as those locks are not reentrant) is modelled by
  `PErr.deadlock`.
-/

/-- Lookup in an association list (model of `hashbrown::HashMap::get` /
`moka::Cache::get`). -/
def kvLookup {κ α : Type} [DecidableEq κ] (k : κ) : List (κ × α) → Option α
  | [] => none
  | (k', v) :: t => if k = k' then some v else kvLookup k t

/-- Remove a key from an association list (model of `HashMap::remove`). -/
def kvErase {κ α : Type} [DecidableEq κ] (k : κ) : List (κ × α) → List (κ × α)
  | [] => []
  | (k', v) :: t => if k = k' then kvErase k t else (k', v) :: kvErase k t

/-- Key-replacing insertion (model of `HashMap::insert`). -/
def kvSet {κ α : Type} [DecidableEq κ] (k : κ) (v : α) (l : List (κ × α)) :
    List (κ × α) :=
  kvErase k l ++ [(k, v)]

/-- Key membership in an association list. -/
def kvMem {κ α : Type} [DecidableEq κ] (k : κ) (l : List (κ × α)) : Prop :=
  (kvLookup k l).isSome

instance {κ α : Type} [DecidableEq κ] (k : κ) (l : List (κ × α)) :
    Decidable (kvMem k l) := by
  unfold kvMem; infer_instance

/-- `PipelineStagePayloadType` from `savant_core/src/pipeline.rs`:
the kind of payloads a stage holds. -/
inductive StageType : Type
  | frame
  | batch
  deriving Repr, DecidableEq

/-- An OpenTelemetry `Context`, reduced to the single observation the
pipeline code makes of it: `trace_id() != TraceId::INVALID`. -/
abbrev Ctx : Type := Bool

/-- `PipelinePayload` from `savant_core/src/pipeline.rs`.  Frames and frame
updates are opaque to the scheduler and are modelled as `Nat` tokens.
A batch carries its member map, its update list of `(memberId, update)`
pairs, and its per-member span contexts. -/
inductive PipelinePayload : Type
  | frame (f : Nat) (updates : List Nat) (ctx : Ctx)
  | batch (frames : List (Int × Nat)) (updates : List (Int × Nat))
      (ctxs : List (Int × Ctx))
  deriving Repr, DecidableEq

/-- `PipelineStage` from `savant_core/src/pipeline2/stage.rs`. -/
structure PipelineStage : Type where
  stage_name : String
  stage_type : StageType
  payload : List (Int × PipelinePayload)
  deriving Repr, DecidableEq

/-- Errors surfaced by the embedded operations.  Each constructor stands for
one `bail!`/`Err` site of the source (or a panic/deadlock outcome). -/
inductive PErr : Type
  | stageNotAcceptBatched  -- "Stage does not accept batched frames"
  | stageNotFound          -- "Stage not found"
  | locationNotFound       -- "Object location not found"
  | objectNotFoundInStage  -- "Object not found in stage"
  | duplicateStageName     -- "Stage with name {} already exists"
  | duplicateId            -- stage insert with an already-present ID
  | wrongStageKind         -- stage kind checks of the move operations
  | wrongPayload           -- payload of the opposite tag than required
  | emptyIds               -- "Object IDs cannot be empty"
  | mixedStages            -- "All objects must be in the same stage"
  | sourceNotFound         -- "Source stage not found"
  | destNotFound           -- "Destination stage not found"
  | batchNotFound          -- "Batch not found in source stage"
  | frameNotFoundInDest    -- "Frame not found in destination stage"
  | alreadySet             -- OnceLock::set on an initialized cell
  | invalidPattern         -- the InvalidPattern error the spec postulates
  | panicked               -- .unwrap() on None/Err
  | deadlock               -- re-acquiring a held parking_lot lock
  deriving Repr, DecidableEq

/-- Does the payload's tag agree with the stage kind? -/
def payloadMatchesKind : StageType → PipelinePayload → Bool
  | .frame, .frame _ _ _ => true
  | .batch, .batch _ _ _ => true
  | _, _ => false

/-- Modelled from the spec: `addFramePayload(id, FramePayload)` of the stage
module (`pipeline2/stage.rs` is not among the sources; §4.1: "inserts if
stage kind is IndependentFrame and id is not present; fails with
WrongStageKind or DuplicateId otherwise"). -/
def PipelineStage.addFramePayload (st : PipelineStage) (id : Int)
    (p : PipelinePayload) : Except PErr PipelineStage :=
  if st.stage_type ≠ .frame then .error .wrongStageKind
  else if kvMem id st.payload then .error .duplicateId
  else .ok { st with payload := kvSet id p st.payload }

/-- Modelled from the spec: `addBatchPayload(id, BatchPayload)` of the stage
module (`pipeline2/stage.rs` is not among the sources; §4.1: "same, for
Batch kind"). -/
def PipelineStage.addBatchPayload (st : PipelineStage) (id : Int)
    (p : PipelinePayload) : Except PErr PipelineStage :=
  if st.stage_type ≠ .batch then .error .wrongStageKind
  else if kvMem id st.payload then .error .duplicateId
  else .ok { st with payload := kvSet id p st.payload }

/-- Modelled from the spec: `addPayloads(list)` of the stage module
(`pipeline2/stage.rs` is not among the sources; §4.1: "bulk insert;
all-or-nothing with respect to kind"), with the same per-id duplicate
discipline as the single-payload inserts. -/
def PipelineStage.addPayloads (st : PipelineStage)
    (l : List (Int × PipelinePayload)) : Except PErr PipelineStage :=
  if ¬ l.all (fun p => payloadMatchesKind st.stage_type p.2) then
    .error .wrongStageKind
  else if l.any (fun p => decide (kvMem p.1 st.payload)) then
    .error .duplicateId
  else .ok { st with payload := l.foldl (fun acc p => kvSet p.1 p.2 acc) st.payload }

/-- Modelled from the spec: `delete(id)` of the stage module
(`pipeline2/stage.rs` is not among the sources; §4.1: "removes and returns
the payload if present"). -/
def PipelineStage.delete (st : PipelineStage) (id : Int) :
    Option (PipelinePayload × PipelineStage) :=
  (kvLookup id st.payload).map
    (fun p => (p, { st with payload := kvErase id st.payload }))

/-- Modelled from the spec: `deleteMany(ids)` of the stage module
(`pipeline2/stage.rs` is not among the sources; §4.1: "for each present id,
removes and returns it; missing ids are silently skipped"). -/
def PipelineStage.deleteMany (st : PipelineStage) (ids : List Int) :
    List (Int × PipelinePayload) × PipelineStage :=
  ids.foldl
    (fun acc id =>
      match kvLookup id acc.2.payload with
      | some p => (acc.1 ++ [(id, p)], { acc.2 with payload := kvErase id acc.2.payload })
      | none => acc)
    ([], st)

/-- Modelled from the spec: `len()` of the stage module. -/
def PipelineStage.len (st : PipelineStage) : Nat := st.payload.length

/-- The `Pipeline` state of `pipeline2.rs` (`implementation::Pipeline`).
The two `OnceLock` cells are `Option`s: `none` = uninitialized. -/
structure Pipeline : Type where
  id_counter : Int := 0
  frame_counter : Int := 0
  root_spans : List (Int × Ctx) := []
  stages : List PipelineStage := []
  frame_locations : List (Int × Nat) := []
  sampling_period : Option Int := none
  root_span_name : Option String := none
  deriving Repr, DecidableEq

/-- `DEFAULT_ROOT_SPAN_NAME` of `pipeline2.rs`. -/
def defaultRootSpanName : String := "video_pipeline"

/-- Helper of `Pipeline::find_stage`: scan a stage list, numbering from `i`. -/
def findStageAux (name : String) : Nat → List PipelineStage →
    Option (Nat × PipelineStage)
  | _, [] => none
  | i, st :: t =>
    if st.stage_name = name then some (i, st) else findStageAux name (i + 1) t

/-- `Pipeline::find_stage(stage_name, start_from)`: the first stage of index
`≥ start_from` bearing the name. -/
def Pipeline.findStage (s : Pipeline) (name : String) (startFrom : Nat) :
    Option (Nat × PipelineStage) :=
  findStageAux name startFrom (s.stages.drop startFrom)

/-- `Pipeline::find_stage_type(name, start_from)`. -/
def Pipeline.findStageType (s : Pipeline) (name : String) (startFrom : Nat) :
    Option StageType :=
  (s.findStage name startFrom).map (fun p => p.2.stage_type)

/-- `Pipeline::add_stage` (private; used by `new`). -/
def Pipeline.addStage (s : Pipeline) (name : String) (ty : StageType) :
    Except PErr Pipeline :=
  if (s.findStage name 0).isSome then .error .duplicateStageName
  else .ok { s with stages := s.stages ++ [⟨name, ty, []⟩] }

/-- `Pipeline::new(stages)`. -/
def Pipeline.new (cfg : List (String × StageType)) : Except PErr Pipeline :=
  cfg.foldlM (fun s p => s.addStage p.1 p.2) {}

/-- `Pipeline::get_id_locations_len`. -/
def Pipeline.getIdLocationsLen (s : Pipeline) : Nat :=
  s.frame_locations.length

/-- `Pipeline::set_root_span_name` — `OnceLock::set`, failing once a value is
present. -/
def Pipeline.setRootSpanName (s : Pipeline) (name : String) :
    Except PErr Unit × Pipeline :=
  match s.root_span_name with
  | some _ => (.error .alreadySet, s)
  | none => (.ok (), { s with root_span_name := some name })

/-- `Pipeline::set_sampling_period` — `OnceLock::set`. -/
def Pipeline.setSamplingPeriod (s : Pipeline) (period : Int) :
    Except PErr Unit × Pipeline :=
  match s.sampling_period with
  | some _ => (.error .alreadySet, s)
  | none => (.ok (), { s with sampling_period := some period })

/-- `Pipeline::get_sampling_period` — `OnceLock::get_or_init(|| 0)`: reading
an unset cell initializes it to `0`. -/
def Pipeline.getSamplingPeriod (s : Pipeline) : Int × Pipeline :=
  match s.sampling_period with
  | some v => (v, s)
  | none => (0, { s with sampling_period := some 0 })

/-- `Pipeline::get_root_span_name` — `OnceLock::get_or_init` with the
default name. -/
def Pipeline.getRootSpanName (s : Pipeline) : String × Pipeline :=
  match s.root_span_name with
  | some n => (n, s)
  | none => (defaultRootSpanName, { s with root_span_name := some defaultRootSpanName })

/-- `Pipeline::get_stage_span(id, span_name)`: reads the root span of `id`
(`.unwrap()`, hence `none` models the panic on a missing entry); an invalid
root yields `Context::default()` (invalid), a valid root yields a freshly
built child span (valid).  With `Ctx := Bool` the produced context therefore
has the validity of the root context. -/
def Pipeline.getStageSpan (s : Pipeline) (id : Int) : Option Ctx :=
  kvLookup id s.root_spans

/-- Common tail of `Pipeline::add_frame_with_telemetry` after its initial
stage-kind guard (the source performs its mutations from this point on). -/
def Pipeline.addFrameCore (s : Pipeline) (name : String) (f : Nat)
    (parentValid : Bool) : Except PErr Int × Pipeline :=
  let s1 := { s with frame_counter := s.frame_counter + 1,
                     id_counter := s.id_counter + 1 }
  let id := s1.id_counter
  let s2 :=
    if parentValid then
      -- building the real root span reads the once-settable root span name
      let (_, s') := s1.getRootSpanName
      { s' with root_spans := kvSet id true s'.root_spans }
    else
      { s1 with root_spans := kvSet id false s1.root_spans }
  match s2.getStageSpan id with
  | none => (.error .panicked, s2)
  | some ctx =>
    match s2.findStage name 0 with
    | none => (.error .stageNotFound, s2)
    | some (idx, st) =>
      match st.addFramePayload id (.frame f [] ctx) with
      | .error e => (.error e, s2)
      | .ok st' =>
        (.ok id, { s2 with stages := s2.stages.set idx st',
                           frame_locations := kvSet id idx s2.frame_locations })

/-- `Pipeline::add_frame_with_telemetry(stage_name, frame, parent_ctx)`.
The guard rejects only a *Batch*-typed destination; a missing stage is
detected after the counters and the root-span entry have been written. -/
def Pipeline.addFrameWithTelemetry (s : Pipeline) (name : String) (f : Nat)
    (parentValid : Bool) : Except PErr Int × Pipeline :=
  if s.findStageType name 0 = some .batch then (.error .stageNotAcceptBatched, s)
  else s.addFrameCore name f parentValid

/-- `Pipeline::add_frame(stage_name, frame)`: sampling decision on the
post-increment frame counter, then delegation.  Opening the real root span
also reads (and hence once-initializes) the root span name. -/
def Pipeline.addFrame (s : Pipeline) (name : String) (f : Nat) :
    Except PErr Int × Pipeline :=
  let (period, s1) := s.getSamplingPeriod
  let next := s1.frame_counter + 1
  if period ≤ 0 ∨ next % period ≠ 0 then
    s1.addFrameWithTelemetry name f false
  else
    let (_, s2) := s1.getRootSpanName
    s2.addFrameWithTelemetry name f true

/-- `Pipeline::delete(id)`.  The location entry is removed first, so a
failing call can still mutate the state.  The `Frame` arm ends the stage
span and removes/returns the root span.  The `Batch` arm of the source
re-acquires the `root_spans` write lock (pipeline2.rs lines 343 and 351)
while the guard taken at line 343 is still alive; `parking_lot::RwLock` is
not reentrant, so that call never returns — modelled as `PErr.deadlock`
with the mutations performed up to that point. -/
def Pipeline.delete (s : Pipeline) (id : Int) :
    Except PErr (List (Int × Ctx)) × Pipeline :=
  match kvLookup id s.frame_locations with
  | none => (.error .locationNotFound, s)
  | some stageIdx =>
    let s1 := { s with frame_locations := kvErase id s.frame_locations }
    match s1.stages.get? stageIdx with
    | none => (.error .stageNotFound, s1)
    | some st =>
      match st.delete id with
      | none => (.error .objectNotFoundInStage, s1)
      | some (payload, st') =>
        let s2 := { s1 with stages := s1.stages.set stageIdx st' }
        match payload with
        | .frame _ _ _ =>
          match kvLookup id s2.root_spans with
          | none => (.error .panicked, s2)
          | some root =>
            (.ok [(id, root)], { s2 with root_spans := kvErase id s2.root_spans })
        | .batch _ _ _ => (.error .deadlock, s2)

/-- `Pipeline::get_stages_for_ids(ids)`: collect the location of each id,
failing on the first unknown one. -/
def Pipeline.getStagesForIds (s : Pipeline) : List Int →
    Except PErr (List (Int × Nat))
  | [] => .ok []
  | id :: t =>
    match kvLookup id s.frame_locations with
    | none => .error .locationNotFound
    | some i => (s.getStagesForIds t).map (fun r => (id, i) :: r)

/-- `Pipeline::check_ids_in_the_same_stage(ids)`. -/
def Pipeline.checkIdsInTheSameStage (s : Pipeline) (ids : List Int) :
    Except PErr Nat :=
  if ids.isEmpty then .error .emptyIds
  else
    match s.getStagesForIds ids with
    | .error e => .error e
    | .ok located =>
      match located.map (fun p => p.2) with
      | [] => .error .emptyIds
      | stage :: rest =>
        if rest.all (fun cur => cur = stage) then .ok stage
        else .error .mixedStages

/-- `Pipeline::update_frame_locations(ids, index)`. -/
def Pipeline.updateFrameLocations (s : Pipeline) (ids : List Int) (index : Nat) :
    Pipeline :=
  { s with frame_locations :=
      ids.foldl (fun acc id => kvSet id index acc) s.frame_locations }

/-- Span rotation of a batch's member contexts (`move_as_is`, Batch arm):
end each member's stage span and open a fresh one from its root span;
`none` models the `.unwrap()` panic of `get_stage_span` when a member has
no root-span entry. -/
def rotateCtxs (s : Pipeline) : List (Int × Ctx) → Option (List (Int × Ctx))
  | [] => some []
  | (mid, _) :: t =>
    match s.getStageSpan mid with
    | none => none
    | some c' => (rotateCtxs s t).map (fun r => (mid, c') :: r)

/-- Span rotation of one moved payload (`move_as_is` loop body). -/
def Pipeline.rotatePayload (s : Pipeline) :
    Int × PipelinePayload → Option (Int × PipelinePayload)
  | (id, .frame f u _) => (s.getStageSpan id).map (fun c => (id, .frame f u c))
  | (id, .batch bf bu bc) =>
    (rotateCtxs s bc).map (fun bc' => (id, .batch bf bu bc'))

/-- Span rotation of all payloads removed by `move_as_is`. -/
def Pipeline.rotatePayloads (s : Pipeline) :
    List (Int × PipelinePayload) → Option (List (Int × PipelinePayload))
  | [] => some []
  | p :: t =>
    match s.rotatePayload p with
    | none => none
    | some p' => (s.rotatePayloads t).map (fun r => p' :: r)

/-- `Pipeline::move_as_is(dest_stage_name, object_ids)`.  All checks precede
the mutations; the destination stage is re-read after the source removal
because source and destination may be the same stage (the stage mutates
through its own interior lock in the source). -/
def Pipeline.moveAsIs (s : Pipeline) (destName : String) (ids : List Int) :
    Except PErr Unit × Pipeline :=
  match s.checkIdsInTheSameStage ids with
  | .error e => (.error e, s)
  | .ok srcIdx =>
    match s.stages.get? srcIdx with
    | none => (.error .sourceNotFound, s)
    | some srcStage =>
      match s.findStage destName srcIdx with
      | none => (.error .destNotFound, s)
      | some (destIdx, destStage0) =>
        if srcStage.stage_type ≠ destStage0.stage_type then
          (.error .wrongStageKind, s)
        else
          let (removed, srcStage') := srcStage.deleteMany ids
          let s1 := { s with stages := s.stages.set srcIdx srcStage' }
          let s2 := s1.updateFrameLocations ids destIdx
          match s2.rotatePayloads removed with
          | none => (.error .panicked, s2)
          | some payloads =>
            match s2.stages.get? destIdx with
            | none => (.error .stageNotFound, s2)
            | some destStage =>
              match destStage.addPayloads payloads with
              | .error e => (.error e, s2)
              | .ok dest' =>
                (.ok (), { s2 with stages := s2.stages.set destIdx dest' })

/-- The per-id loop of `Pipeline::move_and_pack_frames`: delete each frame
from the source stage, accumulating the batch member map, the merged update
list and the member contexts.  A missing id is skipped (`if let Some`); a
batch payload aborts after its removal.  The Rust loop works through one
`&PipelineStage` borrow of the source stage and touches nothing else of the
pipeline, so it is modelled directly on the stage. -/
def packLoop : List Int → PipelineStage → List (Int × Nat) →
    List (Int × Nat) → List (Int × Ctx) →
    Except PErr (List (Int × Nat) × List (Int × Nat) × List (Int × Ctx)) ×
      PipelineStage
  | [], st, bf, bu, bc => (.ok (bf, bu, bc), st)
  | id :: rest, st, bf, bu, bc =>
    match kvLookup id st.payload with
    | none => packLoop rest st bf bu bc
    | some p =>
      let st' : PipelineStage := { st with payload := kvErase id st.payload }
      match p with
      | .frame f u c =>
        packLoop rest st' (kvSet id f bf)
          (bu ++ u.map (fun x => (id, x))) (kvSet id c bc)
      | .batch _ _ _ => (.error .wrongPayload, st')

/-- `Pipeline::move_and_pack_frames(dest_stage_name, frame_ids)`.  The batch
id is allocated and the member locations are rewritten to the destination
index *before* the members are extracted from the source. -/
def Pipeline.moveAndPackFrames (s : Pipeline) (destName : String)
    (frameIds : List Int) : Except PErr Int × Pipeline :=
  match s.checkIdsInTheSameStage frameIds with
  | .error e => (.error e, s)
  | .ok srcIdx =>
    match s.stages.get? srcIdx with
    | none => (.error .sourceNotFound, s)
    | some srcStage =>
      match s.findStage destName srcIdx with
      | none => (.error .destNotFound, s)
      | some (destIdx, destStage0) =>
        if srcStage.stage_type = .batch ∨ destStage0.stage_type = .frame then
          (.error .wrongStageKind, s)
        else
          let batchId := s.id_counter + 1
          let s1 := { s with id_counter := batchId }
          let s2 := s1.updateFrameLocations frameIds destIdx
          match packLoop frameIds srcStage [] [] [] with
          | (.error e, src') =>
            (.error e, { s2 with stages := s2.stages.set srcIdx src' })
          | (.ok (bf, bu, bc), src') =>
            let s3 := { s2 with stages := s2.stages.set srcIdx src' }
            match rotateCtxs s3 bc with
            | none => (.error .panicked, s3)
            | some bc' =>
              match s3.stages.get? destIdx with
              | none => (.error .stageNotFound, s3)
              | some destStage =>
                match destStage.addBatchPayload batchId (.batch bf bu bc') with
                | .error e => (.error e, s3)
                | .ok dest' =>
                  let s4 := { s3 with stages := s3.stages.set destIdx dest' }
                  (.ok batchId,
                   { s4 with frame_locations := kvSet batchId destIdx s4.frame_locations })

/-- The per-member build of `Pipeline::move_and_unpack_batch`: every member
becomes a frame payload with an empty update list and a rotated span; the
member's context is removed from the batch's context map (`.unwrap()` on a
missing one = `none`). -/
def unpackBuild (s : Pipeline) : List (Int × Nat) → List (Int × Ctx) →
    List (Int × PipelinePayload) → Option (List (Int × PipelinePayload))
  | [], _, acc => some acc
  | (fid, f) :: rest, bc, acc =>
    match kvLookup fid bc with
    | none => none
    | some _ =>
      match s.getStageSpan fid with
      | none => none
      | some c' => unpackBuild s rest (kvErase fid bc) (kvSet fid (.frame f [] c') acc)

/-- The update-routing loop of `Pipeline::move_and_unpack_batch`: each
batch-level `(memberId, update)` is appended to the member's fresh payload;
an unknown member id fails the call. -/
def routeUpdates : List (Int × Nat) → List (Int × PipelinePayload) →
    Except PErr (List (Int × PipelinePayload))
  | [], ps => .ok ps
  | (fid, u) :: rest, ps =>
    match kvLookup fid ps with
    | some (.frame f us c) => routeUpdates rest (kvSet fid (.frame f (us ++ [u]) c) ps)
    | some (.batch _ _ _) => .error .wrongPayload
    | none => .error .frameNotFoundInDest

/-- `Pipeline::move_and_unpack_batch(dest_stage_name, batch_id)`. -/
def Pipeline.moveAndUnpackBatch (s : Pipeline) (destName : String)
    (batchId : Int) : Except PErr (List Int) × Pipeline :=
  match kvLookup batchId s.frame_locations with
  | none => (.error .locationNotFound, s)
  | some srcIdx =>
    match s.stages.get? srcIdx with
    | none => (.error .sourceNotFound, s)
    | some srcStage =>
      match s.findStage destName srcIdx with
      | none => (.error .destNotFound, s)
      | some (destIdx, destStage0) =>
        if srcStage.stage_type = .frame ∨ destStage0.stage_type = .batch then
          (.error .wrongStageKind, s)
        else
          match kvLookup batchId srcStage.payload with
          | none => (.error .batchNotFound, s)
          | some p =>
            let srcStage' : PipelineStage :=
              { srcStage with payload := kvErase batchId srcStage.payload }
            let s1 := { s with stages := s.stages.set srcIdx srcStage' }
            match p with
            | .frame _ _ _ => (.error .wrongPayload, s1)
            | .batch bf bu bc =>
              let s2 :=
                { s1 with frame_locations := kvErase batchId s1.frame_locations }
              let frameIds := bf.map Prod.fst
              let s3 := s2.updateFrameLocations frameIds destIdx
              match unpackBuild s3 bf bc [] with
              | none => (.error .panicked, s3)
              | some payloads =>
                match routeUpdates bu payloads with
                | .error e => (.error e, s3)
                | .ok payloads' =>
                  match s3.stages.get? destIdx with
                  | none => (.error .stageNotFound, s3)
                  | some destStage =>
                    match destStage.addPayloads payloads' with
                    | .error e => (.error e, s3)
                    | .ok dest' =>
                      (.ok frameIds,
                       { s3 with stages := s3.stages.set destIdx dest' })

/-- The payload stored for `id`, read through the payload-location map and
the owning stage (the common prefix of the getters/`delete`). -/
def Pipeline.stagePayloadOf (s : Pipeline) (id : Int) : Option PipelinePayload :=
  match kvLookup id s.frame_locations with
  | none => none
  | some idx =>
    match s.stages.get? idx with
    | none => none
    | some st => kvLookup id st.payload

/-- The fields of the batch payload stored for `id`, if any
(member map, update list, member contexts). -/
def Pipeline.batchPayloadData (s : Pipeline) (id : Int) :
    Option (List (Int × Nat) × List (Int × Nat) × List (Int × Ctx)) :=
  match s.stagePayloadOf id with
  | some (.batch bf bu bc) => some (bf, bu, bc)
  | _ => none

/-- The updates a batch update list carries for member `m`, in order. -/
def updatesFor (m : Int) (bu : List (Int × Nat)) : List Nat :=
  (bu.filter (fun p => p.1 = m)).map (fun p => p.2)

/-- One public pipeline operation, for reasoning about operation sequences. -/
inductive POp : Type
  | addFrame (stage : String) (f : Nat)
  | moveAsIs (dest : String) (ids : List Int)
  | moveAndPackFrames (dest : String) (ids : List Int)
  | moveAndUnpackBatch (dest : String) (id : Int)
  | delete (id : Int)
  deriving Repr, DecidableEq

/-- Apply one operation, keeping the state only when the call succeeds. -/
def applyOp (s : Pipeline) : POp → Except PErr Pipeline
  | .addFrame n f =>
    match s.addFrame n f with
    | (.ok _, s') => .ok s'
    | (.error e, _) => .error e
  | .moveAsIs d ids =>
    match s.moveAsIs d ids with
    | (.ok _, s') => .ok s'
    | (.error e, _) => .error e
  | .moveAndPackFrames d ids =>
    match s.moveAndPackFrames d ids with
    | (.ok _, s') => .ok s'
    | (.error e, _) => .error e
  | .moveAndUnpackBatch d id =>
    match s.moveAndUnpackBatch d id with
    | (.ok _, s') => .ok s'
    | (.error e, _) => .error e
  | .delete id =>
    match s.delete id with
    | (.ok _, s') => .ok s'
    | (.error e, _) => .error e

/-- Run a sequence of operations; `.ok` exactly when every call succeeded. -/
def runOps : List POp → Pipeline → Except PErr Pipeline
  | [], s => .ok s
  | op :: t, s =>
    match applyOp s op with
    | .ok s' => runOps t s'
    | .error e => .error e

/-- Admit `k` frames through `Pipeline::add_frame`, recording for each the
validity of the root span stored for the returned id; `none` if any call
fails. -/
def runAddFrames (name : String) (f : Nat) : Nat → Pipeline →
    Option (List Bool × Pipeline)
  | 0, s => some ([], s)
  | k + 1, s =>
    match s.addFrame name f with
    | (.ok id, s') =>
      match kvLookup id s'.root_spans with
      | none => none
      | some v => (runAddFrames name f k s').map (fun r => (v :: r.1, r.2))
    | (.error _, _) => none

/-- An `Attribute` (`savant_core/src/primitives/attribute.rs`), reduced to
the surface the KVS uses: its `namespace` (here `ns`, as `namespace` is a
Lean keyword), its `name`, and an opaque token for the rest of its data. -/
structure Attribute : Type where
  ns : String
  name : String
  value : Nat
  deriving Repr, DecidableEq

/-- The KVS backing store (`WS_DATA.kvs`, a `moka::future::Cache` keyed by
`(namespace, name)` holding `(Option ttl-ms, Attribute)`).  TTL expiration
and capacity eviction are time/size effects outside the claims under study
and are not modelled; entries are kept as inserted. -/
abbrev KvsStore : Type := List ((String × String) × (Option Nat × Attribute))

/-- `moka::future::Cache::get_with(key, init)`: returns the entry for `key`
if one is present, otherwise resolves `init` and inserts it.  In particular
an existing entry is *not* replaced. -/
def cacheGetWith (k : String × String) (v : Option Nat × Attribute)
    (store : KvsStore) : KvsStore :=
  if kvMem k store then store else store ++ [(k, v)]

/-- `kvs::asynchronous::set_attributes(attributes, ttl)` from
`savant_core/src/webserver/kvs.rs`: one `get_with` per attribute. -/
def setAttributes (attrs : List Attribute) (ttl : Option Nat)
    (store : KvsStore) : KvsStore :=
  attrs.foldl (fun st a => cacheGetWith (a.ns, a.name) (ttl, a) st) store

/-- `kvs::asynchronous::get_attribute(ns, name)`. -/
def getAttribute (ns name : String) (store : KvsStore) : Option Attribute :=
  (kvLookup (ns, name) store).map (fun e => e.2)

/-- Modelled from the spec: validity of a glob pattern for the external
`globset` crate (`Glob::new` succeeding).  §6.1 gives unix-style globs; a
pattern is taken to be malformed when a `[` character class is never closed
or a `\` escape has nothing to escape (the `globset` failure modes relevant
here).  The Boolean argument tells whether the scanner is inside a class. -/
def globScan : List Char → Bool → Bool
  | [], inClass => ¬inClass
  | c :: rest, true => if c = ']' then globScan rest false else globScan rest true
  | c :: rest, false =>
    if c = '\\' then
      match rest with
      | [] => false
      | _ :: t => globScan t false
    else if c = '[' then globScan rest true
    else globScan rest false

/-- Whether `globset::Glob::new(pat)` succeeds. -/
def globValid (pat : String) : Bool := globScan pat.data false

/-- `Glob::new(pat)`: the compiled matcher is represented by the pattern
itself, `none` is the compilation error. -/
def globNew (pat : String) : Option String :=
  if globValid pat then some pat else none

/-- Modelled from the spec: unix-style glob matching (§6.1: `*` matches any
substring within a key part; `?` one character); no claim under study
depends on character-class matching. -/
def globMatchAux : List Char → List Char → Bool
  | [], [] => true
  | '*' :: ps, [] => globMatchAux ps []
  | _ :: _, [] => false
  | [], _ :: _ => false
  | '?' :: ps, _ :: cs => globMatchAux ps cs
  | '*' :: ps, c :: cs => globMatchAux ps (c :: cs) || globMatchAux ('*' :: ps) cs
  | p :: ps, c :: cs => (p = c) && globMatchAux ps cs
  termination_by p s => (s.length, p.length)

/-- Matching a compiled glob against a string. -/
def globsetMatch (pat x : String) : Bool := globMatchAux pat.data x.data

/-- Outcomes of a KVS call that can reject a pattern.  `invalidPattern` is
the error the spec postulates; `panicked` is an aborted call (a Rust
`unwrap` panic). -/
inductive KvsErr : Type
  | invalidPattern
  | panicked
  deriving Repr, DecidableEq

/-- The pattern pipeline shared by the searching/deleting KVS calls:
`ns.map(Glob::new).unwrap_or(Glob::new("*")).unwrap()` — an absent pattern
defaults to `*`, and a failed compilation is `.unwrap()`ed (panic). -/
def compileOrPanic : Option String → Option String
  | none => globNew "*"
  | some s => globNew s

/-- `kvs::asynchronous::search_attributes(ns, name)`. -/
def searchAttributes (ns name : Option String) (store : KvsStore) :
    Except KvsErr (List Attribute) :=
  match compileOrPanic ns with
  | none => .error .panicked
  | some nsPat =>
    match compileOrPanic name with
    | none => .error .panicked
    | some namePat =>
      .ok ((store.filter (fun e =>
        globsetMatch nsPat e.1.1 && globsetMatch namePat e.1.2)).map
        (fun e => e.2.2))

/-- `kvs::asynchronous::search_keys(ns, name)`. -/
def searchKeys (ns name : Option String) (store : KvsStore) :
    Except KvsErr (List (String × String)) :=
  match compileOrPanic ns with
  | none => .error .panicked
  | some nsPat =>
    match compileOrPanic name with
    | none => .error .panicked
    | some namePat =>
      .ok ((store.filter (fun e =>
        globsetMatch nsPat e.1.1 && globsetMatch namePat e.1.2)).map
        (fun e => e.1))

/-- `kvs::asynchronous::del_attributes(ns, name)`: collect the matching
keys, then remove them. -/
def delAttributes (ns name : Option String) (store : KvsStore) :
    Except KvsErr KvsStore :=
  match compileOrPanic ns with
  | none => .error .panicked
  | some nsPat =>
    match compileOrPanic name with
    | none => .error .panicked
    | some namePat =>
      .ok (store.filter (fun e =>
        ¬ (globsetMatch nsPat e.1.1 && globsetMatch namePat e.1.2)))

/-- `PipelineStatus` from `savant_core/src/webserver.rs`. -/
inductive PipelineStatus : Type
  | running
  | stopped
  | shutdown
  deriving Repr, DecidableEq

/-- `ShutdownMode` from `savant_core/src/webserver.rs` (`Notify` is the
serde-renamed `graceful` path segment). -/
inductive ShutdownMode : Type
  | notify
  | signal
  deriving Repr, DecidableEq

/-- The process-wide lifecycle state used by the shutdown endpoint
(`WsData` plus the `SHUTDOWN_SIGNAL_NO`, `WS_JOB` and `PID` statics of
`webserver.rs`).  `ws_job_started` abstracts `WS_JOB.get().is_some()`. -/
structure WsState : Type where
  shutdown_token : Option String := none
  shutdown_status : Option Bool := none
  status : PipelineStatus := .stopped
  ws_job_started : Bool := false
  shutdown_signal_no : Option Int := none
  pid : Int := 0
  deriving Repr, DecidableEq

/-- The HTTP statuses the shutdown handler produces. -/
inductive HttpStatus : Type
  | ok200
  | unauthorized401
  | internalServerError500
  deriving Repr, DecidableEq

/-- An externally visible side effect of the handler. -/
inductive SideEffect : Type
  | kill (pid : Int) (signal : Int)
  deriving Repr, DecidableEq

/-- POSIX `SIGINT`, the default shutdown signal. -/
def sigint : Int := 2

/-- `get_shutdown_signal()` — `OnceLock::get_or_init(|| SIGINT)`. -/
def WsState.getShutdownSignal (w : WsState) : Int × WsState :=
  match w.shutdown_signal_no with
  | some v => (v, w)
  | none => (sigint, { w with shutdown_signal_no := some sigint })

/-- The non-test `shutdown()` of `webserver.rs`: sets the shutdown-status
`OnceLock`, failing when it is already set. -/
def WsState.shutdown (w : WsState) : Except Unit WsState :=
  match w.shutdown_status with
  | some _ => .error ()
  | none => .ok { w with shutdown_status := some true }

/-- `set_status(s)`: fails only when the web-server job was never started
(the handler itself runs inside that job).  The asynchronous status write is
modelled as immediate. -/
def WsState.setStatus (w : WsState) (st : PipelineStatus) :
    Except Unit WsState :=
  if w.ws_job_started then .ok { w with status := st } else .error ()

/-- `shutdown_handler` for `POST /shutdown/{token}/{mode}`
(`savant_core/src/webserver.rs`): 500 without a configured token, 401 on a
token mismatch, otherwise latch the shutdown status (500 when already
latched), set the status to Shutdown (500 if that fails) and, in `signal`
mode, send the configured signal to the recorded PID. -/
def shutdownHandler (token : String) (mode : ShutdownMode) (w : WsState) :
    HttpStatus × WsState × List SideEffect :=
  match w.shutdown_token with
  | none => (.internalServerError500, w, [])
  | some configured =>
    if configured ≠ token then (.unauthorized401, w, [])
    else
      match w.shutdown with
      | .error _ => (.internalServerError500, w, [])
      | .ok w1 =>
        match w1.setStatus .shutdown with
        | .error _ => (.internalServerError500, w1, [])
        | .ok w2 =>
          match mode with
          | .signal =>
            let (sig, w3) := w2.getShutdownSignal
            (.ok200, w3, [.kill w3.pid sig])
          | .notify => (.ok200, w2, [])

theorem kvLookup_append {κ α : Type} [DecidableEq κ] (k : κ)
    (l₁ l₂ : List (κ × α)) :
    kvLookup k (l₁ ++ l₂) =
      match kvLookup k l₁ with
      | some v => some v
      | none => kvLookup k l₂ := by
  induction l₁ with
  | nil => simp [kvLookup]
  | cons h t ih =>
    obtain ⟨a, v⟩ := h
    by_cases hk : k = a <;> simp [kvLookup, hk, ih]

theorem kvLookup_kvErase {κ α : Type} [DecidableEq κ] (k k' : κ)
    (l : List (κ × α)) :
    kvLookup k (kvErase k' l) = if k = k' then none else kvLookup k l := by
  induction l with
  | nil => simp [kvErase, kvLookup]
  | cons h t ih =>
    obtain ⟨a, v⟩ := h
    by_cases h1 : k' = a
    · subst h1
      by_cases h2 : k = k'
      · subst h2
        simpa [kvErase, kvLookup] using ih
      · simp [kvErase, kvLookup, h2, ih]
    · by_cases h2 : k = a
      · subst h2
        have hne : ¬ k = k' := fun hh => h1 hh.symm
        simp [kvErase, kvLookup, h1, hne]
      · have h1' : ¬ k' = a := h1
        simp [kvErase, kvLookup, h1', h2, ih]

theorem kvLookup_kvSet {κ α : Type} [DecidableEq κ] (k k' : κ) (v : α)
    (l : List (κ × α)) :
    kvLookup k (kvSet k' v l) = if k = k' then some v else kvLookup k l := by
  unfold kvSet
  rw [kvLookup_append, kvLookup_kvErase]
  by_cases h : k = k'
  · simp [kvLookup, h]
  · simp only [if_neg h]
    cases h' : kvLookup k l <;> simp [kvLookup, h, h']

theorem kvMem_iff_mem_keys {κ α : Type} [DecidableEq κ] (k : κ)
    (l : List (κ × α)) : kvMem k l ↔ k ∈ l.map Prod.fst := by
  induction l with
  | nil => simp [kvMem, kvLookup]
  | cons h t ih =>
    obtain ⟨a, v⟩ := h
    by_cases hk : k = a
    · simp [kvMem, kvLookup, hk]
    · simp only [kvMem, kvLookup, if_neg hk] at ih ⊢
      simp [ih, hk]

theorem count_keys_kvErase {κ α : Type} [DecidableEq κ] (k k' : κ)
    (l : List (κ × α)) :
    ((kvErase k' l).map Prod.fst).count k =
      if k = k' then 0 else (l.map Prod.fst).count k := by
  induction l with
  | nil => simp [kvErase]
  | cons h t ih =>
    obtain ⟨a, v⟩ := h
    by_cases h1 : k' = a
    · subst h1
      by_cases h2 : k = k'
      · subst h2
        simpa [kvErase] using ih
      · simp [kvErase, List.count_cons, h2, ih]
    · by_cases h2 : k = a
      · subst h2
        have hne : ¬ k = k' := fun hh => h1 hh.symm
        have h1' : ¬ k' = k := h1
        simp [kvErase, List.count_cons, h1', hne, ih]
      · have h1' : ¬ k' = a := h1
        have h2' : ¬ a = k := fun hh => h2 hh.symm
        simp [kvErase, List.count_cons, h1', h2', ih]

theorem count_keys_kvSet {κ α : Type} [DecidableEq κ] (k k' : κ) (v : α)
    (l : List (κ × α)) :
    ((kvSet k' v l).map Prod.fst).count k =
      if k = k' then 1 else (l.map Prod.fst).count k := by
  unfold kvSet
  rw [List.map_append, List.count_append, count_keys_kvErase]
  by_cases h : k = k'
  · simp [h, List.count_cons]
  · have h' : ¬ k' = k := fun hh => h hh.symm
    simp [h, List.count_cons, h']

theorem nodup_keys_kvErase {κ α : Type} [DecidableEq κ] (k : κ)
    (l : List (κ × α)) (h : (l.map Prod.fst).Nodup) :
    ((kvErase k l).map Prod.fst).Nodup := by
  rw [List.nodup_iff_count_le_one] at h ⊢
  intro a
  rw [count_keys_kvErase]
  by_cases hk : a = k <;> simp [hk, h a]

theorem nodup_keys_kvSet {κ α : Type} [DecidableEq κ] (k : κ) (v : α)
    (l : List (κ × α)) (h : (l.map Prod.fst).Nodup) :
    ((kvSet k v l).map Prod.fst).Nodup := by
  rw [List.nodup_iff_count_le_one] at h ⊢
  intro a
  rw [count_keys_kvSet]
  by_cases hk : a = k <;> simp [hk, h a]

theorem kvLookup_cacheGetWith (k k' : String × String)
    (v : Option Nat × Attribute) (store : KvsStore) :
    kvLookup k (cacheGetWith k' v store) =
      if kvMem k' store then kvLookup k store
      else if k = k' then some v else kvLookup k store := by
  unfold cacheGetWith
  by_cases h : kvMem k' store
  · simp [h]
  · simp only [h, if_false]
    rw [kvLookup_append]
    by_cases hk : k = k'
    · subst hk
      have : kvLookup k store = none := by
        unfold kvMem at h
        cases hv : kvLookup k store
        · rfl
        · rw [hv] at h; simp at h
      simp [this, kvLookup]
    · cases h' : kvLookup k store <;> simp [kvLookup, hk, h']

theorem kvLookup_setAttributes_of_mem (attrs : List Attribute)
    (ttl : Option Nat) (store : KvsStore) (k : String × String)
    (h : kvMem k store) :
    kvLookup k (setAttributes attrs ttl store) = kvLookup k store := by
  induction attrs generalizing store with
  | nil => rfl
  | cons a t ih =>
    show kvLookup k (setAttributes t ttl (cacheGetWith (a.ns, a.name) (ttl, a) store)) = _
    have hmem : kvMem k (cacheGetWith (a.ns, a.name) (ttl, a) store) := by
      unfold kvMem at h ⊢
      rw [kvLookup_cacheGetWith]
      by_cases h1 : kvMem (a.ns, a.name) store
      · simp [h1, h]
      · by_cases h2 : k = (a.ns, a.name) <;> simp [h1, h2, h]
    rw [ih _ hmem, kvLookup_cacheGetWith]
    by_cases h1 : kvMem (a.ns, a.name) store
    · simp [h1]
    · have h2 : k ≠ (a.ns, a.name) := by
        intro hk
        subst hk
        exact h1 h
      simp [h1, h2]

/-- C3 — the claim as stated is false: `set_attributes` goes through
`moka::future::Cache::get_with`, which inserts only when the key is absent.
Re-setting the already-present key `("abc","xax")` with a new attribute
value and a fresh TTL leaves the stored `(None, old-attribute)` entry
untouched instead of replacing it. -/
theorem c3_counterexample :
    setAttributes [⟨"abc", "xax", 2⟩] (some 5)
        (setAttributes [⟨"abc", "xax", 1⟩] none []) =
      [(("abc", "xax"), (none, ⟨"abc", "xax", 1⟩))] ∧
    kvLookup ("abc", "xax")
        (setAttributes [⟨"abc", "xax", 2⟩] (some 5)
          (setAttributes [⟨"abc", "xax", 1⟩] none [])) ≠
      some (some 5, ⟨"abc", "xax", 2⟩) := by
  constructor
  · rfl
  · decide

theorem kvLookup_setAttributes_of_not_mem (attrs : List Attribute)
    (ttl : Option Nat) (store : KvsStore) (k : String × String)
    (h : ¬ kvMem k store) :
    kvLookup k (setAttributes attrs ttl store) =
      (attrs.find? (fun a => decide ((a.ns, a.name) = k))).map
        (fun a => (ttl, a)) := by
  induction attrs generalizing store with
  | nil =>
    unfold kvMem at h
    cases hv : kvLookup k store with
    | none => simpa [setAttributes] using hv
    | some v => rw [hv] at h; simp at h
  | cons b t ih =>
    show kvLookup k (setAttributes t ttl (cacheGetWith (b.ns, b.name) (ttl, b) store)) = _
    by_cases hb : (b.ns, b.name) = k
    · have hne : ¬ kvMem (b.ns, b.name) store := by rw [hb]; exact h
      have hmem : kvMem k (cacheGetWith (b.ns, b.name) (ttl, b) store) := by
        unfold kvMem
        rw [kvLookup_cacheGetWith, if_neg hne, if_pos hb.symm]
        rfl
      rw [kvLookup_setAttributes_of_mem _ _ _ _ hmem, kvLookup_cacheGetWith,
        if_neg hne, if_pos hb.symm,
        List.find?_cons_of_pos _ (by simp [hb]), Option.map_some']
    · have habs : ¬ kvMem k (cacheGetWith (b.ns, b.name) (ttl, b) store) := by
        unfold kvMem
        rw [kvLookup_cacheGetWith]
        by_cases h1 : kvMem (b.ns, b.name) store
        · rw [if_pos h1]; exact h
        · rw [if_neg h1, if_neg (fun hh => hb hh.symm)]; exact h
      rw [ih _ habs, List.find?_cons_of_neg _ (by simp [hb])]

/-- C3 (amended) — `setAttributes` inserts, for each attribute whose
`(namespace, name)` key is absent, the new `(ttl, attribute)` pair; a key
that is already present keeps its existing entry unchanged (neither the
stored attribute nor its TTL is replaced). -/
theorem c3_set_attributes_amended (attrs : List Attribute) (ttl : Option Nat)
    (store : KvsStore) (k : String × String) :
    (kvMem k store →
      kvLookup k (setAttributes attrs ttl store) = kvLookup k store) ∧
    (¬ kvMem k store →
      kvLookup k (setAttributes attrs ttl store) =
        (attrs.find? (fun a => decide ((a.ns, a.name) = k))).map
          (fun a => (ttl, a))) :=
  ⟨kvLookup_setAttributes_of_mem attrs ttl store k,
   kvLookup_setAttributes_of_not_mem attrs ttl store k⟩

theorem c3_set_attributes_amended_witness :
    (kvMem ("abc", "xax")
        ([(("abc", "xax"), (none, ⟨"abc", "xax", 1⟩))] : KvsStore) ∧
      kvLookup ("abc", "xax")
          (setAttributes [⟨"abc", "xax", 2⟩] (some 5)
            [(("abc", "xax"), (none, ⟨"abc", "xax", 1⟩))]) =
        kvLookup ("abc", "xax")
          ([(("abc", "xax"), (none, ⟨"abc", "xax", 1⟩))] : KvsStore)) ∧
    (¬ kvMem ("def", "yay") ([] : KvsStore) ∧
      kvLookup ("def", "yay")
          (setAttributes [⟨"def", "yay", 3⟩] (some 7) []) =
        (([⟨"def", "yay", 3⟩] : List Attribute).find?
            (fun a => decide ((a.ns, a.name) = ("def", "yay")))).map
          (fun a => ((some 7 : Option Nat), a))) :=
  ⟨⟨by decide,
    (c3_set_attributes_amended [⟨"abc", "xax", 2⟩] (some 5)
      [(("abc", "xax"), (none, ⟨"abc", "xax", 1⟩))] ("abc", "xax")).1
      (by decide)⟩,
   ⟨by decide,
    (c3_set_attributes_amended [⟨"def", "yay", 3⟩] (some 7) [] ("def", "yay")).2
      (by decide)⟩⟩

/-- The stage layout of the spec's scenario S1 and of `create_pipeline()` in
the pipeline2 tests. -/
def cfgS1 : List (String × StageType) :=
  [("input", .frame), ("proc1", .batch), ("proc2", .batch), ("output", .frame)]

/-- The freshly constructed S1 pipeline. -/
def exP0 : Pipeline := (Pipeline.new cfgS1).toOption.getD {}

/-- S1 pipeline after `add_frame("input", ·)` (assigned id 1). -/
def exFrameP : Pipeline := (exP0.addFrame "input" 7).2

/-- After additionally `move_and_pack_frames("proc1", [1])` (batch id 2). -/
def exPackedP : Pipeline := (exFrameP.moveAndPackFrames "proc1" [1]).2

/-- C8 — the claim as stated is false: with the malformed glob `[` (an
unclosed character class) the searching and deleting KVS calls abort in the
`.unwrap()` of the failed `Glob::new` compilation instead of returning an
InvalidPattern error. -/
theorem c8_counterexample :
    searchAttributes (some "[") none [] = .error .panicked ∧
    searchAttributes (some "[") none [] ≠ .error .invalidPattern ∧
    searchKeys (some "[") none [] = .error .panicked ∧
    delAttributes (some "[") none [] = .error .panicked := by
  refine ⟨rfl, ?_, rfl, rfl⟩
  intro h
  rw [show searchAttributes (some "[") none [] = .error .panicked from rfl] at h
  simp at h

/-- C8 (amended) — for every search, search-keys or bulk-delete call whose
namespace or name pattern is a malformed glob, the call panics on the
`.unwrap()` of the failed glob compilation (aborting the call) rather than
returning an InvalidPattern error. -/
theorem c8_malformed_glob_panics (pat : String) (hpat : globValid pat = false)
    (other : Option String) (store : KvsStore) :
    searchAttributes (some pat) other store = .error .panicked ∧
    searchKeys (some pat) other store = .error .panicked ∧
    delAttributes (some pat) other store = .error .panicked ∧
    searchAttributes other (some pat) store = .error .panicked ∧
    searchKeys other (some pat) store = .error .panicked ∧
    delAttributes other (some pat) store = .error .panicked := by
  have hg : globNew pat = none := by simp [globNew, hpat]
  refine ⟨?_, ?_, ?_, ?_, ?_, ?_⟩
  · simp [searchAttributes, compileOrPanic, hg]
  · simp [searchKeys, compileOrPanic, hg]
  · simp [delAttributes, compileOrPanic, hg]
  · unfold searchAttributes
    cases h' : compileOrPanic other <;> simp [compileOrPanic, hg]
  · unfold searchKeys
    cases h' : compileOrPanic other <;> simp [compileOrPanic, hg]
  · unfold delAttributes
    cases h' : compileOrPanic other <;> simp [compileOrPanic, hg]

theorem c8_malformed_glob_panics_witness :
    globValid "[" = false ∧
    searchAttributes (some "[") none ([] : KvsStore) = .error .panicked ∧
    delAttributes none (some "[") ([] : KvsStore) = .error .panicked :=
  ⟨by decide,
   (c8_malformed_glob_panics "[" (by decide) none []).1,
   (c8_malformed_glob_panics "[" (by decide) none []).2.2.2.2.2⟩

/-- C5 — evaluating `delete` at the failing input: in the S1 pipeline,
after `add_frame("input", ·) = 1` and `move_and_pack_frames("proc1", [1]) =
2`, the id 2 is a live batch payload, yet `delete(2)` does not return the
member→root-span map: the `Batch` arm re-acquires the `root_spans` write
lock already held since pipeline2.rs line 343 (`parking_lot` locks are not
reentrant), so the call deadlocks. -/
theorem c5_delete_batch_deadlocks :
    exPackedP.batchPayloadData 2 = some ([(1, 7)], [], [(1, false)]) ∧
    (exPackedP.delete 2).1 = .error .deadlock := by
  constructor
  · rfl
  · rfl

/-- C7 — the claim as stated is false: on a fresh pipeline on which nothing
was ever set, merely *reading* the sampling period (`get_sampling_period`
uses `OnceLock::get_or_init(|| 0)`) initializes the cell, after which the
first `set_sampling_period` call fails with AlreadySet; likewise for the
root-span name. -/
theorem c7_counterexample :
    exP0.sampling_period = none ∧
    ((exP0.getSamplingPeriod).2.setSamplingPeriod 2).1 = .error .alreadySet ∧
    exP0.root_span_name = none ∧
    ((exP0.getRootSpanName).2.setRootSpanName "x").1 = .error .alreadySet := by
  refine ⟨rfl, rfl, rfl, rfl⟩

/-- C7 (amended) — each once-settable configuration cell (sampling period,
root-span name) holds at most one value ever: an explicit set succeeds
exactly when the cell is still uninitialized (in particular a set after any
read fails, since reads initialize the default), a set on an initialized
cell fails with AlreadySet leaving the state unchanged, and reads return
the stored value, or initialize and return the default (period 0, name
"video_pipeline") when the cell is uninitialized. -/
theorem c7_once_settable_config (s : Pipeline) (p : Int) (n : String) :
    (s.sampling_period = none →
      s.setSamplingPeriod p = (.ok (), { s with sampling_period := some p })) ∧
    (∀ v, s.sampling_period = some v →
      s.setSamplingPeriod p = (.error .alreadySet, s)) ∧
    (s.sampling_period = none →
      s.getSamplingPeriod = (0, { s with sampling_period := some 0 })) ∧
    (∀ v, s.sampling_period = some v → s.getSamplingPeriod = (v, s)) ∧
    (s.root_span_name = none →
      s.setRootSpanName n = (.ok (), { s with root_span_name := some n })) ∧
    (∀ v, s.root_span_name = some v →
      s.setRootSpanName n = (.error .alreadySet, s)) ∧
    (s.root_span_name = none →
      s.getRootSpanName =
        (defaultRootSpanName, { s with root_span_name := some defaultRootSpanName })) ∧
    (∀ v, s.root_span_name = some v → s.getRootSpanName = (v, s)) := by
  refine ⟨fun h => ?_, fun v h => ?_, fun h => ?_, fun v h => ?_,
          fun h => ?_, fun v h => ?_, fun h => ?_, fun v h => ?_⟩ <;>
    simp [Pipeline.setSamplingPeriod, Pipeline.getSamplingPeriod,
      Pipeline.setRootSpanName, Pipeline.getRootSpanName, h]

theorem c7_once_settable_config_witness :
    exP0.sampling_period = none ∧
    exP0.setSamplingPeriod 2 = (.ok (), { exP0 with sampling_period := some 2 }) ∧
    ({ exP0 with sampling_period := some 2 }).sampling_period = some 2 ∧
    ({ exP0 with sampling_period := some 2 }).setSamplingPeriod 3 =
      (.error .alreadySet, { exP0 with sampling_period := some 2 }) ∧
    exP0.getSamplingPeriod = (0, { exP0 with sampling_period := some 0 }) :=
  ⟨rfl,
   (c7_once_settable_config exP0 2 "x").1 rfl,
   rfl,
   (c7_once_settable_config { exP0 with sampling_period := some 2 } 3 "x").2.1 2 rfl,
   (c7_once_settable_config exP0 2 "x").2.2.1 rfl⟩

/-- C9 — `POST /shutdown/{token}/{mode}`: 500 when no shutdown token is
configured; 401 when the supplied token mismatches; on a match, 200 with
the shutdown latch set, the status moved to Shutdown and, in `signal` mode,
the configured signal sent to the recorded PID; once the latch is set (as
after any successful attempt) a further matching attempt gets 500. -/
theorem c9_shutdown_handler (w : WsState) (tok t : String)
    (mode : ShutdownMode) (hstarted : w.ws_job_started = true) :
    (w.shutdown_token = none →
      shutdownHandler tok mode w = (.internalServerError500, w, [])) ∧
    (w.shutdown_token = some t → t ≠ tok →
      shutdownHandler tok mode w = (.unauthorized401, w, [])) ∧
    (w.shutdown_token = some t → t = tok → w.shutdown_status = none →
      ∃ w' effs, shutdownHandler tok mode w = (.ok200, w', effs) ∧
        w'.status = .shutdown ∧ w'.shutdown_status = some true ∧
        w'.pid = w.pid ∧ w'.shutdown_token = w.shutdown_token ∧
        effs = (if mode = .signal
          then [SideEffect.kill w.pid (w.getShutdownSignal).1] else [])) ∧
    (w.shutdown_token = some t → t = tok → ∀ b, w.shutdown_status = some b →
      shutdownHandler tok mode w = (.internalServerError500, w, [])) := by
  refine ⟨fun h => ?_, fun h hne => ?_, fun h heq hnone => ?_, fun h heq b hb => ?_⟩
  · simp [shutdownHandler, h]
  · simp [shutdownHandler, h, hne]
  · subst heq
    cases mode with
    | notify =>
      refine ⟨{ w with shutdown_status := some true, status := .shutdown }, [], ?_⟩
      simp [shutdownHandler, h, WsState.shutdown, hnone, WsState.setStatus, hstarted]
    | signal =>
      cases hsig : w.shutdown_signal_no with
      | none =>
        refine ⟨{ w with shutdown_status := some true, status := .shutdown,
                         shutdown_signal_no := some sigint },
                [.kill w.pid sigint], ?_⟩
        simp [shutdownHandler, h, WsState.shutdown, hnone, WsState.setStatus,
          hstarted, WsState.getShutdownSignal, hsig]
      | some v =>
        refine ⟨{ w with shutdown_status := some true, status := .shutdown },
                [.kill w.pid v], ?_⟩
        simp [shutdownHandler, h, WsState.shutdown, hnone, WsState.setStatus,
          hstarted, WsState.getShutdownSignal, hsig]
  · subst heq
    simp [shutdownHandler, h, WsState.shutdown, hb]

theorem c9_shutdown_handler_witness :
    (shutdownHandler "12345" .notify { ws_job_started := true, pid := 42 } =
      (.internalServerError500, { ws_job_started := true, pid := 42 }, [])) ∧
    (shutdownHandler "wrong" .notify
        { shutdown_token := some "12345", ws_job_started := true, pid := 42 } =
      (.unauthorized401,
       { shutdown_token := some "12345", ws_job_started := true, pid := 42 }, [])) ∧
    (∃ w' effs,
      shutdownHandler "12345" .signal
          { shutdown_token := some "12345", ws_job_started := true, pid := 42 } =
        (.ok200, w', effs) ∧
      w'.status = .shutdown ∧ w'.shutdown_status = some true ∧ w'.pid = 42 ∧
      w'.shutdown_token = some "12345" ∧ effs = [SideEffect.kill 42 2]) ∧
    (shutdownHandler "12345" .notify
        { shutdown_token := some "12345", shutdown_status := some true,
          status := .shutdown, ws_job_started := true, pid := 42 } =
      (.internalServerError500,
       { shutdown_token := some "12345", shutdown_status := some true,
         status := .shutdown, ws_job_started := true, pid := 42 }, [])) := by
  refine ⟨?_, ?_, ?_, ?_⟩
  · exact (c9_shutdown_handler _ "12345" "x" .notify rfl).1 rfl
  · exact (c9_shutdown_handler _ "wrong" "12345" .notify rfl).2.1 rfl (by decide)
  · obtain ⟨w', effs, h1, h2, h3, h4, h5, h6⟩ :=
      (c9_shutdown_handler
        { shutdown_token := some "12345", ws_job_started := true, pid := 42 }
        "12345" "12345" .signal rfl).2.2.1 rfl rfl rfl
    exact ⟨w', effs, h1, h2, h3, h4, h5, by simpa using h6⟩
  · exact (c9_shutdown_handler _ "12345" "12345" .notify rfl).2.2.2 rfl rfl true rfl

theorem findStageAux_le (name : String) (l : List PipelineStage) :
    ∀ i j st, findStageAux name i l = some (j, st) → i ≤ j := by
  induction l with
  | nil => intro i j st h; simp [findStageAux] at h
  | cons hd t ih =>
    intro i j st h
    unfold findStageAux at h
    by_cases hn : hd.stage_name = name
    · rw [if_pos hn] at h
      injection h with h
      obtain ⟨h1, h2⟩ := Prod.mk.injEq _ _ _ _ ▸ h
      omega
    · rw [if_neg hn] at h
      have := ih (i + 1) j st h
      omega

theorem findStage_le (s : Pipeline) (name : String) (start j : Nat)
    (st : PipelineStage) (h : s.findStage name start = some (j, st)) :
    start ≤ j :=
  findStageAux_le name (s.stages.drop start) start j st h

theorem moveAsIs_ok_finds (s : Pipeline) (d : String) (ids : List Int)
    (r : Unit) (s' : Pipeline) (h : s.moveAsIs d ids = (.ok r, s')) :
    ∃ i j st, s.checkIdsInTheSameStage ids = .ok i ∧
      s.findStage d i = some (j, st) ∧ i ≤ j := by
  unfold Pipeline.moveAsIs at h
  cases hc : s.checkIdsInTheSameStage ids with
  | error e => simp [hc] at h
  | ok i =>
    rw [hc] at h
    dsimp only at h
    refine ⟨i, ?_⟩
    cases hs : s.stages.get? i with
    | none => rw [hs] at h; simp at h
    | some src =>
      rw [hs] at h
      dsimp only at h
      cases hf : s.findStage d i with
      | none => rw [hf] at h; simp at h
      | some p =>
        obtain ⟨j, st⟩ := p
        exact ⟨j, st, rfl, rfl, findStage_le s d i j st hf⟩

theorem moveAndPackFrames_ok_finds (s : Pipeline) (d : String)
    (ids : List Int) (r : Int) (s' : Pipeline)
    (h : s.moveAndPackFrames d ids = (.ok r, s')) :
    ∃ i j st, s.checkIdsInTheSameStage ids = .ok i ∧
      s.findStage d i = some (j, st) ∧ i ≤ j := by
  unfold Pipeline.moveAndPackFrames at h
  cases hc : s.checkIdsInTheSameStage ids with
  | error e => simp [hc] at h
  | ok i =>
    rw [hc] at h
    dsimp only at h
    refine ⟨i, ?_⟩
    cases hs : s.stages.get? i with
    | none => rw [hs] at h; simp at h
    | some src =>
      rw [hs] at h
      dsimp only at h
      cases hf : s.findStage d i with
      | none => rw [hf] at h; simp at h
      | some p =>
        obtain ⟨j, st⟩ := p
        exact ⟨j, st, rfl, rfl, findStage_le s d i j st hf⟩

theorem moveAndUnpackBatch_ok_finds (s : Pipeline) (d : String)
    (batchId : Int) (r : List Int) (s' : Pipeline)
    (h : s.moveAndUnpackBatch d batchId = (.ok r, s')) :
    ∃ i j st, kvLookup batchId s.frame_locations = some i ∧
      s.findStage d i = some (j, st) ∧ i ≤ j := by
  unfold Pipeline.moveAndUnpackBatch at h
  cases hc : kvLookup batchId s.frame_locations with
  | none => simp [hc] at h
  | some i =>
    rw [hc] at h
    dsimp only at h
    refine ⟨i, ?_⟩
    cases hs : s.stages.get? i with
    | none => rw [hs] at h; simp at h
    | some src =>
      rw [hs] at h
      dsimp only at h
      cases hf : s.findStage d i with
      | none => rw [hf] at h; simp at h
      | some p =>
        obtain ⟨j, st⟩ := p
        exact ⟨j, st, rfl, rfl, findStage_le s d i j st hf⟩

/-- C2 — the claim as stated is false: `find_stage(dest, start_from =
source_index)` searches *inclusively* from the source index, so a
destination name resolving to the source stage itself is accepted.  In the
S1 pipeline with frame 1 in "input", `move_as_is("input", [1])` succeeds
(the destination resolves to index 0, the source's own index) instead of
being rejected. -/
theorem c2_counterexample :
    exFrameP.checkIdsInTheSameStage [1] = .ok 0 ∧
    (exFrameP.findStage "input" 0).map (fun p => p.1) = some 0 ∧
    (exFrameP.moveAsIs "input" [1]).1 = .ok () := by
  refine ⟨rfl, rfl, rfl⟩

/-- C2 (amended) — every movement operation looks its destination up with
`find_stage(dest, source_index)`, which only finds stages at an index
greater than *or equal to* the source's: whenever a movement succeeds, the
resolved destination index satisfies `source ≤ dest` (a destination name
occurring only strictly before the source is NotFound-rejected), but a
same-index destination — in particular the source stage itself for
`move_as_is` — is accepted, not rejected. -/
theorem c2_forward_only (s1 s2 s3 : Pipeline) (d1 d2 d3 : String)
    (ids1 ids2 : List Int) (b3 : Int) (r1 : Unit) (r2 : Int)
    (r3 : List Int) (s1' s2' s3' : Pipeline)
    (h1 : s1.moveAsIs d1 ids1 = (.ok r1, s1'))
    (h2 : s2.moveAndPackFrames d2 ids2 = (.ok r2, s2'))
    (h3 : s3.moveAndUnpackBatch d3 b3 = (.ok r3, s3')) :
    (∃ i j st, s1.checkIdsInTheSameStage ids1 = .ok i ∧
      s1.findStage d1 i = some (j, st) ∧ i ≤ j) ∧
    (∃ i j st, s2.checkIdsInTheSameStage ids2 = .ok i ∧
      s2.findStage d2 i = some (j, st) ∧ i ≤ j) ∧
    (∃ i j st, kvLookup b3 s3.frame_locations = some i ∧
      s3.findStage d3 i = some (j, st) ∧ i ≤ j) :=
  ⟨moveAsIs_ok_finds s1 d1 ids1 r1 s1' h1,
   moveAndPackFrames_ok_finds s2 d2 ids2 r2 s2' h2,
   moveAndUnpackBatch_ok_finds s3 d3 b3 r3 s3' h3⟩

theorem c2_forward_only_witness :
    ((exFrameP.moveAsIs "input" [1]).1 = .ok () ∧
      (exFrameP.moveAndPackFrames "proc1" [1]).1 = .ok 2 ∧
      (exPackedP.moveAndUnpackBatch "output" 2).1 = .ok [1]) ∧
    ((∃ i j st, exFrameP.checkIdsInTheSameStage [1] = .ok i ∧
        exFrameP.findStage "input" i = some (j, st) ∧ i ≤ j) ∧
      (∃ i j st, exFrameP.checkIdsInTheSameStage [1] = .ok i ∧
        exFrameP.findStage "proc1" i = some (j, st) ∧ i ≤ j) ∧
      (∃ i j st, kvLookup 2 exPackedP.frame_locations = some i ∧
        exPackedP.findStage "output" i = some (j, st) ∧ i ≤ j)) :=
  ⟨⟨rfl, rfl, rfl⟩,
   c2_forward_only exFrameP exFrameP exPackedP "input" "proc1" "output"
     [1] [1] 2 () 2 [1] (exFrameP.moveAsIs "input" [1]).2
     (exFrameP.moveAndPackFrames "proc1" [1]).2
     (exPackedP.moveAndUnpackBatch "output" 2).2
     rfl rfl rfl⟩

theorem findStage_congr (s s' : Pipeline) (name : String) (i : Nat)
    (h : s.stages = s'.stages) : s.findStage name i = s'.findStage name i := by
  unfold Pipeline.findStage
  rw [h]

theorem findStageAux_set (name : String) :
    ∀ (l : List PipelineStage) (i j : Nat) (st st' : PipelineStage),
    findStageAux name i l = some (j, st) → st'.stage_name = st.stage_name →
    findStageAux name i (l.set (j - i) st') = some (j, st') := by
  intro l
  induction l with
  | nil => intro i j st st' h _; simp [findStageAux] at h
  | cons hd t ih =>
    intro i j st st' h hname
    unfold findStageAux at h
    by_cases hn : hd.stage_name = name
    · rw [if_pos hn] at h
      injection h with h
      obtain ⟨h1, h2⟩ := Prod.mk.injEq _ _ _ _ ▸ h
      subst h1
      subst h2
      simp only [Nat.sub_self, List.set_cons_zero]
      unfold findStageAux
      rw [if_pos (hname.trans hn)]
    · rw [if_neg hn] at h
      have hle := findStageAux_le name t (i + 1) j st h
      have harith : j - i = (j - (i + 1)) + 1 := by omega
      rw [harith, List.set_cons_succ]
      unfold findStageAux
      rw [if_neg hn]
      exact ih (i + 1) j st st' h hname

theorem findStage_set (s : Pipeline) (name : String) (j : Nat)
    (st st' : PipelineStage) (h : s.findStage name 0 = some (j, st))
    (hname : st'.stage_name = st.stage_name) :
    Pipeline.findStage { s with stages := s.stages.set j st' } name 0 =
      some (j, st') := by
  unfold Pipeline.findStage at h ⊢
  simp only [List.drop_zero] at h ⊢
  have := findStageAux_set name s.stages 0 j st st' h hname
  simpa using this

/-- Every payload key in every stage is bounded by the id counter
(reachable states allocate ids from the counter). -/
def stageKeysBound (s : Pipeline) : Prop :=
  ∀ idx st, s.stages.get? idx = some st →
    ∀ k, kvMem k st.payload → k ≤ s.id_counter

theorem newAux_spec (cfg : List (String × StageType)) :
    ∀ (s p : Pipeline),
    cfg.foldlM (fun s q => s.addStage q.1 q.2) s = .ok p →
    p.id_counter = s.id_counter ∧ p.frame_counter = s.frame_counter ∧
    p.root_spans = s.root_spans ∧ p.frame_locations = s.frame_locations ∧
    p.sampling_period = s.sampling_period ∧
    p.root_span_name = s.root_span_name ∧
    ∀ st ∈ p.stages, st ∈ s.stages ∨ st.payload = [] := by
  induction cfg with
  | nil =>
    intro s p h
    simp only [List.foldlM_nil] at h
    cases h
    exact ⟨rfl, rfl, rfl, rfl, rfl, rfl, fun st hst => Or.inl hst⟩
  | cons q t ih =>
    intro s p h
    simp only [List.foldlM_cons] at h
    unfold Pipeline.addStage at h
    by_cases hdup : (s.findStage q.1 0).isSome
    · rw [if_pos hdup] at h
      simp [Bind.bind, Except.bind] at h
    · rw [if_neg hdup] at h
      simp only [Bind.bind, Except.bind] at h
      obtain ⟨h1, h2, h3, h4, h5, h6, h7⟩ := ih _ _ h
      refine ⟨h1, h2, h3, h4, h5, h6, fun st hst => ?_⟩
      rcases h7 st hst with hin | hpl
      · rcases List.mem_append.mp hin with hl | hr
        · exact Or.inl hl
        · simp at hr
          subst hr
          exact Or.inr rfl
      · exact Or.inr hpl

theorem new_spec (cfg : List (String × StageType)) (p : Pipeline)
    (h : Pipeline.new cfg = .ok p) :
    p.id_counter = 0 ∧ p.frame_counter = 0 ∧ p.root_spans = [] ∧
    p.frame_locations = [] ∧ p.sampling_period = none ∧
    p.root_span_name = none ∧ ∀ st ∈ p.stages, st.payload = [] := by
  obtain ⟨h1, h2, h3, h4, h5, h6, h7⟩ := newAux_spec cfg {} p h
  refine ⟨h1, h2, h3, h4, h5, h6, fun st hst => ?_⟩
  rcases h7 st hst with hin | hpl
  · simp at hin
  · exact hpl

theorem addFrameCore_ok (s : Pipeline) (name : String) (f : Nat) (pv : Bool)
    (idx : Nat) (st : PipelineStage)
    (hfind : s.findStage name 0 = some (idx, st))
    (hty : st.stage_type = .frame)
    (hfresh : ¬ kvMem (s.id_counter + 1) st.payload) :
    s.addFrameCore name f pv =
      (.ok (s.id_counter + 1),
       { s with
         frame_counter := s.frame_counter + 1,
         id_counter := s.id_counter + 1,
         root_span_name :=
           if pv then some (s.root_span_name.getD defaultRootSpanName)
           else s.root_span_name,
         root_spans := kvSet (s.id_counter + 1) pv s.root_spans,
         stages := s.stages.set idx
           ({ st with payload := kvSet (s.id_counter + 1) (.frame f [] pv) st.payload }),
         frame_locations := kvSet (s.id_counter + 1) idx s.frame_locations }) := by
  unfold Pipeline.findStage at hfind
  rw [List.drop_zero] at hfind
  unfold Pipeline.addFrameCore Pipeline.getStageSpan Pipeline.findStage
  unfold PipelineStage.addFramePayload
  cases pv with
  | false =>
    simp [List.drop_zero, kvLookup_kvSet, hfind, hty, hfresh]
  | true =>
    unfold Pipeline.getRootSpanName
    cases hrn : s.root_span_name with
    | none => simp [List.drop_zero, kvLookup_kvSet, hfind, hty, hfresh, hrn]
    | some rn => simp [List.drop_zero, kvLookup_kvSet, hfind, hty, hfresh, hrn]

theorem addFrame_ok (s : Pipeline) (name : String) (f : Nat) (N : Int)
    (idx : Nat) (st : PipelineStage)
    (hper : s.sampling_period = some N)
    (hfind : s.findStage name 0 = some (idx, st))
    (hty : st.stage_type = .frame)
    (hfresh : ¬ kvMem (s.id_counter + 1) st.payload) :
    (s.addFrame name f).1 = .ok (s.id_counter + 1) ∧
    ((s.addFrame name f).2).frame_counter = s.frame_counter + 1 ∧
    ((s.addFrame name f).2).id_counter = s.id_counter + 1 ∧
    ((s.addFrame name f).2).sampling_period = some N ∧
    ((s.addFrame name f).2).root_spans =
      kvSet (s.id_counter + 1)
        (decide (0 < N ∧ (s.frame_counter + 1) % N = 0)) s.root_spans ∧
    ((s.addFrame name f).2).stages = s.stages.set idx { st with payload := kvSet (s.id_counter + 1) (PipelinePayload.frame f [] (decide (0 < N ∧ (s.frame_counter + 1) % N = 0))) st.payload } := by
  have hty' : s.findStageType name 0 = some .frame := by
    unfold Pipeline.findStageType
    rw [hfind, Option.map_some']
    rw [hty]
  have hnotbatch : ¬ s.findStageType name 0 = some .batch := by
    rw [hty']
    intro hcontra
    injection hcontra with hcontra
    cases hcontra
  unfold Pipeline.addFrame
  unfold Pipeline.getSamplingPeriod
  rw [hper]
  dsimp only
  by_cases hcond : N ≤ 0 ∨ (s.frame_counter + 1) % N ≠ 0
  · have hv : decide (0 < N ∧ (s.frame_counter + 1) % N = 0) = false := by
      rcases hcond with hc | hc
      · simp; intro h0; omega
      · simp; intro _; omega
    rw [if_pos hcond]
    unfold Pipeline.addFrameWithTelemetry
    rw [if_neg hnotbatch]
    rw [addFrameCore_ok s name f false idx st hfind hty hfresh]
    rw [hv]
    simp [hper]
  · have hv : decide (0 < N ∧ (s.frame_counter + 1) % N = 0) = true := by
      push_neg at hcond
      simp [hcond.2]
      omega
    rw [if_neg hcond]
    unfold Pipeline.getRootSpanName
    cases hrn : s.root_span_name with
    | none =>
      dsimp only
      unfold Pipeline.addFrameWithTelemetry
      have hnb2 : ¬ Pipeline.findStageType
          { s with root_span_name := some defaultRootSpanName } name 0 =
            some StageType.batch := hnotbatch
      rw [if_neg hnb2]
      have hfind2 : Pipeline.findStage
          { s with root_span_name := some defaultRootSpanName } name 0 =
            some (idx, st) := hfind
      rw [addFrameCore_ok { s with root_span_name := some defaultRootSpanName }
        name f true idx st hfind2 hty hfresh]
      rw [hv]
      simp [hper]
    | some rn =>
      dsimp only
      unfold Pipeline.addFrameWithTelemetry
      rw [if_neg hnotbatch]
      rw [addFrameCore_ok s name f true idx st hfind hty hfresh]
      rw [hv]
      simp [hper, hrn]

theorem findStageAux_get (name : String) :
    ∀ (l : List PipelineStage) (i j : Nat) (st : PipelineStage),
    findStageAux name i l = some (j, st) → l.get? (j - i) = some st := by
  intro l
  induction l with
  | nil => intro i j st h; simp [findStageAux] at h
  | cons hd t ih =>
    intro i j st h
    unfold findStageAux at h
    by_cases hn : hd.stage_name = name
    · rw [if_pos hn] at h
      injection h with h
      obtain ⟨h1, h2⟩ := Prod.mk.injEq _ _ _ _ ▸ h
      subst h1
      subst h2
      simp
    · rw [if_neg hn] at h
      have hle := findStageAux_le name t (i + 1) j st h
      have harith : j - i = (j - (i + 1)) + 1 := by omega
      rw [harith]
      simpa using ih (i + 1) j st h

theorem findStage_get (s : Pipeline) (name : String) (j : Nat)
    (st : PipelineStage) (h : s.findStage name 0 = some (j, st)) :
    s.stages.get? j = some st := by
  unfold Pipeline.findStage at h
  rw [List.drop_zero] at h
  simpa using findStageAux_get name s.stages 0 j st h

theorem runAddFrames_spec (name : String) (f : Nat) (N : Int) :
    ∀ (k : Nat) (s : Pipeline), s.sampling_period = some N →
    (∃ idx st, s.findStage name 0 = some (idx, st) ∧ st.stage_type = .frame) →
    stageKeysBound s →
    ∃ L s', runAddFrames name f k s = some (L, s') ∧ L.length = k ∧
      ∀ i, i < k →
        L.get? i =
          some (decide (0 < N ∧ (s.frame_counter + 1 + (i : Int)) % N = 0)) := by
  intro k
  induction k with
  | zero =>
    intro s _ _ _
    exact ⟨[], s, rfl, rfl, fun i hi => absurd hi (Nat.not_lt_zero i)⟩
  | succ k ih =>
    intro s hper hstage hbound
    obtain ⟨idx, st, hfind, hty⟩ := hstage
    have hget : s.stages.get? idx = some st := findStage_get s name idx st hfind
    have hfresh : ¬ kvMem (s.id_counter + 1) st.payload := by
      intro hmem
      have := hbound idx st hget _ hmem
      omega
    obtain ⟨h1, h2, h3, h4, h5, h6⟩ :=
      addFrame_ok s name f N idx st hper hfind hty hfresh
    set v := decide (0 < N ∧ (s.frame_counter + 1) % N = 0) with hv
    set st2 : PipelineStage := { st with payload := kvSet (s.id_counter + 1) (PipelinePayload.frame f [] v) st.payload } with hst2
    set s2 := (s.addFrame name f).2 with hs2
    have hpair : s.addFrame name f = (.ok (s.id_counter + 1), s2) := by
      rw [← h1]
    have hstage2 : ∃ idx' st', s2.findStage name 0 = some (idx', st') ∧
        st'.stage_type = .frame := by
      refine ⟨idx, st2, ?_, by simp [hst2, hty]⟩
      have : s2.findStage name 0 =
          Pipeline.findStage { s with stages := s.stages.set idx st2 } name 0 :=
        findStage_congr _ _ name 0 (by simpa using h6)
      rw [this]
      exact findStage_set s name idx st st2 hfind rfl
    have hbound2 : stageKeysBound s2 := by
      intro idx' st' hget' a hmem
      rw [h3]
      have hg2 : (s.stages.set idx st2).get? idx' = some st' := by
        rw [← h6]; exact hget'
      rw [List.get?_set] at hg2
      by_cases hii : idx = idx'
      · subst hii
        rw [if_pos rfl, hget] at hg2
        have hg3 : st2 = st' := by simpa using hg2
        subst hg3
        have hmem' : (kvLookup a (kvSet (s.id_counter + 1)
            (PipelinePayload.frame f [] v) st.payload)).isSome := hmem
        rw [kvLookup_kvSet] at hmem'
        by_cases ha : a = s.id_counter + 1
        · omega
        · rw [if_neg ha] at hmem'
          have hb := hbound idx st hget a hmem'
          omega
      · rw [if_neg hii] at hg2
        have hb := hbound idx' st' hg2 a hmem
        omega
    obtain ⟨L', s'', hrun, hlen, hvals⟩ := ih s2 h4 hstage2 hbound2
    refine ⟨v :: L', s'', ?_, by simp [hlen], ?_⟩
    · unfold runAddFrames
      rw [hpair]
      dsimp only
      have hlook : kvLookup (s.id_counter + 1) s2.root_spans = some v := by
        rw [h5, kvLookup_kvSet, if_pos rfl]
      rw [hlook, hrun]
      rfl
    · intro i hi
      cases i with
      | zero =>
        simp only [List.get?_cons_zero]
        have heq : (0 : Int) < N ∧ (s.frame_counter + 1 + ((0 : Nat) : Int)) % N = 0 ↔
            0 < N ∧ (s.frame_counter + 1) % N = 0 := by
          constructor
          · rintro ⟨ha, hb⟩; exact ⟨ha, by simpa using hb⟩
          · rintro ⟨ha, hb⟩; exact ⟨ha, by simpa using hb⟩
        rw [hv, decide_eq_decide.mpr heq.symm]
      | succ i =>
        simp only [List.get?_cons_succ]
        rw [hvals i (by omega), h2]
        congr 1
        rw [decide_eq_decide]
        have heq : s.frame_counter + 1 + 1 + (i : Int) =
            s.frame_counter + 1 + ((i : Nat) + 1 : Nat) := by push_cast; ring
        rw [heq]

theorem window_mod_iff (N m r : Nat) (hN : 0 < N) (hr : r < N) :
    (m * N + r + 1) % N = 0 ↔ r = N - 1 := by
  have h1 : m * N + r + 1 = (r + 1) + m * N := by ring
  rw [h1, Nat.add_mul_mod_self_right]
  constructor
  · intro h
    by_cases hlt : r + 1 < N
    · rw [Nat.mod_eq_of_lt hlt] at h
      omega
    · omega
  · intro h
    subst h
    have h2 : N - 1 + 1 = N := by omega
    rw [h2, Nat.mod_self]

/-- C4 — sampling: with period N > 0 set on a fresh pipeline, the i-th
admitted frame (0-based) gets a valid root span exactly when the
post-increment frame counter i+1 is divisible by N, so each aligned block
of N consecutive admitted frames contains exactly one sampled frame; with
period 0 every admitted frame gets the invalid default context; with period
2 four consecutive admissions give [invalid, valid, invalid, valid]. -/
theorem c4_sampling (cfg : List (String × StageType)) (p0 s0 : Pipeline)
    (N : Nat) (name : String) (f k : Nat)
    (hnew : Pipeline.new cfg = .ok p0)
    (hset : p0.setSamplingPeriod (N : Int) = (.ok (), s0))
    (hfind : s0.findStageType name 0 = some .frame) :
    (0 < N → ∃ L s', runAddFrames name f k s0 = some (L, s') ∧ L.length = k ∧
      (∀ i, i < k →
        L.get? i = some (decide ((((i : Nat) : Int) + 1) % (N : Int) = 0))) ∧
      (∀ m, (m + 1) * N ≤ k →
        ((List.range N).filter
          (fun r => decide (L.get? (m * N + r) = some true))).length = 1)) ∧
    (N = 0 → ∃ L s', runAddFrames name f k s0 = some (L, s') ∧ L.length = k ∧
      ∀ i, i < k → L.get? i = some false) ∧
    (runAddFrames "input" 7 4 ((exP0.setSamplingPeriod 2).2)).map
      (fun r => r.1) = some [false, true, false, true] := by
  obtain ⟨hic, hfc, hrs, hfl, hsp, hrn, hstp⟩ := new_spec cfg p0 hnew
  have hs0 : s0 = { p0 with sampling_period := some (N : Int) } := by
    unfold Pipeline.setSamplingPeriod at hset
    rw [hsp] at hset
    have := congrArg Prod.snd hset
    exact this.symm
  have hper0 : s0.sampling_period = some (N : Int) := by rw [hs0]
  have hfc0 : s0.frame_counter = 0 := by rw [hs0]; exact hfc
  have hic0 : s0.id_counter = 0 := by rw [hs0]; exact hic
  have hbound0 : stageKeysBound s0 := by
    intro idx st hget a hmem
    have hst : st ∈ s0.stages := List.get?_mem hget
    have : st ∈ p0.stages := by rw [hs0] at hst; exact hst
    have hpl := hstp st this
    unfold kvMem at hmem
    rw [hpl] at hmem
    simp [kvLookup] at hmem
  have hstage0 : ∃ idx st, s0.findStage name 0 = some (idx, st) ∧
      st.stage_type = .frame := by
    unfold Pipeline.findStageType at hfind
    cases hfs : s0.findStage name 0 with
    | none => rw [hfs] at hfind; simp at hfind
    | some p =>
      obtain ⟨idx, st⟩ := p
      rw [hfs] at hfind
      simp only [Option.map_some'] at hfind
      injection hfind with hfind
      exact ⟨idx, st, rfl, hfind⟩
  refine ⟨?_, ?_, rfl⟩
  · intro hN
    obtain ⟨L, s', hrun, hlen, hvals⟩ :=
      runAddFrames_spec name f (N : Int) k s0 hper0 hstage0 hbound0
    have hvals' : ∀ i, i < k →
        L.get? i = some (decide ((((i : Nat) : Int) + 1) % (N : Int) = 0)) := by
      intro i hi
      rw [hvals i hi]
      congr 1
      rw [decide_eq_decide]
      rw [hfc0]
      constructor
      · rintro ⟨_, hb⟩
        have harith : (0 : Int) + 1 + (i : Int) = (i : Int) + 1 := by ring
        rwa [harith] at hb
      · intro hb
        refine ⟨by exact_mod_cast hN, ?_⟩
        have harith : (0 : Int) + 1 + (i : Int) = (i : Int) + 1 := by ring
        rwa [harith]
    refine ⟨L, s', hrun, hlen, hvals', ?_⟩
    intro m hm
    have hcongr : ∀ r ∈ List.range N,
        decide (L.get? (m * N + r) = some true) = decide (r = N - 1) := by
      intro r hrmem
      rw [List.mem_range] at hrmem
      rw [decide_eq_decide]
      have hik : m * N + r < k := by
        have : m * N + r < (m + 1) * N := by nlinarith
        omega
      rw [hvals' (m * N + r) hik]
      have hcast : (((m * N + r : Nat) : Int) + 1) % (N : Int) = 0 ↔
          (m * N + r + 1) % N = 0 := by
        have h1 : (((m * N + r : Nat) : Int) + 1) = ((m * N + r + 1 : Nat) : Int) := by
          push_cast
          ring
        rw [h1, ← Int.natCast_mod]
        exact_mod_cast Int.natCast_eq_zero
      constructor
      · intro h
        injection h with h
        rw [← window_mod_iff N m r hN hrmem, ← hcast]
        exact of_decide_eq_true h
      · intro h
        have : (((m * N + r : Nat) : Int) + 1) % (N : Int) = 0 :=
          hcast.mpr ((window_mod_iff N m r hN hrmem).mpr h)
        rw [decide_eq_true this]
    rw [List.filter_congr hcongr, ← List.countP_eq_length_filter]
    have hcp : List.countP (fun r => decide (r = N - 1)) (List.range N) =
        List.count (N - 1) (List.range N) := by
      rw [List.count_eq_countP]
      apply List.countP_congr
      intro r _
      by_cases h : r = N - 1 <;> simp [h]
    rw [hcp]
    have hmem : N - 1 ∈ List.range N := List.mem_range.mpr (by omega)
    have hle := (List.nodup_iff_count_le_one.mp (List.nodup_range N)) (N - 1)
    have hpos := List.count_pos_iff_mem.mpr hmem
    omega
  · intro hN0
    subst hN0
    obtain ⟨L, s', hrun, hlen, hvals⟩ :=
      runAddFrames_spec name f ((0 : Nat) : Int) k s0 hper0 hstage0 hbound0
    refine ⟨L, s', hrun, hlen, ?_⟩
    intro i hi
    rw [hvals i hi]
    simp

theorem c4_sampling_witness :
    Pipeline.new cfgS1 = .ok exP0 ∧
    exP0.setSamplingPeriod ((2 : Nat) : Int) =
      (.ok (), (exP0.setSamplingPeriod 2).2) ∧
    ((exP0.setSamplingPeriod 2).2).findStageType "input" 0 = some .frame ∧
    (∃ L s',
      runAddFrames "input" 7 4 ((exP0.setSamplingPeriod 2).2) = some (L, s') ∧
      L.length = 4 ∧
      (∀ i, i < 4 →
        L.get? i = some (decide ((((i : Nat) : Int) + 1) % ((2 : Nat) : Int) = 0))) ∧
      (∀ m, (m + 1) * 2 ≤ 4 →
        ((List.range 2).filter
          (fun r => decide (L.get? (m * 2 + r) = some true))).length = 1)) :=
  ⟨rfl, rfl, rfl,
   (c4_sampling cfgS1 exP0 ((exP0.setSamplingPeriod 2).2) 2 "input" 7 4
     rfl rfl rfl).1 (by decide)⟩

/-- The member ids a payload contributes besides its own id: a batch
contributes its member map's keys. -/
def payloadMemberIds : PipelinePayload → List Int
  | .frame _ _ _ => []
  | .batch bf _ _ => bf.map Prod.fst

/-- All ids one payload-map entry accounts for. -/
def entryIds (e : Int × PipelinePayload) : List Int := e.1 :: payloadMemberIds e.2

/-- All ids a stage accounts for (payload keys plus batch member ids). -/
def stageKeys (st : PipelineStage) : List Int := st.payload.flatMap entryIds

/-- All ids the stages of a pipeline account for. -/
def pipelineKeys (s : Pipeline) : List Int := s.stages.flatMap stageKeys

/-- The key list of the payload-location map. -/
def locKeys (s : Pipeline) : List Int := s.frame_locations.map Prod.fst

/-- The state invariant behind claim C1: counted with multiplicity, the ids
accounted for by the stages coincide with the keys of the payload-location
map (hence each id occurs in exactly one place, and the two key sets are
equal). -/
structure PipelineInv (s : Pipeline) : Prop where
  count_eq : ∀ a : Int, (pipelineKeys s).count a = (locKeys s).count a
  loc_nodup : (locKeys s).Nodup

theorem kvErase_of_not_mem {κ α : Type} [DecidableEq κ] (k : κ)
    (l : List (κ × α)) (h : ¬ kvMem k l) : kvErase k l = l := by
  induction l with
  | nil => rfl
  | cons hd t ih =>
    obtain ⟨a, v⟩ := hd
    unfold kvMem kvLookup at h
    by_cases hk : k = a
    · rw [if_pos hk] at h
      simp at h
    · rw [if_neg hk] at h
      unfold kvErase
      rw [if_neg hk, ih h]

theorem count_bind_set {α β : Type} [DecidableEq β] :
    ∀ (l : List α) (i : Nat) (a a' : α), l.get? i = some a →
    ∀ (f : α → List β) (k : β),
    ((l.set i a').flatMap f).count k + (f a).count k =
      (l.flatMap f).count k + (f a').count k := by
  intro l
  induction l with
  | nil => intro i a a' h; simp at h
  | cons hd t ih =>
    intro i a a' h f k
    cases i with
    | zero =>
      simp only [List.get?_cons_zero] at h
      injection h with h
      subst h
      simp [List.count_append]
      omega
    | succ i =>
      simp only [List.get?_cons_succ] at h
      have := ih i a a' h f k
      simp only [List.set_cons_succ, List.flatMap_cons, List.count_append]
      omega

theorem count_le_bind_mem {α β : Type} [DecidableEq β] (l : List α) (a : α)
    (h : a ∈ l) (f : α → List β) (k : β) :
    (f a).count k ≤ (l.flatMap f).count k := by
  induction l with
  | nil => simp at h
  | cons hd t ih =>
    rcases List.mem_cons.mp h with h1 | h1
    · subst h1
      simp [List.flatMap_cons, List.count_append]
    · have := ih h1
      simp [List.flatMap_cons, List.count_append]
      omega

theorem count_keys_le_bind_entry (pl : List (Int × PipelinePayload)) (k : Int) :
    (pl.map Prod.fst).count k ≤ (pl.flatMap entryIds).count k := by
  induction pl with
  | nil => simp
  | cons hd t ih =>
    simp only [List.map_cons, List.count_cons, List.flatMap_cons,
      List.count_append, entryIds, List.count_cons]
    omega

theorem count_insert_fresh (id : Int) (p : PipelinePayload)
    (pl : List (Int × PipelinePayload)) (h : ¬ kvMem id pl) (k : Int) :
    ((kvSet id p pl).flatMap entryIds).count k =
      (pl.flatMap entryIds).count k + (entryIds (id, p)).count k := by
  unfold kvSet
  rw [kvErase_of_not_mem id pl h, List.flatMap_append, List.count_append]
  simp [List.count_append]

theorem count_erase_entry (id : Int) (p : PipelinePayload) :
    ∀ (pl : List (Int × PipelinePayload)), kvLookup id pl = some p →
    (pl.map Prod.fst).Nodup → ∀ (k : Int),
    ((kvErase id pl).flatMap entryIds).count k + (entryIds (id, p)).count k =
      (pl.flatMap entryIds).count k := by
  intro pl
  induction pl with
  | nil => intro h; simp [kvLookup] at h
  | cons hd t ih =>
    intro h hnd k
    obtain ⟨a, v⟩ := hd
    simp only [List.map_cons, List.nodup_cons] at hnd
    unfold kvLookup at h
    by_cases hk : id = a
    · rw [if_pos hk] at h
      injection h with h
      subst h
      subst hk
      unfold kvErase
      rw [if_pos rfl, kvErase_of_not_mem]
      · simp [List.flatMap_cons, List.count_append]
        omega
      · rw [kvMem_iff_mem_keys]
        exact hnd.1
    · rw [if_neg hk] at h
      unfold kvErase
      rw [if_neg hk]
      have := ih h hnd.2 k
      simp only [List.flatMap_cons, List.count_append]
      omega

theorem kvLookup_mem {κ α : Type} [DecidableEq κ] (k : κ) (v : α) :
    ∀ (l : List (κ × α)), kvLookup k l = some v → (k, v) ∈ l := by
  intro l
  induction l with
  | nil => intro h; simp [kvLookup] at h
  | cons hd t ih =>
    intro h
    obtain ⟨a, w⟩ := hd
    unfold kvLookup at h
    by_cases hk : k = a
    · rw [if_pos hk] at h
      injection h with h
      subst h
      subst hk
      exact List.mem_cons_self _ _
    · rw [if_neg hk] at h
      exact List.mem_cons_of_mem _ (ih h)

theorem inv_count_le_one (s : Pipeline) (hinv : PipelineInv s) (a : Int) :
    (pipelineKeys s).count a ≤ 1 := by
  rw [hinv.count_eq]
  exact List.nodup_iff_count_le_one.mp hinv.loc_nodup a

theorem pinv_mem_iff (s : Pipeline) (hinv : PipelineInv s) (a : Int) :
    a ∈ locKeys s ↔ a ∈ pipelineKeys s := by
  constructor
  · intro h
    have := List.count_pos_iff_mem.mpr h
    rw [← hinv.count_eq] at this
    exact List.count_pos_iff_mem.mp this
  · intro h
    have := List.count_pos_iff_mem.mpr h
    rw [hinv.count_eq] at this
    exact List.count_pos_iff_mem.mp this

theorem stage_count_le (s : Pipeline) (idx : Nat) (st : PipelineStage)
    (hget : s.stages.get? idx = some st) (a : Int) :
    (stageKeys st).count a ≤ (pipelineKeys s).count a :=
  count_le_bind_mem s.stages st (List.get?_mem hget) stageKeys a

theorem inv_payload_nodup (s : Pipeline) (hinv : PipelineInv s) (idx : Nat)
    (st : PipelineStage) (hget : s.stages.get? idx = some st) :
    (st.payload.map Prod.fst).Nodup := by
  rw [List.nodup_iff_count_le_one]
  intro a
  calc (st.payload.map Prod.fst).count a
      ≤ (stageKeys st).count a := count_keys_le_bind_entry st.payload a
    _ ≤ (pipelineKeys s).count a := stage_count_le s idx st hget a
    _ ≤ 1 := inv_count_le_one s hinv a

theorem inv_batch_facts (s : Pipeline) (hinv : PipelineInv s) (idx : Nat)
    (st : PipelineStage) (hget : s.stages.get? idx = some st) (id : Int)
    (bf : List (Int × Nat)) (bu : List (Int × Nat)) (bc : List (Int × Ctx))
    (hlook : kvLookup id st.payload = some (.batch bf bu bc)) :
    (bf.map Prod.fst).Nodup ∧ id ∉ bf.map Prod.fst ∧
    ∀ m ∈ bf.map Prod.fst, m ∈ locKeys s := by
  have hmem : (id, PipelinePayload.batch bf bu bc) ∈ st.payload :=
    kvLookup_mem id _ st.payload hlook
  have hent : ∀ a : Int,
      (entryIds (id, PipelinePayload.batch bf bu bc)).count a ≤
        (pipelineKeys s).count a := by
    intro a
    calc (entryIds (id, PipelinePayload.batch bf bu bc)).count a
        ≤ (stageKeys st).count a :=
          count_le_bind_mem st.payload _ hmem entryIds a
      _ ≤ (pipelineKeys s).count a := stage_count_le s idx st hget a
  refine ⟨?_, ?_, ?_⟩
  · rw [List.nodup_iff_count_le_one]
    intro a
    have h1 := hent a
    have h2 := inv_count_le_one s hinv a
    simp only [entryIds, payloadMemberIds, List.count_cons] at h1
    omega
  · intro hcontra
    have h1 := hent id
    have h2 := inv_count_le_one s hinv id
    have h3 : 0 < (bf.map Prod.fst).count id := List.count_pos_iff_mem.mpr hcontra
    simp only [entryIds, payloadMemberIds, List.count_cons] at h1
    simp at h1
    omega
  · intro m hm
    have h1 := hent m
    have h3 : 0 < (bf.map Prod.fst).count m := List.count_pos_iff_mem.mpr hm
    have h4 : 0 < (pipelineKeys s).count m := by
      simp only [entryIds, payloadMemberIds, List.count_cons] at h1
      omega
    rw [hinv.count_eq] at h4
    exact List.count_pos_iff_mem.mp h4

theorem fold_kvSet_locs (idx : Nat) :
    ∀ (ids : List Int) (locs : List (Int × Nat)),
    (locs.map Prod.fst).Nodup → (∀ id ∈ ids, kvMem id locs) →
    ((ids.foldl (fun acc id => kvSet id idx acc) locs).map Prod.fst).Nodup ∧
    ∀ k, ((ids.foldl (fun acc id => kvSet id idx acc) locs).map Prod.fst).count k =
      (locs.map Prod.fst).count k := by
  intro ids
  induction ids with
  | nil => intro locs hnd _; exact ⟨hnd, fun k => rfl⟩
  | cons id t ih =>
    intro locs hnd hmem
    simp only [List.foldl_cons]
    have hmem1 : kvMem id locs := hmem id (List.mem_cons_self _ _)
    have hnd' := nodup_keys_kvSet id idx locs hnd
    have hmem' : ∀ i ∈ t, kvMem i (kvSet id idx locs) := by
      intro i hi
      unfold kvMem
      rw [kvLookup_kvSet]
      by_cases h : i = id
      · simp [h]
      · rw [if_neg h]
        exact hmem i (List.mem_cons_of_mem _ hi)
    obtain ⟨hA, hB⟩ := ih (kvSet id idx locs) hnd' hmem'
    refine ⟨hA, fun k => ?_⟩
    rw [hB k, count_keys_kvSet]
    by_cases h : k = id
    · subst h
      rw [if_pos rfl]
      have h1 : k ∈ locs.map Prod.fst := (kvMem_iff_mem_keys k locs).mp hmem1
      have h2 := List.count_pos_iff_mem.mpr h1
      have h3 := List.nodup_iff_count_le_one.mp hnd k
      omega
    · rw [if_neg h]

theorem fold_kvSet_payloads :
    ∀ (l : List (Int × PipelinePayload)) (pl : List (Int × PipelinePayload)),
    (pl.map Prod.fst).Nodup → (l.map Prod.fst).Nodup →
    (∀ e ∈ l, ¬ kvMem e.1 pl) →
    ((l.foldl (fun acc p => kvSet p.1 p.2 acc) pl).map Prod.fst).Nodup ∧
    (∀ k, ((l.foldl (fun acc p => kvSet p.1 p.2 acc) pl).flatMap entryIds).count k =
      (pl.flatMap entryIds).count k + (l.flatMap entryIds).count k) := by
  intro l
  induction l with
  | nil =>
    intro pl hpnd _ _
    exact ⟨hpnd, fun k => by simp⟩
  | cons e t ih =>
    intro pl hpnd hnd hdis
    simp only [List.foldl_cons]
    have hdis1 : ¬ kvMem e.1 pl := hdis e (List.mem_cons_self _ _)
    have hpnd' := nodup_keys_kvSet e.1 e.2 pl hpnd
    simp only [List.map_cons, List.nodup_cons] at hnd
    have hdis' : ∀ e' ∈ t, ¬ kvMem e'.1 (kvSet e.1 e.2 pl) := by
      intro e' he'
      unfold kvMem
      rw [kvLookup_kvSet]
      have hne : e'.1 ≠ e.1 := by
        intro hcontra
        exact hnd.1 (hcontra ▸ List.mem_map_of_mem Prod.fst he')
      rw [if_neg hne]
      exact hdis e' (List.mem_cons_of_mem _ he')
    obtain ⟨hA, hB⟩ := ih (kvSet e.1 e.2 pl) hpnd' hnd.2 hdis'
    refine ⟨hA, fun k => ?_⟩
    rw [hB k]
    have hstep := count_insert_fresh e.1 e.2 pl hdis1 k
    have hee : (e.1, e.2) = e := rfl
    rw [hee] at hstep
    rw [hstep]
    simp only [List.flatMap_cons, List.count_append]
    have : entryIds (e.1, e.2) = entryIds e := by rw [hee]
    omega

theorem addFrameCore_ok_inv (s : Pipeline) (n : String) (f : Nat) (pv : Bool)
    (id : Int) (s' : Pipeline) (h : s.addFrameCore n f pv = (.ok id, s')) :
    id = s.id_counter + 1 ∧ s'.id_counter = s.id_counter + 1 ∧
    ∃ idx st, s.findStage n 0 = some (idx, st) ∧ st.stage_type = .frame ∧
      ¬ kvMem id st.payload ∧
      s'.stages = s.stages.set idx { st with payload := kvSet id (PipelinePayload.frame f [] pv) st.payload } ∧
      s'.frame_locations = kvSet id idx s.frame_locations ∧
      s'.root_spans = kvSet id pv s.root_spans := by
  unfold Pipeline.addFrameCore at h
  dsimp only at h
  by_cases hpv : pv
  · subst hpv
    simp only [if_true] at h
    cases hrn : s.root_span_name with
    | none =>
      rw [show Pipeline.getRootSpanName { s with frame_counter := s.frame_counter + 1, id_counter := s.id_counter + 1 } = (defaultRootSpanName, { s with frame_counter := s.frame_counter + 1, id_counter := s.id_counter + 1, root_span_name := some defaultRootSpanName }) from by unfold Pipeline.getRootSpanName; rw [show ({ s with frame_counter := s.frame_counter + 1, id_counter := s.id_counter + 1 } : Pipeline).root_span_name = none from hrn]] at h
      dsimp only at h
      rw [show Pipeline.getStageSpan { s with frame_counter := s.frame_counter + 1, id_counter := s.id_counter + 1, root_span_name := some defaultRootSpanName, root_spans := kvSet (s.id_counter + 1) true s.root_spans } (s.id_counter + 1) = some true from by unfold Pipeline.getStageSpan; exact by rw [show kvLookup (s.id_counter + 1) (kvSet (s.id_counter + 1) true s.root_spans) = some true from by rw [kvLookup_kvSet, if_pos rfl]]] at h
      dsimp only at h
      cases hf : s.findStage n 0 with
      | none =>
        rw [show Pipeline.findStage { s with frame_counter := s.frame_counter + 1, id_counter := s.id_counter + 1, root_span_name := some defaultRootSpanName, root_spans := kvSet (s.id_counter + 1) true s.root_spans } n 0 = none from hf] at h
        simp at h
      | some p =>
        obtain ⟨idx, st⟩ := p
        rw [show Pipeline.findStage { s with frame_counter := s.frame_counter + 1, id_counter := s.id_counter + 1, root_span_name := some defaultRootSpanName, root_spans := kvSet (s.id_counter + 1) true s.root_spans } n 0 = some (idx, st) from hf] at h
        dsimp only at h
        unfold PipelineStage.addFramePayload at h
        by_cases hty : st.stage_type = StageType.frame
        · rw [if_neg (by simp [hty])] at h
          by_cases hmem : kvMem (s.id_counter + 1) st.payload
          · rw [if_pos hmem] at h
            simp at h
          · rw [if_neg hmem] at h
            dsimp only at h
            obtain ⟨h1, h2⟩ := Prod.mk.injEq _ _ _ _ ▸ h
            injection h1 with h1
            subst h1
            refine ⟨rfl, by rw [← h2], idx, st, rfl, hty, hmem, by rw [← h2], by rw [← h2], by rw [← h2]⟩
        · rw [if_pos (by simp [hty])] at h
          simp at h
    | some rn =>
      rw [show Pipeline.getRootSpanName { s with frame_counter := s.frame_counter + 1, id_counter := s.id_counter + 1 } = (rn, { s with frame_counter := s.frame_counter + 1, id_counter := s.id_counter + 1 }) from by unfold Pipeline.getRootSpanName; rw [show ({ s with frame_counter := s.frame_counter + 1, id_counter := s.id_counter + 1 } : Pipeline).root_span_name = some rn from hrn]] at h
      dsimp only at h
      rw [show Pipeline.getStageSpan { s with frame_counter := s.frame_counter + 1, id_counter := s.id_counter + 1, root_spans := kvSet (s.id_counter + 1) true s.root_spans } (s.id_counter + 1) = some true from by unfold Pipeline.getStageSpan; exact by rw [show kvLookup (s.id_counter + 1) (kvSet (s.id_counter + 1) true s.root_spans) = some true from by rw [kvLookup_kvSet, if_pos rfl]]] at h
      dsimp only at h
      cases hf : s.findStage n 0 with
      | none =>
        rw [show Pipeline.findStage { s with frame_counter := s.frame_counter + 1, id_counter := s.id_counter + 1, root_spans := kvSet (s.id_counter + 1) true s.root_spans } n 0 = none from hf] at h
        simp at h
      | some p =>
        obtain ⟨idx, st⟩ := p
        rw [show Pipeline.findStage { s with frame_counter := s.frame_counter + 1, id_counter := s.id_counter + 1, root_spans := kvSet (s.id_counter + 1) true s.root_spans } n 0 = some (idx, st) from hf] at h
        dsimp only at h
        unfold PipelineStage.addFramePayload at h
        by_cases hty : st.stage_type = StageType.frame
        · rw [if_neg (by simp [hty])] at h
          by_cases hmem : kvMem (s.id_counter + 1) st.payload
          · rw [if_pos hmem] at h
            simp at h
          · rw [if_neg hmem] at h
            dsimp only at h
            obtain ⟨h1, h2⟩ := Prod.mk.injEq _ _ _ _ ▸ h
            injection h1 with h1
            subst h1
            refine ⟨rfl, by rw [← h2], idx, st, rfl, hty, hmem, by rw [← h2], by rw [← h2], by rw [← h2]⟩
        · rw [if_pos (by simp [hty])] at h
          simp at h
  · have hpv' : pv = false := by simpa using hpv
    subst hpv'
    simp only [Bool.false_eq_true, if_false] at h
    rw [show Pipeline.getStageSpan { s with frame_counter := s.frame_counter + 1, id_counter := s.id_counter + 1, root_spans := kvSet (s.id_counter + 1) false s.root_spans } (s.id_counter + 1) = some false from by unfold Pipeline.getStageSpan; exact by rw [show kvLookup (s.id_counter + 1) (kvSet (s.id_counter + 1) false s.root_spans) = some false from by rw [kvLookup_kvSet, if_pos rfl]]] at h
    dsimp only at h
    cases hf : s.findStage n 0 with
    | none =>
      rw [show Pipeline.findStage { s with frame_counter := s.frame_counter + 1, id_counter := s.id_counter + 1, root_spans := kvSet (s.id_counter + 1) false s.root_spans } n 0 = none from hf] at h
      simp at h
    | some p =>
      obtain ⟨idx, st⟩ := p
      rw [show Pipeline.findStage { s with frame_counter := s.frame_counter + 1, id_counter := s.id_counter + 1, root_spans := kvSet (s.id_counter + 1) false s.root_spans } n 0 = some (idx, st) from hf] at h
      dsimp only at h
      unfold PipelineStage.addFramePayload at h
      by_cases hty : st.stage_type = StageType.frame
      · rw [if_neg (by simp [hty])] at h
        by_cases hmem : kvMem (s.id_counter + 1) st.payload
        · rw [if_pos hmem] at h
          simp at h
        · rw [if_neg hmem] at h
          dsimp only at h
          obtain ⟨h1, h2⟩ := Prod.mk.injEq _ _ _ _ ▸ h
          injection h1 with h1
          subst h1
          refine ⟨rfl, by rw [← h2], idx, st, rfl, hty, hmem, by rw [← h2], by rw [← h2], by rw [← h2]⟩
      · rw [if_pos (by simp [hty])] at h
        simp at h

theorem addFrameWithTelemetry_ok_inv (s : Pipeline) (n : String) (f : Nat)
    (pv : Bool) (id : Int) (s' : Pipeline)
    (h : s.addFrameWithTelemetry n f pv = (.ok id, s')) :
    s.addFrameCore n f pv = (.ok id, s') := by
  unfold Pipeline.addFrameWithTelemetry at h
  by_cases hb : s.findStageType n 0 = some .batch
  · rw [if_pos hb] at h
    simp at h
  · rwa [if_neg hb] at h

theorem addFrame_ok_inv (s : Pipeline) (n : String) (f : Nat) (id : Int)
    (s' : Pipeline) (h : s.addFrame n f = (.ok id, s')) :
    id = s.id_counter + 1 ∧ s'.id_counter = s.id_counter + 1 ∧
    ∃ idx st pv, s.findStage n 0 = some (idx, st) ∧
      st.stage_type = .frame ∧ ¬ kvMem id st.payload ∧
      s'.stages = s.stages.set idx { st with payload := kvSet id (PipelinePayload.frame f [] pv) st.payload } ∧
      s'.frame_locations = kvSet id idx s.frame_locations ∧
      s'.root_spans = kvSet id pv s.root_spans := by
  unfold Pipeline.addFrame at h
  unfold Pipeline.getSamplingPeriod at h
  cases hsp : s.sampling_period with
  | none =>
    rw [hsp] at h
    dsimp only at h
    rw [if_pos (Or.inl (le_refl (0 : Int)))] at h
    obtain ⟨e1, e2, idx, st, hfnd, hty, hmem, hst, hfl, hrs⟩ :=
      addFrameCore_ok_inv { s with sampling_period := some 0 } n f false id s'
        (addFrameWithTelemetry_ok_inv _ n f false id s' h)
    exact ⟨e1, e2, idx, st, false, hfnd, hty, hmem, hst, hfl, hrs⟩
  | some N =>
    rw [hsp] at h
    dsimp only at h
    by_cases hcond : N ≤ 0 ∨ (s.frame_counter + 1) % N ≠ 0
    · rw [if_pos hcond] at h
      obtain ⟨e1, e2, idx, st, hfnd, hty, hmem, hst, hfl, hrs⟩ :=
        addFrameCore_ok_inv s n f false id s'
          (addFrameWithTelemetry_ok_inv s n f false id s' h)
      exact ⟨e1, e2, idx, st, false, hfnd, hty, hmem, hst, hfl, hrs⟩
    · rw [if_neg hcond] at h
      unfold Pipeline.getRootSpanName at h
      cases hrn : s.root_span_name with
      | none =>
        rw [show (s : Pipeline).root_span_name = none from hrn] at h
        dsimp only at h
        obtain ⟨e1, e2, idx, st, hfnd, hty, hmem, hst, hfl, hrs⟩ :=
          addFrameCore_ok_inv { s with root_span_name := some defaultRootSpanName }
            n f true id s' (addFrameWithTelemetry_ok_inv _ n f true id s' h)
        exact ⟨e1, e2, idx, st, true, hfnd, hty, hmem, hst, hfl, hrs⟩
      | some rn =>
        rw [show (s : Pipeline).root_span_name = some rn from hrn] at h
        dsimp only at h
        obtain ⟨e1, e2, idx, st, hfnd, hty, hmem, hst, hfl, hrs⟩ :=
          addFrameCore_ok_inv s n f true id s'
            (addFrameWithTelemetry_ok_inv s n f true id s' h)
        exact ⟨e1, e2, idx, st, true, hfnd, hty, hmem, hst, hfl, hrs⟩

/-- The inductive state invariant: the id accounting of `PipelineInv`
together with the id-counter bound on all live ids. -/
structure PipelineGood (s : Pipeline) : Prop where
  inv : PipelineInv s
  bound : ∀ a ∈ locKeys s, a ≤ s.id_counter

theorem locKeys_count_mem (s : Pipeline) (a : Int) :
    a ∈ locKeys s ↔ 0 < (locKeys s).count a :=
  ⟨List.count_pos_iff_mem.mpr, List.count_pos_iff_mem.mp⟩

theorem addFrame_good (s : Pipeline) (n : String) (f : Nat) (id : Int)
    (s' : Pipeline) (h : s.addFrame n f = (.ok id, s'))
    (hg : PipelineGood s) : PipelineGood s' := by
  obtain ⟨e1, e2, idx, st, pv, hfnd, hty, hmem, hst, hfl, hrs⟩ :=
    addFrame_ok_inv s n f id s' h
  have hget := findStage_get s n idx st hfnd
  have hfree : (locKeys s).count id = 0 := by
    by_cases hc : id ∈ locKeys s
    · have := hg.bound id hc
      omega
    · exact List.count_eq_zero.mpr hc
  have hfreeP : (pipelineKeys s).count id = 0 := by
    rw [hg.inv.count_eq]
    exact hfree
  have hcount : ∀ a, (pipelineKeys s').count a =
      (pipelineKeys s).count a + (if a = id then 1 else 0) := by
    intro a
    have hset := count_bind_set s.stages idx st
      ({ st with payload := kvSet id (PipelinePayload.frame f [] pv) st.payload })
      hget stageKeys a
    have hins := count_insert_fresh id (PipelinePayload.frame f [] pv)
      st.payload hmem a
    unfold pipelineKeys at hset ⊢
    rw [hst]
    have hent : (entryIds (id, PipelinePayload.frame f [] pv)).count a =
        if a = id then 1 else 0 := by
      simp only [entryIds, payloadMemberIds, List.count_cons, List.count_nil]
      by_cases ha : a = id
      · subst ha
        simp
      · have ha2 : ¬ id = a := fun hh => ha hh.symm
        simp [ha, ha2]
    have hsk : (stageKeys { st with payload := kvSet id (PipelinePayload.frame f [] pv) st.payload }).count a =
        (stageKeys st).count a + (if a = id then 1 else 0) := by
      unfold stageKeys
      dsimp only
      rw [hins, hent]
    omega
  constructor
  · constructor
    · intro a
      rw [hcount a, hg.inv.count_eq a]
      unfold locKeys
      rw [hfl, count_keys_kvSet]
      by_cases ha : a = id
      · subst ha
        unfold locKeys at hfree
        simp [hfree]
      · simp [ha]
    · unfold locKeys
      rw [hfl]
      exact nodup_keys_kvSet id idx s.frame_locations hg.inv.loc_nodup
  · intro a ha
    rw [e2]
    unfold locKeys at ha
    rw [hfl] at ha
    have : 0 < ((kvSet id idx s.frame_locations).map Prod.fst).count a :=
      List.count_pos_iff_mem.mpr ha
    rw [count_keys_kvSet] at this
    by_cases hc : a = id
    · omega
    · rw [if_neg hc] at this
      have := hg.bound a (List.count_pos_iff_mem.mp this)
      omega

theorem delete_ok_inv (s : Pipeline) (id : Int) (r : List (Int × Ctx))
    (s' : Pipeline) (h : s.delete id = (.ok r, s')) :
    ∃ idx st f u c root, kvLookup id s.frame_locations = some idx ∧
      s.stages.get? idx = some st ∧
      kvLookup id st.payload = some (PipelinePayload.frame f u c) ∧
      kvLookup id s.root_spans = some root ∧
      s'.frame_locations = kvErase id s.frame_locations ∧
      s'.stages = s.stages.set idx { st with payload := kvErase id st.payload } ∧
      s'.root_spans = kvErase id s.root_spans ∧
      s'.id_counter = s.id_counter ∧ r = [(id, root)] := by
  unfold Pipeline.delete at h
  cases hloc : kvLookup id s.frame_locations with
  | none => rw [hloc] at h; simp at h
  | some idx =>
    rw [hloc] at h
    dsimp only at h
    cases hget : s.stages.get? idx with
    | none =>
      rw [show ({ s with frame_locations := kvErase id s.frame_locations } : Pipeline).stages.get? idx = none from hget] at h
      simp at h
    | some st =>
      rw [show ({ s with frame_locations := kvErase id s.frame_locations } : Pipeline).stages.get? idx = some st from hget] at h
      dsimp only at h
      unfold PipelineStage.delete at h
      cases hlp : kvLookup id st.payload with
      | none =>
        rw [hlp] at h
        simp at h
      | some p =>
        rw [hlp] at h
        dsimp only [Option.map] at h
        cases p with
        | batch bf bu bc => simp at h
        | frame f u c =>
          cases hroot : kvLookup id s.root_spans with
          | none =>
            rw [show kvLookup id ({ s with frame_locations := kvErase id s.frame_locations, stages := s.stages.set idx { st with payload := kvErase id st.payload } } : Pipeline).root_spans = none from hroot] at h
            simp at h
          | some root =>
            rw [show kvLookup id ({ s with frame_locations := kvErase id s.frame_locations, stages := s.stages.set idx { st with payload := kvErase id st.payload } } : Pipeline).root_spans = some root from hroot] at h
            dsimp only at h
            obtain ⟨h1, h2⟩ := Prod.mk.injEq _ _ _ _ ▸ h
            injection h1 with h1
            exact ⟨idx, st, f, u, c, root, rfl, hget, hlp, rfl,
              by rw [← h2], by rw [← h2], by rw [← h2], by rw [← h2], h1.symm⟩

theorem delete_good (s : Pipeline) (id : Int) (r : List (Int × Ctx))
    (s' : Pipeline) (h : s.delete id = (.ok r, s'))
    (hg : PipelineGood s) : PipelineGood s' := by
  obtain ⟨idx, st, f, u, c, root, hloc, hget, hlp, hroot, hfl, hst, hrs, hic, hr⟩ :=
    delete_ok_inv s id r s' h
  have hpnd := inv_payload_nodup s hg.inv idx st hget
  have hone : (locKeys s).count id = 1 := by
    have hmem : id ∈ locKeys s := by
      unfold locKeys
      rw [← kvMem_iff_mem_keys]
      unfold kvMem
      rw [hloc]
      rfl
    have h1 := List.count_pos_iff_mem.mpr hmem
    have h2 := List.nodup_iff_count_le_one.mp hg.inv.loc_nodup id
    omega
  have hcount : ∀ a, (pipelineKeys s').count a + (if a = id then 1 else 0) =
      (pipelineKeys s).count a := by
    intro a
    have hset := count_bind_set s.stages idx st
      ({ st with payload := kvErase id st.payload }) hget stageKeys a
    have herase := count_erase_entry id (PipelinePayload.frame f u c)
      st.payload hlp hpnd a
    have hent : (entryIds (id, PipelinePayload.frame f u c)).count a =
        if a = id then 1 else 0 := by
      simp only [entryIds, payloadMemberIds, List.count_cons, List.count_nil]
      by_cases ha : a = id
      · subst ha
        simp
      · have ha2 : ¬ id = a := fun hh => ha hh.symm
        simp [ha, ha2]
    rw [hent] at herase
    have hsk : (stageKeys { st with payload := kvErase id st.payload }).count a +
        (if a = id then 1 else 0) = (stageKeys st).count a := herase
    unfold pipelineKeys
    rw [hst]
    omega
  constructor
  · constructor
    · intro a
      have hc := hcount a
      have he := hg.inv.count_eq a
      unfold locKeys
      rw [hfl, count_keys_kvErase]
      unfold locKeys at he hone
      by_cases ha : a = id
      · subst ha
        rw [if_pos rfl] at hc
        rw [if_pos rfl]
        omega
      · rw [if_neg ha]
        rw [if_neg ha] at hc
        omega
    · unfold locKeys
      rw [hfl]
      exact nodup_keys_kvErase id s.frame_locations hg.inv.loc_nodup
  · intro a ha
    rw [hic]
    unfold locKeys at ha
    rw [hfl] at ha
    have h1 := List.count_pos_iff_mem.mpr ha
    rw [count_keys_kvErase] at h1
    by_cases hc : a = id
    · rw [if_pos hc] at h1
      omega
    · rw [if_neg hc] at h1
      exact hg.bound a (List.count_pos_iff_mem.mp h1)

theorem rotateCtxs_congr (t s : Pipeline) (h : t.root_spans = s.root_spans) :
    ∀ l, rotateCtxs t l = rotateCtxs s l := by
  intro l
  induction l with
  | nil => rfl
  | cons hd tl ih =>
    obtain ⟨mid, c⟩ := hd
    unfold rotateCtxs Pipeline.getStageSpan
    rw [h, ih]

theorem rotatePayload_congr (t s : Pipeline) (h : t.root_spans = s.root_spans)
    (e : Int × PipelinePayload) : t.rotatePayload e = s.rotatePayload e := by
  obtain ⟨id, p⟩ := e
  cases p with
  | frame f u c =>
    unfold Pipeline.rotatePayload
    dsimp only
    unfold Pipeline.getStageSpan
    rw [h]
  | batch bf bu bc =>
    unfold Pipeline.rotatePayload
    dsimp only
    rw [rotateCtxs_congr t s h]

theorem rotatePayloads_congr (t s : Pipeline) (h : t.root_spans = s.root_spans) :
    ∀ l, t.rotatePayloads l = s.rotatePayloads l := by
  intro l
  induction l with
  | nil => rfl
  | cons hd tl ih =>
    unfold Pipeline.rotatePayloads
    rw [rotatePayload_congr t s h, ih]

theorem getStagesForIds_mem (s : Pipeline) :
    ∀ (ids : List Int) (located : List (Int × Nat)),
    s.getStagesForIds ids = .ok located →
    ∀ id ∈ ids, kvMem id s.frame_locations := by
  intro ids
  induction ids with
  | nil => intro located _ id hid; simp at hid
  | cons hd t ih =>
    intro located h id hid
    unfold Pipeline.getStagesForIds at h
    cases hl : kvLookup hd s.frame_locations with
    | none => rw [hl] at h; simp at h
    | some i =>
      rw [hl] at h
      dsimp only at h
      rcases List.mem_cons.mp hid with h1 | h1
      · subst h1
        unfold kvMem
        rw [hl]
        rfl
      · cases hr : s.getStagesForIds t with
        | error e => rw [hr] at h; simp [Except.map] at h
        | ok r => exact ih r hr id h1

theorem checkIds_mem (s : Pipeline) (ids : List Int) (srcIdx : Nat)
    (h : s.checkIdsInTheSameStage ids = .ok srcIdx) :
    ∀ id ∈ ids, kvMem id s.frame_locations := by
  unfold Pipeline.checkIdsInTheSameStage at h
  by_cases he : ids.isEmpty
  · rw [if_pos he] at h; simp at h
  · rw [if_neg he] at h
    cases hg : s.getStagesForIds ids with
    | error e => rw [hg] at h; simp at h
    | ok located => exact getStagesForIds_mem s ids located hg

theorem deleteMany_aux :
    ∀ (ids : List Int) (st : PipelineStage) (acc : List (Int × PipelinePayload)),
    (st.payload.map Prod.fst).Nodup →
    (acc.map Prod.fst).Nodup →
    (∀ k ∈ acc.map Prod.fst, ¬ kvMem k st.payload) →
    ∀ (removed : List (Int × PipelinePayload)) (st' : PipelineStage),
    ids.foldl
      (fun acc id =>
        match kvLookup id acc.2.payload with
        | some p => (acc.1 ++ [(id, p)], { acc.2 with payload := kvErase id acc.2.payload })
        | none => acc)
      (acc, st) = (removed, st') →
    st'.stage_name = st.stage_name ∧ st'.stage_type = st.stage_type ∧
    (st'.payload.map Prod.fst).Nodup ∧ (removed.map Prod.fst).Nodup ∧
    (∀ k, (st'.payload.flatMap entryIds).count k +
        (removed.flatMap entryIds).count k =
      (st.payload.flatMap entryIds).count k + (acc.flatMap entryIds).count k) := by
  intro ids
  induction ids with
  | nil =>
    intro st acc hnd hand hdis removed st' h
    simp only [List.foldl_nil] at h
    obtain ⟨h1, h2⟩ := Prod.mk.injEq _ _ _ _ ▸ h
    subst h1
    subst h2
    exact ⟨rfl, rfl, hnd, hand, fun k => rfl⟩
  | cons id t ih =>
    intro st acc hnd hand hdis removed st' h
    simp only [List.foldl_cons] at h
    cases hl : kvLookup id st.payload with
    | none =>
      rw [show kvLookup id (Prod.snd (acc, st)).payload = none from hl] at h
      dsimp only at h
      exact ih st acc hnd hand hdis removed st' h
    | some p =>
      rw [show kvLookup id (Prod.snd (acc, st)).payload = some p from hl] at h
      dsimp only at h
      have hidnot : id ∉ acc.map Prod.fst := by
        intro hc
        exact hdis id hc (by unfold kvMem; rw [hl]; rfl)
      have hand' : ((acc ++ [(id, p)]).map Prod.fst).Nodup := by
        rw [List.map_append]
        refine List.nodup_append.mpr ⟨hand, List.nodup_singleton _, ?_⟩
        intro a ha hb
        simp at hb
        subst hb
        exact hidnot ha
      have hdis' : ∀ k ∈ (acc ++ [(id, p)]).map Prod.fst,
          ¬ kvMem k (kvErase id st.payload) := by
        intro k hk hmem
        unfold kvMem at hmem
        rw [kvLookup_kvErase] at hmem
        by_cases hki : k = id
        · rw [if_pos hki] at hmem
          simp at hmem
        · rw [if_neg hki] at hmem
          rw [List.map_append] at hk
          rcases List.mem_append.mp hk with h1 | h1
          · exact hdis k h1 hmem
          · simp at h1
            exact hki h1
      obtain ⟨c1, c2, c3, c4, c5⟩ :=
        ih { st with payload := kvErase id st.payload } (acc ++ [(id, p)])
          (nodup_keys_kvErase id st.payload hnd) hand' hdis' removed st' h
      refine ⟨c1, c2, c3, c4, fun k => ?_⟩
      have h5 := c5 k
      have herase := count_erase_entry id p st.payload hl hnd k
      dsimp only at h5
      rw [List.flatMap_append, List.count_append] at h5
      simp only [List.flatMap_cons, List.flatMap_nil, List.append_nil,
        List.count_append] at h5
      omega

theorem deleteMany_facts (st : PipelineStage) (ids : List Int)
    (removed : List (Int × PipelinePayload)) (st' : PipelineStage)
    (hnd : (st.payload.map Prod.fst).Nodup)
    (h : st.deleteMany ids = (removed, st')) :
    st'.stage_name = st.stage_name ∧ st'.stage_type = st.stage_type ∧
    (st'.payload.map Prod.fst).Nodup ∧ (removed.map Prod.fst).Nodup ∧
    (∀ k, (st'.payload.flatMap entryIds).count k +
        (removed.flatMap entryIds).count k =
      (st.payload.flatMap entryIds).count k) := by
  obtain ⟨c1, c2, c3, c4, c5⟩ :=
    deleteMany_aux ids st [] hnd (by simp) (by simp) removed st' h
  refine ⟨c1, c2, c3, c4, fun k => ?_⟩
  have := c5 k
  simpa using this

theorem rotatePayload_entry (s : Pipeline) (e e' : Int × PipelinePayload)
    (h : s.rotatePayload e = some e') : e'.1 = e.1 ∧ entryIds e' = entryIds e := by
  obtain ⟨id, p⟩ := e
  cases p with
  | frame f u c =>
    unfold Pipeline.rotatePayload at h
    dsimp only at h
    cases hl : s.getStageSpan id with
    | none => rw [hl] at h; simp at h
    | some c' =>
      rw [hl] at h
      simp only [Option.map] at h
      injection h with h
      subst h
      exact ⟨rfl, rfl⟩
  | batch bf bu bc =>
    unfold Pipeline.rotatePayload at h
    dsimp only at h
    cases hl : rotateCtxs s bc with
    | none => rw [hl] at h; simp at h
    | some bc' =>
      rw [hl] at h
      simp only [Option.map] at h
      injection h with h
      subst h
      exact ⟨rfl, rfl⟩

theorem rotatePayloads_entries (s : Pipeline) :
    ∀ (l l' : List (Int × PipelinePayload)), s.rotatePayloads l = some l' →
    l'.map Prod.fst = l.map Prod.fst ∧ l'.flatMap entryIds = l.flatMap entryIds := by
  intro l
  induction l with
  | nil =>
    intro l' h
    unfold Pipeline.rotatePayloads at h
    injection h with h
    subst h
    exact ⟨rfl, rfl⟩
  | cons hd t ih =>
    intro l' h
    unfold Pipeline.rotatePayloads at h
    cases hp : s.rotatePayload hd with
    | none => rw [hp] at h; simp at h
    | some p' =>
      rw [hp] at h
      dsimp only at h
      cases ht : s.rotatePayloads t with
      | none => rw [ht] at h; simp [Option.map] at h
      | some r =>
        rw [ht] at h
        simp only [Option.map] at h
        injection h with h
        subst h
        obtain ⟨h1, h2⟩ := rotatePayload_entry s hd p' hp
        obtain ⟨h3, h4⟩ := ih r ht
        exact ⟨by simp [h1, h3], by simp [List.flatMap_cons, h2, h4]⟩

theorem addPayloads_ok (st : PipelineStage) (l : List (Int × PipelinePayload))
    (st' : PipelineStage) (h : st.addPayloads l = .ok st') :
    (∀ e ∈ l, ¬ kvMem e.1 st.payload) ∧
    st' = { st with payload := l.foldl (fun acc p => kvSet p.1 p.2 acc) st.payload } := by
  unfold PipelineStage.addPayloads at h
  by_cases h1 : ¬ (l.all (fun p => payloadMatchesKind st.stage_type p.2) = true)
  · rw [if_pos h1] at h
    simp at h
  · rw [if_neg h1] at h
    by_cases h2 : l.any (fun p => decide (kvMem p.1 st.payload)) = true
    · rw [if_pos h2] at h
      simp at h
    · rw [if_neg h2] at h
      injection h with h
      refine ⟨?_, h.symm⟩
      intro e he hmem
      apply h2
      rw [List.any_eq_true]
      exact ⟨e, he, by simpa using hmem⟩

theorem moveAsIs_ok_inv (s : Pipeline) (destName : String) (ids : List Int)
    (s' : Pipeline) (h : s.moveAsIs destName ids = (.ok (), s')) :
    ∃ srcIdx srcStage destIdx destStage0 removed srcStage' payloads destStage dest',
      s.checkIdsInTheSameStage ids = .ok srcIdx ∧
      s.stages.get? srcIdx = some srcStage ∧
      s.findStage destName srcIdx = some (destIdx, destStage0) ∧
      srcStage.deleteMany ids = (removed, srcStage') ∧
      s.rotatePayloads removed = some payloads ∧
      (s.stages.set srcIdx srcStage').get? destIdx = some destStage ∧
      destStage.addPayloads payloads = .ok dest' ∧
      s'.stages = (s.stages.set srcIdx srcStage').set destIdx dest' ∧
      s'.frame_locations = ids.foldl (fun acc id => kvSet id destIdx acc) s.frame_locations ∧
      s'.root_spans = s.root_spans ∧ s'.id_counter = s.id_counter := by
  unfold Pipeline.moveAsIs at h
  cases hchk : s.checkIdsInTheSameStage ids with
  | error e => rw [hchk] at h; simp at h
  | ok srcIdx =>
    rw [hchk] at h
    dsimp only at h
    cases hsrc : s.stages.get? srcIdx with
    | none => rw [hsrc] at h; simp at h
    | some srcStage =>
      rw [hsrc] at h
      dsimp only at h
      cases hfnd : s.findStage destName srcIdx with
      | none => rw [hfnd] at h; simp at h
      | some q =>
        obtain ⟨destIdx, destStage0⟩ := q
        rw [hfnd] at h
        dsimp only at h
        by_cases hty : srcStage.stage_type ≠ destStage0.stage_type
        · rw [if_pos hty] at h; simp at h
        · rw [if_neg hty] at h
          cases hdm : srcStage.deleteMany ids with
          | mk removed srcStage' =>
            rw [hdm] at h
            dsimp only [Pipeline.updateFrameLocations] at h
            have hcongr := rotatePayloads_congr { s with stages := s.stages.set srcIdx srcStage', frame_locations := ids.foldl (fun acc id => kvSet id destIdx acc) s.frame_locations } s rfl removed
            rw [hcongr] at h
            cases hrot : s.rotatePayloads removed with
            | none => rw [hrot] at h; simp at h
            | some payloads =>
              rw [hrot] at h
              dsimp only at h
              cases hdest : (s.stages.set srcIdx srcStage').get? destIdx with
              | none => rw [hdest] at h; simp at h
              | some destStage =>
                rw [hdest] at h
                dsimp only at h
                cases hadd : destStage.addPayloads payloads with
                | error e => rw [hadd] at h; simp at h
                | ok dest' =>
                  rw [hadd] at h
                  dsimp only at h
                  obtain ⟨h1, h2⟩ := Prod.mk.injEq _ _ _ _ ▸ h
                  exact ⟨srcIdx, srcStage, destIdx, destStage0, removed,
                    srcStage', payloads, destStage, dest', rfl, hsrc, hfnd,
                    hdm, hrot, hdest, hadd, by rw [← h2], by rw [← h2],
                    by rw [← h2], by rw [← h2]⟩

theorem moveAsIs_good (s : Pipeline) (destName : String) (ids : List Int)
    (s' : Pipeline) (h : s.moveAsIs destName ids = (.ok (), s'))
    (hg : PipelineGood s) : PipelineGood s' := by
  obtain ⟨srcIdx, srcStage, destIdx, destStage0, removed, srcStage', payloads,
    destStage, dest', hchk, hsrc, hfnd, hdm, hrot, hdest, hadd, hstg, hflm,
    hrs, hic⟩ := moveAsIs_ok_inv s destName ids s' h
  have hsnd := inv_payload_nodup s hg.inv srcIdx srcStage hsrc
  obtain ⟨hdn1, hdn2, hdn3, hrnd, hdmc⟩ :=
    deleteMany_facts srcStage ids removed srcStage' hsnd hdm
  obtain ⟨hpfst, hpent⟩ := rotatePayloads_entries s removed payloads hrot
  obtain ⟨hdis, hdeq⟩ := addPayloads_ok destStage payloads dest' hadd
  have hmemloc : ∀ id ∈ ids, kvMem id s.frame_locations := checkIds_mem s ids srcIdx hchk
  obtain ⟨hlnd, hlcnt⟩ := fold_kvSet_locs destIdx ids s.frame_locations
    hg.inv.loc_nodup hmemloc
  have hs1count : ∀ k, ((s.stages.set srcIdx srcStage').flatMap stageKeys).count k +
      (removed.flatMap entryIds).count k = (pipelineKeys s).count k := by
    intro k
    have hset := count_bind_set s.stages srcIdx srcStage srcStage' hsrc stageKeys k
    have hdmc' : (stageKeys srcStage').count k + (removed.flatMap entryIds).count k =
        (stageKeys srcStage).count k := hdmc k
    unfold pipelineKeys
    omega
  have hdestnd : (destStage.payload.map Prod.fst).Nodup := by
    rw [List.nodup_iff_count_le_one]
    intro k
    have h1 := count_keys_le_bind_entry destStage.payload k
    have h2 : (stageKeys destStage).count k ≤
        ((s.stages.set srcIdx srcStage').flatMap stageKeys).count k :=
      count_le_bind_mem (s.stages.set srcIdx srcStage') destStage
        (List.get?_mem hdest) stageKeys k
    have h2' : (destStage.payload.flatMap entryIds).count k =
        (stageKeys destStage).count k := rfl
    have h3 := hs1count k
    have h4 := inv_count_le_one s hg.inv k
    omega
  have hpnd : (payloads.map Prod.fst).Nodup := by rw [hpfst]; exact hrnd
  obtain ⟨hfoldnd, hfoldcnt⟩ := fold_kvSet_payloads payloads destStage.payload
    hdestnd hpnd hdis
  have hcnt : ∀ k, (pipelineKeys s').count k = (pipelineKeys s).count k := by
    intro k
    have hset2 := count_bind_set (s.stages.set srcIdx srcStage') destIdx
      destStage dest' hdest stageKeys k
    have hdc : (stageKeys dest').count k =
        (destStage.payload.flatMap entryIds).count k +
          (payloads.flatMap entryIds).count k := by
      have : (stageKeys dest').count k =
          ((payloads.foldl (fun acc p => kvSet p.1 p.2 acc) destStage.payload).flatMap entryIds).count k := by
        rw [hdeq]
        rfl
      rw [this, hfoldcnt k]
    have hpe : (payloads.flatMap entryIds).count k =
        (removed.flatMap entryIds).count k := by rw [hpent]
    have hdsk : (stageKeys destStage).count k =
        (destStage.payload.flatMap entryIds).count k := rfl
    have h3 := hs1count k
    unfold pipelineKeys at h3 ⊢
    rw [hstg]
    omega
  constructor
  · constructor
    · intro a
      rw [hcnt a, hg.inv.count_eq a]
      unfold locKeys
      rw [hflm, hlcnt a]
    · unfold locKeys
      rw [hflm]
      exact hlnd
  · intro a ha
    rw [hic]
    unfold locKeys at ha
    rw [hflm] at ha
    have h1 := List.count_pos_iff_mem.mpr ha
    rw [hlcnt a] at h1
    exact hg.bound a (List.count_pos_iff_mem.mp h1)

theorem addBatchPayload_ok (st : PipelineStage) (id : Int) (p : PipelinePayload)
    (st' : PipelineStage) (h : st.addBatchPayload id p = .ok st') :
    st.stage_type = .batch ∧ ¬ kvMem id st.payload ∧
    st' = { st with payload := kvSet id p st.payload } := by
  unfold PipelineStage.addBatchPayload at h
  by_cases h1 : st.stage_type ≠ .batch
  · rw [if_pos h1] at h
    simp at h
  · rw [if_neg h1] at h
    by_cases h2 : kvMem id st.payload
    · rw [if_pos h2] at h
      simp at h
    · rw [if_neg h2] at h
      injection h with h
      exact ⟨by simpa using h1, h2, h.symm⟩

theorem packLoop_aux :
    ∀ (ids : List Int) (st : PipelineStage) (bf bu : List (Int × Nat))
      (bc : List (Int × Ctx)),
    (st.payload.map Prod.fst).Nodup →
    (bf.map Prod.fst).Nodup →
    (∀ k ∈ bf.map Prod.fst, ¬ kvMem k st.payload) →
    ∀ (r : List (Int × Nat) × List (Int × Nat) × List (Int × Ctx))
      (st' : PipelineStage),
    packLoop ids st bf bu bc = (.ok r, st') →
    st'.stage_name = st.stage_name ∧ st'.stage_type = st.stage_type ∧
    (st'.payload.map Prod.fst).Nodup ∧
    (r.1.map Prod.fst).Nodup ∧
    (∀ k, (st'.payload.flatMap entryIds).count k + (r.1.map Prod.fst).count k =
      (st.payload.flatMap entryIds).count k + (bf.map Prod.fst).count k) := by
  intro ids
  induction ids with
  | nil =>
    intro st bf bu bc hnd hbnd hdis r st' h
    simp only [packLoop] at h
    obtain ⟨h1, h2⟩ := Prod.mk.injEq _ _ _ _ ▸ h
    injection h1 with h1
    subst h1
    subst h2
    exact ⟨rfl, rfl, hnd, hbnd, fun k => rfl⟩
  | cons id rest ih =>
    intro st bf bu bc hnd hbnd hdis r st' h
    simp only [packLoop] at h
    cases hl : kvLookup id st.payload with
    | none =>
      rw [hl] at h
      dsimp only at h
      exact ih st bf bu bc hnd hbnd hdis r st' h
    | some p =>
      rw [hl] at h
      dsimp only at h
      cases p with
      | batch b1 b2 b3 => simp at h
      | frame f u c =>
        have hidnot : id ∉ bf.map Prod.fst := by
          intro hc
          exact hdis id hc (by unfold kvMem; rw [hl]; rfl)
        have hbnd' : ((kvSet id f bf).map Prod.fst).Nodup :=
          nodup_keys_kvSet id f bf hbnd
        have hdis' : ∀ k ∈ (kvSet id f bf).map Prod.fst,
            ¬ kvMem k (kvErase id st.payload) := by
          intro k hk hmem
          unfold kvMem at hmem
          rw [kvLookup_kvErase] at hmem
          by_cases hki : k = id
          · rw [if_pos hki] at hmem
            simp at hmem
          · rw [if_neg hki] at hmem
            have hk' : k ∈ bf.map Prod.fst := by
              have := List.count_pos_iff_mem.mpr hk
              rw [count_keys_kvSet, if_neg hki] at this
              exact List.count_pos_iff_mem.mp this
            exact hdis k hk' hmem
        obtain ⟨c1, c2, c3, c4, c5⟩ :=
          ih { st with payload := kvErase id st.payload } (kvSet id f bf)
            (bu ++ u.map (fun x => (id, x))) (kvSet id c bc)
            (nodup_keys_kvErase id st.payload hnd) hbnd' hdis' r st' h
        refine ⟨c1, c2, c3, c4, fun k => ?_⟩
        have h5 := c5 k
        have herase := count_erase_entry id (PipelinePayload.frame f u c)
          st.payload hl hnd k
        have hbf := count_keys_kvSet k id f bf
        have hent : (entryIds (id, PipelinePayload.frame f u c)).count k =
            if k = id then 1 else 0 := by
          simp only [entryIds, payloadMemberIds, List.count_cons, List.count_nil]
          by_cases hki : k = id
          · subst hki
            simp
          · have hki2 : ¬ id = k := fun hh => hki hh.symm
            simp [hki, hki2]
        rw [hent] at herase
        have hbfid : (bf.map Prod.fst).count id = 0 := by
          rw [List.count_eq_zero]
          exact hidnot
        dsimp only at h5
        by_cases hki : k = id
        · subst hki
          rw [if_pos rfl] at herase hbf
          omega
        · rw [if_neg hki] at herase hbf
          omega

theorem moveAndPackFrames_ok_inv (s : Pipeline) (destName : String)
    (frameIds : List Int) (batchId : Int) (s' : Pipeline)
    (h : s.moveAndPackFrames destName frameIds = (.ok batchId, s')) :
    batchId = s.id_counter + 1 ∧
    ∃ srcIdx srcStage destIdx destStage0 bf bu bc src' bc' destStage dest',
      s.checkIdsInTheSameStage frameIds = .ok srcIdx ∧
      s.stages.get? srcIdx = some srcStage ∧
      s.findStage destName srcIdx = some (destIdx, destStage0) ∧
      packLoop frameIds srcStage [] [] [] = (.ok (bf, bu, bc), src') ∧
      rotateCtxs s bc = some bc' ∧
      (s.stages.set srcIdx src').get? destIdx = some destStage ∧
      destStage.addBatchPayload (s.id_counter + 1) (.batch bf bu bc') = .ok dest' ∧
      s'.stages = (s.stages.set srcIdx src').set destIdx dest' ∧
      s'.frame_locations = kvSet (s.id_counter + 1) destIdx (frameIds.foldl (fun acc id => kvSet id destIdx acc) s.frame_locations) ∧
      s'.root_spans = s.root_spans ∧ s'.id_counter = s.id_counter + 1 := by
  unfold Pipeline.moveAndPackFrames at h
  cases hchk : s.checkIdsInTheSameStage frameIds with
  | error e => rw [hchk] at h; simp at h
  | ok srcIdx =>
    rw [hchk] at h
    dsimp only at h
    cases hsrc : s.stages.get? srcIdx with
    | none => rw [hsrc] at h; simp at h
    | some srcStage =>
      rw [hsrc] at h
      dsimp only at h
      cases hfnd : s.findStage destName srcIdx with
      | none => rw [hfnd] at h; simp at h
      | some q =>
        obtain ⟨destIdx, destStage0⟩ := q
        rw [hfnd] at h
        dsimp only at h
        by_cases hty : srcStage.stage_type = .batch ∨ destStage0.stage_type = .frame
        · rw [if_pos hty] at h; simp at h
        · rw [if_neg hty] at h
          dsimp only [Pipeline.updateFrameLocations] at h
          cases hpack : packLoop frameIds srcStage [] [] [] with
          | mk pres src' =>
            rw [hpack] at h
            cases pres with
            | error e => dsimp only at h; simp at h
            | ok r =>
              obtain ⟨bf, bu, bc⟩ := r
              dsimp only at h
              have hcongr := rotateCtxs_congr { s with id_counter := s.id_counter + 1, stages := s.stages.set srcIdx src', frame_locations := frameIds.foldl (fun acc id => kvSet id destIdx acc) s.frame_locations } s rfl bc
              rw [hcongr] at h
              cases hrotc : rotateCtxs s bc with
              | none => rw [hrotc] at h; simp at h
              | some bc' =>
                rw [hrotc] at h
                dsimp only at h
                cases hdest : (s.stages.set srcIdx src').get? destIdx with
                | none => rw [hdest] at h; simp at h
                | some destStage =>
                  rw [hdest] at h
                  dsimp only at h
                  cases hadd : destStage.addBatchPayload (s.id_counter + 1) (.batch bf bu bc') with
                  | error e => rw [hadd] at h; simp at h
                  | ok dest' =>
                    rw [hadd] at h
                    dsimp only at h
                    obtain ⟨h1, h2⟩ := Prod.mk.injEq _ _ _ _ ▸ h
                    injection h1 with h1
                    refine ⟨h1.symm, srcIdx, srcStage, destIdx, destStage0,
                      bf, bu, bc, src', bc', destStage, dest', rfl, hsrc, hfnd,
                      hpack, hrotc, hdest, hadd, by rw [← h2], by rw [← h2],
                      by rw [← h2], by rw [← h2]⟩

theorem moveAndPackFrames_good (s : Pipeline) (destName : String)
    (frameIds : List Int) (batchId : Int) (s' : Pipeline)
    (h : s.moveAndPackFrames destName frameIds = (.ok batchId, s'))
    (hg : PipelineGood s) : PipelineGood s' := by
  obtain ⟨hbid, srcIdx, srcStage, destIdx, destStage0, bf, bu, bc, src', bc',
    destStage, dest', hchk, hsrc, hfnd, hpack, hrotc, hdest, hadd, hstg, hflm,
    hrs, hic⟩ := moveAndPackFrames_ok_inv s destName frameIds batchId s' h
  have hsnd := inv_payload_nodup s hg.inv srcIdx srcStage hsrc
  obtain ⟨c1, c2, c3, c4, c5⟩ := packLoop_aux frameIds srcStage [] [] []
    hsnd (by simp) (by simp) (bf, bu, bc) src' hpack
  obtain ⟨htype, hfreshdest, hdesteq⟩ :=
    addBatchPayload_ok destStage (s.id_counter + 1) (.batch bf bu bc') dest' hadd
  have hmemloc : ∀ id ∈ frameIds, kvMem id s.frame_locations :=
    checkIds_mem s frameIds srcIdx hchk
  obtain ⟨hlnd, hlcnt⟩ := fold_kvSet_locs destIdx frameIds s.frame_locations
    hg.inv.loc_nodup hmemloc
  have hfresh : (s.id_counter + 1) ∉ locKeys s := by
    intro hc
    have := hg.bound _ hc
    omega
  have hfreshcnt : (locKeys s).count (s.id_counter + 1) = 0 :=
    List.count_eq_zero.mpr hfresh
  have hcnt : ∀ k, (pipelineKeys s').count k =
      (pipelineKeys s).count k + (if k = s.id_counter + 1 then 1 else 0) := by
    intro k
    have hset1 := count_bind_set s.stages srcIdx srcStage src' hsrc stageKeys k
    have hset2 := count_bind_set (s.stages.set srcIdx src') destIdx
      destStage dest' hdest stageKeys k
    have hc5 : (src'.payload.flatMap entryIds).count k + ((bf, bu, bc).1.map Prod.fst).count k =
        (srcStage.payload.flatMap entryIds).count k + (([] : List (Int × Nat)).map Prod.fst).count k := c5 k
    dsimp only at hc5
    simp only [List.map_nil, List.count_nil] at hc5
    have hsrck : (stageKeys src').count k + (bf.map Prod.fst).count k =
        (stageKeys srcStage).count k := hc5
    have hdestcnt : (stageKeys dest').count k =
        (destStage.payload.flatMap entryIds).count k +
          (entryIds (s.id_counter + 1, PipelinePayload.batch bf bu bc')).count k := by
      have : (stageKeys dest').count k =
          ((kvSet (s.id_counter + 1) (PipelinePayload.batch bf bu bc') destStage.payload).flatMap entryIds).count k := by
        rw [hdesteq]
        rfl
      rw [this]
      exact count_insert_fresh (s.id_counter + 1) _ destStage.payload hfreshdest k
    have hent : (entryIds (s.id_counter + 1, PipelinePayload.batch bf bu bc')).count k =
        (if k = s.id_counter + 1 then 1 else 0) + (bf.map Prod.fst).count k := by
      simp only [entryIds, payloadMemberIds, List.count_cons]
      by_cases hki : k = s.id_counter + 1
      · rw [if_pos hki]
        simp [hki]
        omega
      · rw [if_neg hki]
        have hki2 : ¬ (s.id_counter + 1 = k) := fun hh => hki hh.symm
        simp [hki2]
    have hdsk : (stageKeys destStage).count k =
        (destStage.payload.flatMap entryIds).count k := rfl
    unfold pipelineKeys
    rw [hstg]
    omega
  constructor
  · constructor
    · intro a
      rw [hcnt a, hg.inv.count_eq a]
      unfold locKeys
      rw [hflm, count_keys_kvSet]
      unfold locKeys at hfreshcnt
      by_cases ha : a = s.id_counter + 1
      · rw [if_pos ha, if_pos ha]
        rw [ha]
        omega
      · rw [if_neg ha, if_neg ha, hlcnt a]
        omega
    · unfold locKeys
      rw [hflm]
      exact nodup_keys_kvSet _ _ _ hlnd
  · intro a ha
    rw [hic]
    unfold locKeys at ha
    rw [hflm] at ha
    have h1 := List.count_pos_iff_mem.mpr ha
    rw [count_keys_kvSet] at h1
    by_cases hc : a = s.id_counter + 1
    · omega
    · rw [if_neg hc, hlcnt a] at h1
      have h2 : a ∈ locKeys s := List.count_pos_iff_mem.mp h1
      have := hg.bound a h2
      omega

theorem kvErase_subset {κ α : Type} [DecidableEq κ] (k : κ) :
    ∀ (l : List (κ × α)), ∀ e ∈ kvErase k l, e ∈ l := by
  intro l
  induction l with
  | nil => intro e he; simp [kvErase] at he
  | cons hd t ih =>
    intro e he
    obtain ⟨a, v⟩ := hd
    unfold kvErase at he
    by_cases hk : k = a
    · rw [if_pos hk] at he
      exact List.mem_cons_of_mem _ (ih e he)
    · rw [if_neg hk] at he
      rcases List.mem_cons.mp he with h1 | h1
      · exact h1 ▸ List.mem_cons_self _ _
      · exact List.mem_cons_of_mem _ (ih e h1)

theorem kvSet_frames (id : Int) (f : Nat) (u : List Nat) (c : Ctx)
    (l : List (Int × PipelinePayload))
    (h : ∀ e ∈ l, ∃ f u c, e.2 = PipelinePayload.frame f u c) :
    ∀ e ∈ kvSet id (PipelinePayload.frame f u c) l,
      ∃ f u c, e.2 = PipelinePayload.frame f u c := by
  intro e he
  unfold kvSet at he
  rcases List.mem_append.mp he with h1 | h1
  · exact h e (kvErase_subset id l e h1)
  · simp at h1
    subst h1
    exact ⟨f, u, c, rfl⟩

theorem flatMap_entry_frames :
    ∀ (l : List (Int × PipelinePayload)),
    (∀ e ∈ l, ∃ f u c, e.2 = PipelinePayload.frame f u c) → ∀ (k : Int),
    (l.flatMap entryIds).count k = (l.map Prod.fst).count k := by
  intro l
  induction l with
  | nil => intro _ k; simp
  | cons e t ih =>
    intro h k
    obtain ⟨f, u, c, he⟩ := h e (List.mem_cons_self _ _)
    have ht := ih (fun x hx => h x (List.mem_cons_of_mem _ hx))
    simp only [List.flatMap_cons, List.count_append, List.map_cons,
      List.count_cons, entryIds, he, payloadMemberIds]
    rw [ht k]
    simp [List.count_cons]
    omega

theorem unpackBuild_congr (t s : Pipeline) (h : t.root_spans = s.root_spans) :
    ∀ (bf : List (Int × Nat)) (bc : List (Int × Ctx))
      (acc : List (Int × PipelinePayload)),
    unpackBuild t bf bc acc = unpackBuild s bf bc acc := by
  intro bf
  induction bf with
  | nil => intro bc acc; rfl
  | cons hd rest ih =>
    intro bc acc
    obtain ⟨fid, f⟩ := hd
    unfold unpackBuild Pipeline.getStageSpan
    rw [h]
    cases kvLookup fid bc with
    | none => rfl
    | some c =>
      dsimp only
      cases kvLookup fid s.root_spans with
      | none => rfl
      | some c' => exact ih _ _

theorem unpackBuild_facts (s : Pipeline) :
    ∀ (bf : List (Int × Nat)) (bc : List (Int × Ctx))
      (acc payloads : List (Int × PipelinePayload)),
    (bf.map Prod.fst).Nodup →
    (acc.map Prod.fst).Nodup →
    (∀ e ∈ bf, ¬ kvMem e.1 acc) →
    (∀ e ∈ acc, ∃ f u c, e.2 = PipelinePayload.frame f u c) →
    unpackBuild s bf bc acc = some payloads →
    (payloads.map Prod.fst).Nodup ∧
    (∀ k, (payloads.map Prod.fst).count k =
      (acc.map Prod.fst).count k + (bf.map Prod.fst).count k) ∧
    (∀ e ∈ payloads, ∃ f u c, e.2 = PipelinePayload.frame f u c) := by
  intro bf
  induction bf with
  | nil =>
    intro bc acc payloads hbnd hand hdis hfr h
    unfold unpackBuild at h
    injection h with h
    subst h
    exact ⟨hand, fun k => by simp, hfr⟩
  | cons hd rest ih =>
    intro bc acc payloads hbnd hand hdis hfr h
    obtain ⟨fid, f⟩ := hd
    unfold unpackBuild at h
    cases hlc : kvLookup fid bc with
    | none => rw [hlc] at h; simp at h
    | some c0 =>
      rw [hlc] at h
      dsimp only at h
      cases hsp : s.getStageSpan fid with
      | none => rw [hsp] at h; simp at h
      | some c' =>
        rw [hsp] at h
        dsimp only at h
        simp only [List.map_cons, List.nodup_cons] at hbnd
        have hfidfresh : ¬ kvMem fid acc :=
          hdis (fid, f) (List.mem_cons_self _ _)
        have hand' := nodup_keys_kvSet fid (PipelinePayload.frame f [] c') acc hand
        have hdis' : ∀ e ∈ rest, ¬ kvMem e.1 (kvSet fid (PipelinePayload.frame f [] c') acc) := by
          intro e he hmem
          unfold kvMem at hmem
          rw [kvLookup_kvSet] at hmem
          by_cases hef : e.1 = fid
          · exact hbnd.1 (hef ▸ List.mem_map_of_mem Prod.fst he)
          · rw [if_neg hef] at hmem
            exact hdis e (List.mem_cons_of_mem _ he) hmem
        have hfr' := kvSet_frames fid f [] c' acc hfr
        obtain ⟨d1, d2, d3⟩ := ih (kvErase fid bc)
          (kvSet fid (PipelinePayload.frame f [] c') acc) payloads
          hbnd.2 hand' hdis' hfr' h
        refine ⟨d1, fun k => ?_, d3⟩
        rw [d2 k, count_keys_kvSet]
        have hfid0 : (acc.map Prod.fst).count fid = 0 := by
          rw [List.count_eq_zero]
          intro hc
          exact hfidfresh ((kvMem_iff_mem_keys fid acc).mpr hc)
        simp only [List.map_cons, List.count_cons]
        by_cases hkf : k = fid
        · rw [if_pos hkf]
          subst hkf
          simp
          omega
        · rw [if_neg hkf]
          have hkf2 : ¬ (fid = k) := fun hh => hkf hh.symm
          simp [hkf2]

theorem routeUpdates_facts :
    ∀ (bu : List (Int × Nat)) (ps ps' : List (Int × PipelinePayload)),
    routeUpdates bu ps = .ok ps' →
    (ps.map Prod.fst).Nodup →
    (∀ e ∈ ps, ∃ f u c, e.2 = PipelinePayload.frame f u c) →
    (ps'.map Prod.fst).Nodup ∧
    (∀ k, (ps'.map Prod.fst).count k = (ps.map Prod.fst).count k) ∧
    (∀ e ∈ ps', ∃ f u c, e.2 = PipelinePayload.frame f u c) := by
  intro bu
  induction bu with
  | nil =>
    intro ps ps' h hnd hfr
    unfold routeUpdates at h
    injection h with h
    subst h
    exact ⟨hnd, fun k => rfl, hfr⟩
  | cons hd rest ih =>
    intro ps ps' h hnd hfr
    obtain ⟨fid, u⟩ := hd
    unfold routeUpdates at h
    cases hl : kvLookup fid ps with
    | none => rw [hl] at h; simp at h
    | some p =>
      rw [hl] at h
      cases p with
      | batch b1 b2 b3 => simp at h
      | frame f us c =>
        dsimp only at h
        have hmemfid : fid ∈ ps.map Prod.fst :=
          (kvMem_iff_mem_keys fid ps).mp (by unfold kvMem; rw [hl]; rfl)
        have hone : (ps.map Prod.fst).count fid = 1 := by
          have h1 := List.count_pos_iff_mem.mpr hmemfid
          have h2 := List.nodup_iff_count_le_one.mp hnd fid
          omega
        have hnd' := nodup_keys_kvSet fid (PipelinePayload.frame f (us ++ [u]) c) ps hnd
        have hfr' := kvSet_frames fid f (us ++ [u]) c ps hfr
        obtain ⟨d1, d2, d3⟩ := ih (kvSet fid (PipelinePayload.frame f (us ++ [u]) c) ps) ps' h hnd' hfr'
        refine ⟨d1, fun k => ?_, d3⟩
        rw [d2 k, count_keys_kvSet]
        by_cases hkf : k = fid
        · rw [if_pos hkf, hkf, hone]
        · rw [if_neg hkf]

theorem moveAndUnpackBatch_ok_inv (s : Pipeline) (destName : String)
    (batchId : Int) (ids : List Int) (s' : Pipeline)
    (h : s.moveAndUnpackBatch destName batchId = (.ok ids, s')) :
    ∃ srcIdx srcStage destIdx destStage0 bf bu bc payloads payloads' destStage dest',
      kvLookup batchId s.frame_locations = some srcIdx ∧
      s.stages.get? srcIdx = some srcStage ∧
      s.findStage destName srcIdx = some (destIdx, destStage0) ∧
      kvLookup batchId srcStage.payload = some (.batch bf bu bc) ∧
      ids = bf.map Prod.fst ∧
      unpackBuild s bf bc [] = some payloads ∧
      routeUpdates bu payloads = .ok payloads' ∧
      (s.stages.set srcIdx { srcStage with payload := kvErase batchId srcStage.payload }).get? destIdx = some destStage ∧
      destStage.addPayloads payloads' = .ok dest' ∧
      s'.stages = (s.stages.set srcIdx { srcStage with payload := kvErase batchId srcStage.payload }).set destIdx dest' ∧
      s'.frame_locations = (bf.map Prod.fst).foldl (fun acc id => kvSet id destIdx acc) (kvErase batchId s.frame_locations) ∧
      s'.root_spans = s.root_spans ∧ s'.id_counter = s.id_counter := by
  unfold Pipeline.moveAndUnpackBatch at h
  cases hloc : kvLookup batchId s.frame_locations with
  | none => rw [hloc] at h; simp at h
  | some srcIdx =>
    rw [hloc] at h
    dsimp only at h
    cases hsrc : s.stages.get? srcIdx with
    | none => rw [hsrc] at h; simp at h
    | some srcStage =>
      rw [hsrc] at h
      dsimp only at h
      cases hfnd : s.findStage destName srcIdx with
      | none => rw [hfnd] at h; simp at h
      | some q =>
        obtain ⟨destIdx, destStage0⟩ := q
        rw [hfnd] at h
        dsimp only at h
        by_cases hty : srcStage.stage_type = .frame ∨ destStage0.stage_type = .batch
        · rw [if_pos hty] at h; simp at h
        · rw [if_neg hty] at h
          cases hlp : kvLookup batchId srcStage.payload with
          | none => rw [hlp] at h; simp at h
          | some p =>
            rw [hlp] at h
            cases p with
            | frame f u c => simp at h
            | batch bf bu bc =>
              dsimp only [Pipeline.updateFrameLocations] at h
              have hcongr := unpackBuild_congr { s with stages := s.stages.set srcIdx { srcStage with payload := kvErase batchId srcStage.payload }, frame_locations := (bf.map Prod.fst).foldl (fun acc id => kvSet id destIdx acc) (kvErase batchId s.frame_locations) } s rfl bf bc []
              rw [hcongr] at h
              cases hub : unpackBuild s bf bc [] with
              | none => rw [hub] at h; simp at h
              | some payloads =>
                rw [hub] at h
                dsimp only at h
                cases hru : routeUpdates bu payloads with
                | error e => rw [hru] at h; simp at h
                | ok payloads' =>
                  rw [hru] at h
                  dsimp only at h
                  cases hdest : (s.stages.set srcIdx { srcStage with payload := kvErase batchId srcStage.payload }).get? destIdx with
                  | none => rw [hdest] at h; simp at h
                  | some destStage =>
                    rw [hdest] at h
                    dsimp only at h
                    cases hadd : destStage.addPayloads payloads' with
                    | error e => rw [hadd] at h; simp at h
                    | ok dest' =>
                      rw [hadd] at h
                      dsimp only at h
                      obtain ⟨h1, h2⟩ := Prod.mk.injEq _ _ _ _ ▸ h
                      injection h1 with h1
                      exact ⟨srcIdx, srcStage, destIdx, destStage0, bf, bu, bc,
                        payloads, payloads', destStage, dest', rfl, hsrc, hfnd,
                        hlp, h1.symm, hub, hru, hdest, hadd, by rw [← h2],
                        by rw [← h2], by rw [← h2], by rw [← h2]⟩

theorem moveAndUnpackBatch_good (s : Pipeline) (destName : String)
    (batchId : Int) (ids : List Int) (s' : Pipeline)
    (h : s.moveAndUnpackBatch destName batchId = (.ok ids, s'))
    (hg : PipelineGood s) : PipelineGood s' := by
  obtain ⟨srcIdx, srcStage, destIdx, destStage0, bf, bu, bc, payloads,
    payloads', destStage, dest', hloc, hsrc, hfnd, hlp, hids, hub, hru, hdest,
    hadd, hstg, hflm, hrs, hic⟩ :=
    moveAndUnpackBatch_ok_inv s destName batchId ids s' h
  have hsnd := inv_payload_nodup s hg.inv srcIdx srcStage hsrc
  obtain ⟨hbfnd, hbnotin, hmemloc⟩ :=
    inv_batch_facts s hg.inv srcIdx srcStage hsrc batchId bf bu bc hlp
  obtain ⟨u1, u2, u3⟩ := unpackBuild_facts s bf bc [] payloads hbfnd
    (by simp) (by simp [kvMem, kvLookup]) (by simp) hub
  obtain ⟨r1, r2, r3⟩ := routeUpdates_facts bu payloads payloads' hru u1 u3
  obtain ⟨hdis, hdesteq⟩ := addPayloads_ok destStage payloads' dest' hadd
  have hbloc : batchId ∈ locKeys s := by
    unfold locKeys
    rw [← kvMem_iff_mem_keys]
    unfold kvMem
    rw [hloc]
    rfl
  have hbone : (locKeys s).count batchId = 1 := by
    have h1 := List.count_pos_iff_mem.mpr hbloc
    have h2 := List.nodup_iff_count_le_one.mp hg.inv.loc_nodup batchId
    omega
  have hsrcerase : ∀ k,
      ((kvErase batchId srcStage.payload).flatMap entryIds).count k +
        (entryIds (batchId, PipelinePayload.batch bf bu bc)).count k =
      (srcStage.payload.flatMap entryIds).count k :=
    count_erase_entry batchId _ srcStage.payload hlp hsnd
  have hent : ∀ k, (entryIds (batchId, PipelinePayload.batch bf bu bc)).count k =
      (if k = batchId then 1 else 0) + (bf.map Prod.fst).count k := by
    intro k
    simp only [entryIds, payloadMemberIds, List.count_cons]
    by_cases hki : k = batchId
    · rw [if_pos hki]
      simp [hki]
      omega
    · rw [if_neg hki]
      have hki2 : ¬ (batchId = k) := fun hh => hki hh.symm
      simp [hki2]
  have hs1count : ∀ k,
      ((s.stages.set srcIdx { srcStage with payload := kvErase batchId srcStage.payload }).flatMap stageKeys).count k +
        (if k = batchId then 1 else 0) + (bf.map Prod.fst).count k =
      (pipelineKeys s).count k := by
    intro k
    have hset := count_bind_set s.stages srcIdx srcStage
      ({ srcStage with payload := kvErase batchId srcStage.payload }) hsrc stageKeys k
    have he := hsrcerase k
    rw [hent k] at he
    have hsk : (stageKeys { srcStage with payload := kvErase batchId srcStage.payload }).count k =
        ((kvErase batchId srcStage.payload).flatMap entryIds).count k := rfl
    have hsk2 : (stageKeys srcStage).count k =
        (srcStage.payload.flatMap entryIds).count k := rfl
    unfold pipelineKeys
    omega
  have hdestnd : (destStage.payload.map Prod.fst).Nodup := by
    rw [List.nodup_iff_count_le_one]
    intro k
    have h1 := count_keys_le_bind_entry destStage.payload k
    have h2 : (stageKeys destStage).count k ≤
        ((s.stages.set srcIdx { srcStage with payload := kvErase batchId srcStage.payload }).flatMap stageKeys).count k :=
      count_le_bind_mem _ destStage (List.get?_mem hdest) stageKeys k
    have h2' : (destStage.payload.flatMap entryIds).count k =
        (stageKeys destStage).count k := rfl
    have h3 := hs1count k
    have h4 := inv_count_le_one s hg.inv k
    omega
  obtain ⟨hfoldnd, hfoldcnt⟩ := fold_kvSet_payloads payloads' destStage.payload
    hdestnd r1 hdis
  have hmemer : ∀ id ∈ bf.map Prod.fst, kvMem id (kvErase batchId s.frame_locations) := by
    intro id hid
    unfold kvMem
    rw [kvLookup_kvErase]
    have hne : ¬ (id = batchId) := by
      intro hc
      exact hbnotin (hc ▸ hid)
    rw [if_neg hne]
    have := hmemloc id hid
    unfold locKeys at this
    exact (kvMem_iff_mem_keys id s.frame_locations).mpr this
  obtain ⟨hlnd, hlcnt⟩ := fold_kvSet_locs destIdx (bf.map Prod.fst)
    (kvErase batchId s.frame_locations)
    (nodup_keys_kvErase batchId s.frame_locations hg.inv.loc_nodup) hmemer
  have hcnt : ∀ k, (pipelineKeys s').count k + (if k = batchId then 1 else 0) =
      (pipelineKeys s).count k := by
    intro k
    have hset2 := count_bind_set
      (s.stages.set srcIdx { srcStage with payload := kvErase batchId srcStage.payload })
      destIdx destStage dest' hdest stageKeys k
    have hdc : (stageKeys dest').count k =
        (destStage.payload.flatMap entryIds).count k +
          (payloads'.flatMap entryIds).count k := by
      have : (stageKeys dest').count k =
          ((payloads'.foldl (fun acc p => kvSet p.1 p.2 acc) destStage.payload).flatMap entryIds).count k := by
        rw [hdesteq]
        rfl
      rw [this, hfoldcnt k]
    have hpe : (payloads'.flatMap entryIds).count k = (bf.map Prod.fst).count k := by
      rw [flatMap_entry_frames payloads' r3 k, r2 k, u2 k]
      simp
    have hdsk : (stageKeys destStage).count k =
        (destStage.payload.flatMap entryIds).count k := rfl
    have h3 := hs1count k
    unfold pipelineKeys at h3 ⊢
    rw [hstg]
    omega
  constructor
  · constructor
    · intro a
      have hc := hcnt a
      have he := hg.inv.count_eq a
      unfold locKeys
      rw [hflm, hlcnt a, count_keys_kvErase]
      unfold locKeys at he hbone
      by_cases ha : a = batchId
      · rw [if_pos ha]
        rw [if_pos ha] at hc
        rw [ha] at he hc ⊢
        omega
      · rw [if_neg ha]
        rw [if_neg ha] at hc
        omega
    · unfold locKeys
      rw [hflm]
      exact hlnd
  · intro a ha
    rw [hic]
    unfold locKeys at ha
    rw [hflm] at ha
    have h1 := List.count_pos_iff_mem.mpr ha
    rw [hlcnt a, count_keys_kvErase] at h1
    by_cases hc : a = batchId
    · rw [if_pos hc] at h1
      omega
    · rw [if_neg hc] at h1
      exact hg.bound a (List.count_pos_iff_mem.mp h1)

theorem new_good (cfg : List (String × StageType)) (p : Pipeline)
    (h : Pipeline.new cfg = .ok p) : PipelineGood p := by
  obtain ⟨h1, h2, h3, h4, h5, h6, h7⟩ := new_spec cfg p h
  have haux : ∀ (l : List PipelineStage), (∀ st ∈ l, st.payload = []) →
      l.flatMap stageKeys = [] := by
    intro l
    induction l with
    | nil => intro _; rfl
    | cons hd t ih =>
      intro hall
      rw [List.flatMap_cons, ih (fun st hst => hall st (List.mem_cons_of_mem _ hst))]
      have hh : stageKeys hd = [] := by
        unfold stageKeys
        rw [hall hd (List.mem_cons_self _ _)]
        rfl
      rw [hh]
      rfl
  have hnil : p.stages.flatMap stageKeys = [] := haux p.stages h7
  constructor
  · constructor
    · intro a
      unfold pipelineKeys locKeys
      rw [hnil, h4]
      rfl
    · unfold locKeys
      rw [h4]
      exact List.nodup_nil
  · intro a ha
    unfold locKeys at ha
    rw [h4] at ha
    simp at ha

theorem applyOp_good (s : Pipeline) (op : POp) (s' : Pipeline)
    (h : applyOp s op = .ok s') (hg : PipelineGood s) : PipelineGood s' := by
  cases op with
  | addFrame n f =>
    unfold applyOp at h
    dsimp only at h
    cases hr : s.addFrame n f with
    | mk r t =>
      rw [hr] at h
      cases r with
      | ok id =>
        dsimp only at h
        injection h with h
        subst h
        exact addFrame_good s n f id t hr hg
      | error e => simp at h
  | moveAsIs d ids =>
    unfold applyOp at h
    dsimp only at h
    cases hr : s.moveAsIs d ids with
    | mk r t =>
      rw [hr] at h
      cases r with
      | ok u =>
        dsimp only at h
        injection h with h
        subst h
        exact moveAsIs_good s d ids t (by rw [hr]) hg
      | error e => simp at h
  | moveAndPackFrames d ids =>
    unfold applyOp at h
    dsimp only at h
    cases hr : s.moveAndPackFrames d ids with
    | mk r t =>
      rw [hr] at h
      cases r with
      | ok b =>
        dsimp only at h
        injection h with h
        subst h
        exact moveAndPackFrames_good s d ids b t hr hg
      | error e => simp at h
  | moveAndUnpackBatch d id =>
    unfold applyOp at h
    dsimp only at h
    cases hr : s.moveAndUnpackBatch d id with
    | mk r t =>
      rw [hr] at h
      cases r with
      | ok l =>
        dsimp only at h
        injection h with h
        subst h
        exact moveAndUnpackBatch_good s d id l t hr hg
      | error e => simp at h
  | delete id =>
    unfold applyOp at h
    dsimp only at h
    cases hr : s.delete id with
    | mk r t =>
      rw [hr] at h
      cases r with
      | ok l =>
        dsimp only at h
        injection h with h
        subst h
        exact delete_good s id l t hr hg
      | error e => simp at h

theorem runOps_good : ∀ (ops : List POp) (s s' : Pipeline),
    runOps ops s = .ok s' → PipelineGood s → PipelineGood s' := by
  intro ops
  induction ops with
  | nil =>
    intro s s' h hg
    unfold runOps at h
    injection h with h
    subst h
    exact hg
  | cons op t ih =>
    intro s s' h hg
    unfold runOps at h
    cases ha : applyOp s op with
    | error e => rw [ha] at h; simp at h
    | ok s1 =>
      rw [ha] at h
      dsimp only at h
      exact ih s1 s' h (applyOp_good s op s1 ha hg)

/-- An orphan root-span entry: `id` has a root span but no location entry,
and its id has already been consumed by the id counter. -/
def OrphanSpan (id : Int) (s : Pipeline) : Prop :=
  kvMem id s.root_spans ∧ id ∉ locKeys s ∧ id ≤ s.id_counter

theorem applyOp_orphan (s : Pipeline) (op : POp) (s' : Pipeline) (id : Int)
    (h : applyOp s op = .ok s') (hg : PipelineGood s) (ho : OrphanSpan id s) :
    OrphanSpan id s' := by
  obtain ⟨ho1, ho2, ho3⟩ := ho
  have hocnt : (locKeys s).count id = 0 := List.count_eq_zero.mpr ho2
  cases op with
  | addFrame n f =>
    unfold applyOp at h
    dsimp only at h
    cases hr : s.addFrame n f with
    | mk r t =>
      rw [hr] at h
      cases r with
      | error e => simp at h
      | ok nid =>
        dsimp only at h
        injection h with h
        subst h
        obtain ⟨e1, e2, idx, st, pv, hfnd, hty, hmem, hst, hfl, hrs⟩ :=
          addFrame_ok_inv s n f nid t hr
        have hne : ¬ (id = nid) := by omega
        refine ⟨?_, ?_, by omega⟩
        · unfold kvMem
          rw [hrs, kvLookup_kvSet, if_neg hne]
          exact ho1
        · intro hc
          unfold locKeys at hc
          rw [hfl] at hc
          have := List.count_pos_iff_mem.mpr hc
          rw [count_keys_kvSet, if_neg hne] at this
          unfold locKeys at hocnt
          omega
  | moveAsIs d ids =>
    unfold applyOp at h
    dsimp only at h
    cases hr : s.moveAsIs d ids with
    | mk r t =>
      rw [hr] at h
      cases r with
      | error e => simp at h
      | ok u =>
        dsimp only at h
        injection h with h
        subst h
        obtain ⟨srcIdx, srcStage, destIdx, destStage0, removed, srcStage',
          payloads, destStage, dest', hchk, hsrc, hfnd, hdm, hrot, hdest, hadd,
          hstg, hflm, hrs, hic⟩ := moveAsIs_ok_inv s d ids t (by rw [hr])
        obtain ⟨hlnd, hlcnt⟩ := fold_kvSet_locs destIdx ids s.frame_locations
          hg.inv.loc_nodup (checkIds_mem s ids srcIdx hchk)
        refine ⟨by rw [kvMem] at ho1 ⊢; rw [hrs]; exact ho1, ?_, by omega⟩
        intro hc
        unfold locKeys at hc hocnt
        rw [hflm] at hc
        have := List.count_pos_iff_mem.mpr hc
        rw [hlcnt id] at this
        omega
  | moveAndPackFrames d ids =>
    unfold applyOp at h
    dsimp only at h
    cases hr : s.moveAndPackFrames d ids with
    | mk r t =>
      rw [hr] at h
      cases r with
      | error e => simp at h
      | ok b =>
        dsimp only at h
        injection h with h
        subst h
        obtain ⟨hbid, srcIdx, srcStage, destIdx, destStage0, bf, bu, bc, src',
          bc', destStage, dest', hchk, hsrc, hfnd, hpack, hrotc, hdest, hadd,
          hstg, hflm, hrs, hic⟩ := moveAndPackFrames_ok_inv s d ids b t hr
        obtain ⟨hlnd, hlcnt⟩ := fold_kvSet_locs destIdx ids s.frame_locations
          hg.inv.loc_nodup (checkIds_mem s ids srcIdx hchk)
        have hne : ¬ (id = s.id_counter + 1) := by omega
        refine ⟨by rw [kvMem] at ho1 ⊢; rw [hrs]; exact ho1, ?_, by omega⟩
        intro hc
        unfold locKeys at hc hocnt
        rw [hflm] at hc
        have := List.count_pos_iff_mem.mpr hc
        rw [count_keys_kvSet, if_neg hne, hlcnt id] at this
        omega
  | moveAndUnpackBatch d bid =>
    unfold applyOp at h
    dsimp only at h
    cases hr : s.moveAndUnpackBatch d bid with
    | mk r t =>
      rw [hr] at h
      cases r with
      | error e => simp at h
      | ok l =>
        dsimp only at h
        injection h with h
        subst h
        obtain ⟨srcIdx, srcStage, destIdx, destStage0, bf, bu, bc, payloads,
          payloads', destStage, dest', hloc, hsrc, hfnd, hlp, hids, hub, hru,
          hdest, hadd, hstg, hflm, hrs, hic⟩ :=
          moveAndUnpackBatch_ok_inv s d bid l t hr
        obtain ⟨hbfnd, hbnotin, hmemloc⟩ :=
          inv_batch_facts s hg.inv srcIdx srcStage hsrc bid bf bu bc hlp
        have hmemer : ∀ i ∈ bf.map Prod.fst,
            kvMem i (kvErase bid s.frame_locations) := by
          intro i hi
          unfold kvMem
          rw [kvLookup_kvErase]
          have hne : ¬ (i = bid) := fun hc => hbnotin (hc ▸ hi)
          rw [if_neg hne]
          have := hmemloc i hi
          unfold locKeys at this
          exact (kvMem_iff_mem_keys i s.frame_locations).mpr this
        obtain ⟨hlnd, hlcnt⟩ := fold_kvSet_locs destIdx (bf.map Prod.fst)
          (kvErase bid s.frame_locations)
          (nodup_keys_kvErase bid s.frame_locations hg.inv.loc_nodup) hmemer
        refine ⟨by rw [kvMem] at ho1 ⊢; rw [hrs]; exact ho1, ?_, by omega⟩
        intro hc
        unfold locKeys at hc hocnt
        rw [hflm] at hc
        have := List.count_pos_iff_mem.mpr hc
        rw [hlcnt id, count_keys_kvErase] at this
        by_cases hib : id = bid
        · rw [if_pos hib] at this
          omega
        · rw [if_neg hib] at this
          omega
  | delete did =>
    unfold applyOp at h
    dsimp only at h
    cases hr : s.delete did with
    | mk r t =>
      rw [hr] at h
      cases r with
      | error e => simp at h
      | ok l =>
        dsimp only at h
        injection h with h
        subst h
        obtain ⟨idx, st, f, u, c, root, hloc, hget, hlp, hroot, hfl, hst, hrs,
          hic, hrr⟩ := delete_ok_inv s did l t hr
        have hdidmem : did ∈ locKeys s := by
          unfold locKeys
          rw [← kvMem_iff_mem_keys]
          unfold kvMem
          rw [hloc]
          rfl
        have hne : ¬ (id = did) := by
          intro hc
          exact ho2 (hc ▸ hdidmem)
        refine ⟨?_, ?_, by omega⟩
        · unfold kvMem
          rw [hrs, kvLookup_kvErase, if_neg hne]
          exact ho1
        · intro hc
          unfold locKeys at hc hocnt
          rw [hfl] at hc
          have := List.count_pos_iff_mem.mpr hc
          rw [count_keys_kvErase, if_neg hne] at this
          omega

theorem runOps_orphan : ∀ (ops : List POp) (s s' : Pipeline) (id : Int),
    runOps ops s = .ok s' → PipelineGood s → OrphanSpan id s →
    OrphanSpan id s' := by
  intro ops
  induction ops with
  | nil =>
    intro s s' id h hg ho
    unfold runOps at h
    injection h with h
    subst h
    exact ho
  | cons op t ih =>
    intro s s' id h hg ho
    unfold runOps at h
    cases ha : applyOp s op with
    | error e => rw [ha] at h; simp at h
    | ok s1 =>
      rw [ha] at h
      dsimp only at h
      exact ih s1 s' id h (applyOp_good s op s1 ha hg)
        (applyOp_orphan s op s1 id ha hg ho)

/-- The union (as a list) of the plain payload key sets of all stages,
following the claim's words ("union of `stage.payloads.keys()` across
stages"): only the payload-map keys, without batch member ids.  Kept for
comparison with `pipelineKeys`, the member-inclusive accounting the code
actually maintains. -/
def specStageKeys (s : Pipeline) : List Int :=
  s.stages.flatMap (fun st => st.payload.map Prod.fst)

/-- C1 — the claim as literally stated is false: after
`add_frame("input", ·)` (id 1) and `move_and_pack_frames("proc1", [1])`
(batch id 2), both reachable by valid operations from a fresh S1 pipeline,
the payload-location map still holds the member id 1 (pointing at the batch
stage), but 1 is no longer a payload key of any stage — it lives only
inside the batch payload keyed 2. -/
theorem c1_counterexample :
    runOps [POp.addFrame "input" 7, POp.moveAndPackFrames "proc1" [1]] exP0 =
      .ok exPackedP ∧
    (1 : Int) ∈ locKeys exPackedP ∧ (1 : Int) ∉ specStageKeys exPackedP := by
  refine ⟨rfl, ?_, ?_⟩
  · show (1 : Int) ∈ locKeys exPackedP
    rw [show locKeys exPackedP = [1, 2] from rfl]
    simp
  · rw [show specStageKeys exPackedP = [2] from rfl]
    simp

/-- C1 — corrected: for every sequence of valid (successful) pipeline
operations run from a freshly constructed pipeline, the key multiset of the
payload-location map coincides with the member-inclusive id accounting of
the stages (each stage's payload keys plus, for each batch payload, its
member ids): counted with multiplicity they are equal, the location keys
are duplicate-free, and hence the two key sets are equal.  The plain
payload key sets of the claim's wording do not satisfy this — a packed
member id stays in the location map while appearing only inside its batch
payload (`c1_counterexample`). -/
theorem c1_location_stage_accounting (cfg : List (String × StageType))
    (s0 s : Pipeline) (ops : List POp)
    (h0 : Pipeline.new cfg = .ok s0) (hrun : runOps ops s0 = .ok s) :
    (∀ a : Int, (pipelineKeys s).count a = (locKeys s).count a) ∧
    (locKeys s).Nodup ∧
    (∀ a : Int, a ∈ locKeys s ↔ a ∈ pipelineKeys s) := by
  have hg := runOps_good ops s0 s hrun (new_good cfg s0 h0)
  exact ⟨hg.inv.count_eq, hg.inv.loc_nodup, fun a => pinv_mem_iff s hg.inv a⟩

theorem c1_location_stage_accounting_witness :
    (pipelineKeys exPackedP).count 1 = (locKeys exPackedP).count 1 ∧
    (locKeys exPackedP).Nodup ∧
    ((1 : Int) ∈ locKeys exPackedP ↔ (1 : Int) ∈ pipelineKeys exPackedP) := by
  obtain ⟨h1, h2, h3⟩ := c1_location_stage_accounting cfgS1 exP0 exPackedP
    [POp.addFrame "input" 7, POp.moveAndPackFrames "proc1" [1]] rfl rfl
  exact ⟨h1 1, h2, h3 1⟩


/-- C10 — confirmed: calling `add_frame_with_telemetry` with a stage name
that resolves to no stage returns `StageNotFound`, yet the frame counter
and the id counter have already been incremented and a root-span entry for
the consumed id has been inserted; the consumed id has no location entry,
and no sequence of successful pipeline operations ever removes the orphan
root-span entry. -/
theorem c10_add_frame_not_atomic (s : Pipeline) (n : String) (f : Nat)
    (pv : Bool) (hg : PipelineGood s) (hmiss : s.findStage n 0 = none) :
    ∃ s1, s.addFrameWithTelemetry n f pv = (.error .stageNotFound, s1) ∧
      s1.frame_counter = s.frame_counter + 1 ∧
      s1.id_counter = s.id_counter + 1 ∧
      kvMem (s.id_counter + 1) s1.root_spans ∧
      (s.id_counter + 1) ∉ locKeys s1 ∧
      ∀ ops s2, runOps ops s1 = .ok s2 →
        kvMem (s.id_counter + 1) s2.root_spans := by
  have hguard : ¬ (s.findStageType n 0 = some .batch) := by
    unfold Pipeline.findStageType
    rw [hmiss]
    simp
  have hfinish : ∀ S : Pipeline, S.frame_counter = s.frame_counter + 1 →
      S.id_counter = s.id_counter + 1 →
      kvMem (s.id_counter + 1) S.root_spans →
      locKeys S = locKeys s → S.stages = s.stages →
      s.addFrameWithTelemetry n f pv = (.error .stageNotFound, S) →
      ∃ s1, s.addFrameWithTelemetry n f pv = (.error .stageNotFound, s1) ∧
        s1.frame_counter = s.frame_counter + 1 ∧
        s1.id_counter = s.id_counter + 1 ∧
        kvMem (s.id_counter + 1) s1.root_spans ∧
        (s.id_counter + 1) ∉ locKeys s1 ∧
        ∀ ops s2, runOps ops s1 = .ok s2 →
          kvMem (s.id_counter + 1) s2.root_spans := by
    intro S hfc hid hkv hlk hstg heq
    have hnotloc : (s.id_counter + 1) ∉ locKeys S := by
      rw [hlk]
      intro hc
      have := hg.bound _ hc
      omega
    have hgS : PipelineGood S := by
      constructor
      · constructor
        · intro a
          have h1 := hg.inv.count_eq a
          unfold pipelineKeys at h1 ⊢
          rw [hstg, hlk]
          exact h1
        · rw [hlk]
          exact hg.inv.loc_nodup
      · intro a ha
        rw [hlk] at ha
        have := hg.bound a ha
        omega
    have hoS : OrphanSpan (s.id_counter + 1) S := ⟨hkv, hnotloc, by omega⟩
    exact ⟨S, heq, hfc, hid, hkv, hnotloc,
      fun ops s2 hrun => (runOps_orphan ops S s2 _ hrun hgS hoS).1⟩
  have hfb : ¬ ((false : Bool) = true) := by simp
  cases pv with
  | false =>
    have heq : s.addFrameWithTelemetry n f false = (.error .stageNotFound, { s with frame_counter := s.frame_counter + 1, id_counter := s.id_counter + 1, root_spans := kvSet (s.id_counter + 1) false s.root_spans }) := by
      unfold Pipeline.addFrameWithTelemetry
      rw [if_neg hguard]
      unfold Pipeline.addFrameCore
      dsimp only
      rw [if_neg hfb]
      rw [show Pipeline.getStageSpan { s with frame_counter := s.frame_counter + 1, id_counter := s.id_counter + 1, root_spans := kvSet (s.id_counter + 1) false s.root_spans } (s.id_counter + 1) = some false from by unfold Pipeline.getStageSpan; dsimp only; rw [kvLookup_kvSet, if_pos rfl]]
      dsimp only
      rw [show Pipeline.findStage { s with frame_counter := s.frame_counter + 1, id_counter := s.id_counter + 1, root_spans := kvSet (s.id_counter + 1) false s.root_spans } n 0 = none from (findStage_congr _ s n 0 rfl).trans hmiss]
    refine hfinish { s with frame_counter := s.frame_counter + 1, id_counter := s.id_counter + 1, root_spans := kvSet (s.id_counter + 1) false s.root_spans } rfl rfl ?_ rfl rfl heq
    unfold kvMem
    dsimp only
    rw [kvLookup_kvSet, if_pos rfl]
    rfl
  | true =>
    cases hrsn : s.root_span_name with
    | some nm =>
      have hgr : Pipeline.getRootSpanName { s with frame_counter := s.frame_counter + 1, id_counter := s.id_counter + 1 } = (nm, { s with frame_counter := s.frame_counter + 1, id_counter := s.id_counter + 1 }) := by
        unfold Pipeline.getRootSpanName
        dsimp only
        rw [hrsn]
      have heq : s.addFrameWithTelemetry n f true = (.error .stageNotFound, { s with frame_counter := s.frame_counter + 1, id_counter := s.id_counter + 1, root_spans := kvSet (s.id_counter + 1) true s.root_spans }) := by
        unfold Pipeline.addFrameWithTelemetry
        rw [if_neg hguard]
        unfold Pipeline.addFrameCore
        dsimp only
        rw [if_pos rfl, hgr]
        dsimp only
        rw [show Pipeline.getStageSpan { s with frame_counter := s.frame_counter + 1, id_counter := s.id_counter + 1, root_spans := kvSet (s.id_counter + 1) true s.root_spans } (s.id_counter + 1) = some true from by unfold Pipeline.getStageSpan; dsimp only; rw [kvLookup_kvSet, if_pos rfl]]
        dsimp only
        rw [show Pipeline.findStage { s with frame_counter := s.frame_counter + 1, id_counter := s.id_counter + 1, root_spans := kvSet (s.id_counter + 1) true s.root_spans } n 0 = none from (findStage_congr _ s n 0 rfl).trans hmiss]
      refine hfinish { s with frame_counter := s.frame_counter + 1, id_counter := s.id_counter + 1, root_spans := kvSet (s.id_counter + 1) true s.root_spans } rfl rfl ?_ rfl rfl heq
      unfold kvMem
      dsimp only
      rw [kvLookup_kvSet, if_pos rfl]
      rfl
    | none =>
      have hgr : Pipeline.getRootSpanName { s with frame_counter := s.frame_counter + 1, id_counter := s.id_counter + 1 } = (defaultRootSpanName, { s with frame_counter := s.frame_counter + 1, id_counter := s.id_counter + 1, root_span_name := some defaultRootSpanName }) := by
        unfold Pipeline.getRootSpanName
        dsimp only
        rw [hrsn]
      have heq : s.addFrameWithTelemetry n f true = (.error .stageNotFound, { s with frame_counter := s.frame_counter + 1, id_counter := s.id_counter + 1, root_spans := kvSet (s.id_counter + 1) true s.root_spans, root_span_name := some defaultRootSpanName }) := by
        unfold Pipeline.addFrameWithTelemetry
        rw [if_neg hguard]
        unfold Pipeline.addFrameCore
        dsimp only
        rw [if_pos rfl, hgr]
        dsimp only
        rw [show Pipeline.getStageSpan { s with frame_counter := s.frame_counter + 1, id_counter := s.id_counter + 1, root_spans := kvSet (s.id_counter + 1) true s.root_spans, root_span_name := some defaultRootSpanName } (s.id_counter + 1) = some true from by unfold Pipeline.getStageSpan; dsimp only; rw [kvLookup_kvSet, if_pos rfl]]
        dsimp only
        rw [show Pipeline.findStage { s with frame_counter := s.frame_counter + 1, id_counter := s.id_counter + 1, root_spans := kvSet (s.id_counter + 1) true s.root_spans, root_span_name := some defaultRootSpanName } n 0 = none from (findStage_congr _ s n 0 rfl).trans hmiss]
      refine hfinish { s with frame_counter := s.frame_counter + 1, id_counter := s.id_counter + 1, root_spans := kvSet (s.id_counter + 1) true s.root_spans, root_span_name := some defaultRootSpanName } rfl rfl ?_ rfl rfl heq
      unfold kvMem
      dsimp only
      rw [kvLookup_kvSet, if_pos rfl]
      rfl

theorem c10_add_frame_not_atomic_witness :
    (exP0.addFrameWithTelemetry "nope" 7 false).1 = .error .stageNotFound ∧
    (exP0.addFrameWithTelemetry "nope" 7 false).2.frame_counter = 1 ∧
    (exP0.addFrameWithTelemetry "nope" 7 false).2.id_counter = 1 ∧
    kvMem 1 (exP0.addFrameWithTelemetry "nope" 7 false).2.root_spans ∧
    (1 : Int) ∉ locKeys (exP0.addFrameWithTelemetry "nope" 7 false).2 := by
  obtain ⟨s1, h1, h2, h3, h4, h5, h6⟩ :=
    c10_add_frame_not_atomic exP0 "nope" 7 false (new_good cfgS1 exP0 rfl) rfl
  rw [h1]
  exact ⟨rfl, h2, h3, h4, h5⟩

theorem fold_kvSet_lookup {κ α : Type} [DecidableEq κ] :
    ∀ (l pl : List (κ × α)), (l.map Prod.fst).Nodup → ∀ m,
    kvLookup m (l.foldl (fun acc p => kvSet p.1 p.2 acc) pl) =
      match kvLookup m l with
      | some v => some v
      | none => kvLookup m pl := by
  intro l
  induction l with
  | nil => intro pl _ m; rfl
  | cons e t ih =>
    intro pl hnd m
    obtain ⟨a, v⟩ := e
    simp only [List.map_cons, List.nodup_cons] at hnd
    simp only [List.foldl_cons]
    rw [ih (kvSet a v pl) hnd.2 m]
    by_cases hme : m = a
    · subst hme
      have ht : kvLookup m t = none := by
        cases hq : kvLookup m t with
        | none => rfl
        | some w =>
          exact absurd (List.mem_map_of_mem Prod.fst (kvLookup_mem m w t hq)) hnd.1
      rw [ht]
      have hcons : kvLookup m ((m, v) :: t) = some v := by
        rw [show kvLookup m ((m, v) :: t) = if m = m then some v else kvLookup m t from rfl, if_pos rfl]
      rw [hcons, kvLookup_kvSet, if_pos rfl]
    · have hcons : kvLookup m ((a, v) :: t) = kvLookup m t := by
        rw [show kvLookup m ((a, v) :: t) = if m = a then some v else kvLookup m t from rfl, if_neg hme]
      rw [hcons]
      cases kvLookup m t with
      | some w => rfl
      | none => rw [kvLookup_kvSet, if_neg hme]

theorem fold_kvSet_const_lookup {α : Type} (v : α) :
    ∀ (ids : List Int) (base : List (Int × α)) (m : Int),
    kvLookup m (ids.foldl (fun acc id => kvSet id v acc) base) =
      if m ∈ ids then some v else kvLookup m base := by
  intro ids
  induction ids with
  | nil => intro base m; simp
  | cons id t ih =>
    intro base m
    simp only [List.foldl_cons]
    rw [ih (kvSet id v base) m]
    by_cases hmt : m ∈ t
    · rw [if_pos hmt, if_pos (List.mem_cons_of_mem _ hmt)]
    · rw [if_neg hmt, kvLookup_kvSet]
      by_cases hmi : m = id
      · rw [if_pos hmi, if_pos (hmi ▸ List.mem_cons_self _ _)]
      · rw [if_neg hmi, if_neg (by simp [hmi, hmt])]

theorem getStagesForIds_loc (s : Pipeline) :
    ∀ (ids : List Int) (located : List (Int × Nat)),
    s.getStagesForIds ids = .ok located →
    located.map Prod.fst = ids ∧
    ∀ e ∈ located, kvLookup e.1 s.frame_locations = some e.2 := by
  intro ids
  induction ids with
  | nil =>
    intro located h
    unfold Pipeline.getStagesForIds at h
    injection h with h
    subst h
    exact ⟨rfl, by simp⟩
  | cons hd t ih =>
    intro located h
    unfold Pipeline.getStagesForIds at h
    cases hl : kvLookup hd s.frame_locations with
    | none => rw [hl] at h; simp at h
    | some i =>
      rw [hl] at h
      dsimp only at h
      cases hr : s.getStagesForIds t with
      | error e => rw [hr] at h; simp [Except.map] at h
      | ok r =>
        rw [hr] at h
        simp only [Except.map] at h
        injection h with h
        subst h
        obtain ⟨ih1, ih2⟩ := ih r hr
        refine ⟨by simp [ih1], ?_⟩
        intro e he
        rcases List.mem_cons.mp he with h1 | h1
        · subst h1
          exact hl
        · exact ih2 e h1

theorem checkIds_loc (s : Pipeline) (ids : List Int) (idx : Nat)
    (h : s.checkIdsInTheSameStage ids = .ok idx) :
    ∀ id ∈ ids, kvLookup id s.frame_locations = some idx := by
  unfold Pipeline.checkIdsInTheSameStage at h
  by_cases he : ids.isEmpty
  · rw [if_pos he] at h; simp at h
  · rw [if_neg he] at h
    cases hg : s.getStagesForIds ids with
    | error e => rw [hg] at h; simp at h
    | ok located =>
      rw [hg] at h
      dsimp only at h
      obtain ⟨hfst, hlook⟩ := getStagesForIds_loc s ids located hg
      cases hms : located.map (fun p => p.2) with
      | nil => rw [hms] at h; simp at h
      | cons stage rest =>
        rw [hms] at h
        dsimp only at h
        by_cases hall : rest.all (fun cur => cur = stage) = true
        · rw [if_pos hall] at h
          injection h with h
          subst h
          intro id hid
          rw [← hfst] at hid
          obtain ⟨e, he, hefst⟩ := List.mem_map.mp hid
          have hsnd : e.2 ∈ located.map (fun p => p.2) := by
            exact List.mem_map.mpr ⟨e, he, rfl⟩
          rw [hms] at hsnd
          have heq : e.2 = stage := by
            rcases List.mem_cons.mp hsnd with h1 | h1
            · exact h1
            · have := List.all_eq_true.mp hall e.2 h1
              simpa using this
          rw [← hefst, hlook e he, heq]
        · rw [if_neg hall] at h
          simp at h

theorem get?_set_self {α : Type} :
    ∀ (l : List α) (i : Nat) (x y : α), l.get? i = some x →
    (l.set i y).get? i = some y := by
  intro l
  induction l with
  | nil => intro i x y h; simp at h
  | cons hd t ih =>
    intro i x y h
    cases i with
    | zero => rfl
    | succ j =>
      simp only [List.get?_cons_succ] at h
      simp only [List.set_cons_succ, List.get?_cons_succ]
      exact ih j x y h

theorem updatesFor_append (m : Int) (l1 l2 : List (Int × Nat)) :
    updatesFor m (l1 ++ l2) = updatesFor m l1 ++ updatesFor m l2 := by
  unfold updatesFor
  rw [List.filter_append, List.map_append]

theorem updatesFor_cons (m k : Int) (u : Nat) (l : List (Int × Nat)) :
    updatesFor m ((k, u) :: l) =
      if k = m then u :: updatesFor m l else updatesFor m l := by
  unfold updatesFor
  rw [List.filter_cons]
  by_cases hk : k = m
  · rw [if_pos hk]
    simp [hk]
  · rw [if_neg hk]
    simp [hk]

theorem updatesFor_map_const (m id : Int) (us : List Nat) :
    updatesFor m (us.map (fun x => (id, x))) = if id = m then us else [] := by
  induction us with
  | nil => simp [updatesFor]
  | cons u t ih =>
    simp only [List.map_cons]
    rw [updatesFor_cons, ih]
    by_cases h : id = m
    · rw [if_pos h, if_pos h, if_pos h]
    · rw [if_neg h, if_neg h, if_neg h]

theorem unpackBuild_content (s : Pipeline) :
    ∀ (bf : List (Int × Nat)) (bc : List (Int × Ctx))
      (acc payloads : List (Int × PipelinePayload)),
    (bf.map Prod.fst).Nodup →
    unpackBuild s bf bc acc = some payloads →
    (∀ m, m ∉ bf.map Prod.fst → kvLookup m payloads = kvLookup m acc) ∧
    (∀ m f, kvLookup m bf = some f →
      ∃ c', kvLookup m payloads = some (PipelinePayload.frame f [] c')) := by
  intro bf
  induction bf with
  | nil =>
    intro bc acc payloads _ h
    unfold unpackBuild at h
    injection h with h
    subst h
    exact ⟨fun m _ => rfl, fun m f hf => by simp [kvLookup] at hf⟩
  | cons hd rest ih =>
    intro bc acc payloads hbnd h
    obtain ⟨fid, f0⟩ := hd
    unfold unpackBuild at h
    cases hlc : kvLookup fid bc with
    | none => rw [hlc] at h; simp at h
    | some c0 =>
      rw [hlc] at h
      dsimp only at h
      cases hsp : s.getStageSpan fid with
      | none => rw [hsp] at h; simp at h
      | some c' =>
        rw [hsp] at h
        dsimp only at h
        simp only [List.map_cons, List.nodup_cons] at hbnd
        obtain ⟨ih1, ih2⟩ := ih (kvErase fid bc)
          (kvSet fid (PipelinePayload.frame f0 [] c') acc) payloads hbnd.2 h
        constructor
        · intro m hm
          simp only [List.map_cons, List.mem_cons] at hm
          push_neg at hm
          rw [ih1 m hm.2, kvLookup_kvSet, if_neg hm.1]
        · intro m f hf
          rw [show kvLookup m ((fid, f0) :: rest) = if m = fid then some f0 else kvLookup m rest from rfl] at hf
          by_cases hmf : m = fid
          · rw [if_pos hmf] at hf
            injection hf with hf
            subst hf
            subst hmf
            refine ⟨c', ?_⟩
            rw [ih1 m hbnd.1, kvLookup_kvSet, if_pos rfl]
          · rw [if_neg hmf] at hf
            exact ih2 m f hf

theorem routeUpdates_content :
    ∀ (bu : List (Int × Nat)) (ps ps' : List (Int × PipelinePayload)),
    routeUpdates bu ps = .ok ps' →
    (ps.map Prod.fst).Nodup →
    (∀ m f us c, kvLookup m ps = some (PipelinePayload.frame f us c) →
      kvLookup m ps' = some (PipelinePayload.frame f (us ++ updatesFor m bu) c)) ∧
    (∀ m, ¬ kvMem m ps → updatesFor m bu = []) := by
  intro bu
  induction bu with
  | nil =>
    intro ps ps' h _
    unfold routeUpdates at h
    injection h with h
    subst h
    refine ⟨fun m f us c hm => ?_, fun m _ => rfl⟩
    rw [show updatesFor m ([] : List (Int × Nat)) = [] from rfl, List.append_nil]
    exact hm
  | cons hd rest ih =>
    intro ps ps' h hnd
    obtain ⟨fid, u⟩ := hd
    unfold routeUpdates at h
    cases hl : kvLookup fid ps with
    | none => rw [hl] at h; simp at h
    | some p =>
      rw [hl] at h
      cases p with
      | batch b1 b2 b3 => simp at h
      | frame f0 us0 c0 =>
        dsimp only at h
        have hnd' := nodup_keys_kvSet fid (PipelinePayload.frame f0 (us0 ++ [u]) c0) ps hnd
        obtain ⟨ih1, ih2⟩ :=
          ih (kvSet fid (PipelinePayload.frame f0 (us0 ++ [u]) c0) ps) ps' h hnd'
        have hfidmem : kvMem fid ps := by unfold kvMem; rw [hl]; rfl
        constructor
        · intro m f us c hm
          rw [updatesFor_cons]
          by_cases hmf : m = fid
          · subst hmf
            rw [hl] at hm
            injection hm with hm
            cases hm
            rw [if_pos rfl]
            have hstep : kvLookup m (kvSet m (PipelinePayload.frame f0 (us0 ++ [u]) c0) ps) =
                some (PipelinePayload.frame f0 (us0 ++ [u]) c0) := by
              rw [kvLookup_kvSet, if_pos rfl]
            have := ih1 m f0 (us0 ++ [u]) c0 hstep
            rw [this]
            rw [List.append_assoc]
            rfl
          · have hmf2 : ¬ (fid = m) := fun hh => hmf hh.symm
            rw [if_neg hmf2]
            have hstep : kvLookup m (kvSet fid (PipelinePayload.frame f0 (us0 ++ [u]) c0) ps) =
                some (PipelinePayload.frame f us c) := by
              rw [kvLookup_kvSet, if_neg hmf]
              exact hm
            exact ih1 m f us c hstep
        · intro m hm
          have hmf : ¬ (m = fid) := fun hh => hm (hh ▸ hfidmem)
          have hmf2 : ¬ (fid = m) := fun hh => hmf hh.symm
          rw [updatesFor_cons, if_neg hmf2]
          apply ih2
          unfold kvMem at hm ⊢
          rw [kvLookup_kvSet, if_neg hmf]
          exact hm

theorem packLoop_content :
    ∀ (ids : List Int) (st : PipelineStage) (bf0 bu0 : List (Int × Nat))
      (bc0 : List (Int × Ctx))
      (r : List (Int × Nat) × List (Int × Nat) × List (Int × Ctx))
      (st' : PipelineStage),
    packLoop ids st bf0 bu0 bc0 = (.ok r, st') →
    (∀ m, ¬ kvMem m st.payload → kvLookup m r.1 = kvLookup m bf0 ∧
      updatesFor m r.2.1 = updatesFor m bu0) ∧
    (∀ m, m ∉ ids → kvLookup m r.1 = kvLookup m bf0 ∧
      updatesFor m r.2.1 = updatesFor m bu0) ∧
    (∀ m f us c, m ∈ ids →
      kvLookup m st.payload = some (PipelinePayload.frame f us c) →
      kvLookup m r.1 = some f ∧
      updatesFor m r.2.1 = updatesFor m bu0 ++ us) := by
  intro ids
  induction ids with
  | nil =>
    intro st bf0 bu0 bc0 r st' h
    simp only [packLoop] at h
    obtain ⟨h1, h2⟩ := Prod.mk.injEq _ _ _ _ ▸ h
    injection h1 with h1
    subst h1
    exact ⟨fun m _ => ⟨rfl, rfl⟩, fun m _ => ⟨rfl, rfl⟩,
      fun m f us c hm _ => absurd hm (List.not_mem_nil m)⟩
  | cons id rest ih =>
    intro st bf0 bu0 bc0 r st' h
    simp only [packLoop] at h
    cases hl : kvLookup id st.payload with
    | none =>
      rw [hl] at h
      dsimp only at h
      obtain ⟨c1, c2, c3⟩ := ih st bf0 bu0 bc0 r st' h
      refine ⟨c1, ?_, ?_⟩
      · intro m hm
        exact c2 m (fun hc => hm (List.mem_cons_of_mem _ hc))
      · intro m f us c hm hlm
        rcases List.mem_cons.mp hm with h1 | h1
        · subst h1
          rw [hl] at hlm
          simp at hlm
        · exact c3 m f us c h1 hlm
    | some p =>
      rw [hl] at h
      cases p with
      | batch b1 b2 b3 => simp at h
      | frame f0 us0 c0 =>
        dsimp only at h
        obtain ⟨c1, c2, c3⟩ := ih { st with payload := kvErase id st.payload }
          (kvSet id f0 bf0) (bu0 ++ us0.map (fun x => (id, x))) (kvSet id c0 bc0)
          r st' h
        have hbu1 : ∀ m, updatesFor m (bu0 ++ us0.map (fun x => (id, x))) =
            updatesFor m bu0 ++ (if id = m then us0 else []) := by
          intro m
          rw [updatesFor_append, updatesFor_map_const]
        have hidmem : kvMem id st.payload := by unfold kvMem; rw [hl]; rfl
        have herased : ∀ m, ¬ kvMem m st.payload →
            ¬ kvMem m ({ st with payload := kvErase id st.payload } : PipelineStage).payload := by
          intro m hm hc
          apply hm
          unfold kvMem at hc ⊢
          dsimp only at hc
          rw [kvLookup_kvErase] at hc
          by_cases hmi : m = id
          · rw [if_pos hmi] at hc
            simp at hc
          · rw [if_neg hmi] at hc
            exact hc
        refine ⟨?_, ?_, ?_⟩
        · intro m hm
          have hmi : ¬ (m = id) := fun hh => hm (hh ▸ hidmem)
          obtain ⟨d1, d2⟩ := c1 m (herased m hm)
          rw [kvLookup_kvSet, if_neg hmi] at d1
          rw [hbu1 m] at d2
          have hmi2 : ¬ (id = m) := fun hh => hmi hh.symm
          rw [if_neg hmi2, List.append_nil] at d2
          exact ⟨d1, d2⟩
        · intro m hm
          simp only [List.mem_cons] at hm
          push_neg at hm
          obtain ⟨d1, d2⟩ := c2 m hm.2
          rw [kvLookup_kvSet, if_neg hm.1] at d1
          rw [hbu1 m] at d2
          have hmi2 : ¬ (id = m) := fun hh => hm.1 hh.symm
          rw [if_neg hmi2, List.append_nil] at d2
          exact ⟨d1, d2⟩
        · intro m f us c hm hlm
          by_cases hmi : m = id
          · subst hmi
            rw [hl] at hlm
            injection hlm with hlm
            cases hlm
            have hmemer : ¬ kvMem m ({ st with payload := kvErase m st.payload } : PipelineStage).payload := by
              unfold kvMem
              dsimp only
              rw [kvLookup_kvErase, if_pos rfl]
              simp
            obtain ⟨d1, d2⟩ := c1 m hmemer
            rw [kvLookup_kvSet, if_pos rfl] at d1
            rw [hbu1 m, if_pos rfl] at d2
            exact ⟨d1, d2⟩
          · rcases List.mem_cons.mp hm with h1 | h1
            · exact absurd h1 hmi
            · have hlm2 : kvLookup m ({ st with payload := kvErase id st.payload } : PipelineStage).payload =
                  some (PipelinePayload.frame f us c) := by
                dsimp only
                rw [kvLookup_kvErase, if_neg hmi]
                exact hlm
              obtain ⟨d1, d2⟩ := c3 m f us c h1 hlm2
              rw [hbu1 m] at d2
              have hmi2 : ¬ (id = m) := fun hh => hmi hh.symm
              rw [if_neg hmi2, List.append_nil] at d2
              exact ⟨d1, d2⟩

/-- C6 — confirmed: unpacking a batch and re-packing the returned member
ids round-trips.  If `move_and_unpack_batch` on batch `b` succeeds with
member ids `ids` and `move_and_pack_frames` of those ids then succeeds
with new batch id `b2`, the stored batch `b2` agrees with the original
batch on the member map (`kvLookup m bf2 = kvLookup m bf` for every `m`)
and carries, for every member, exactly the member's update list: the
batch-level updates are routed to their members on unpack and merged back
keyed by member id on pack (`updatesFor m bu2 = updatesFor m bu`). -/
theorem c6_unpack_pack_roundtrip (s : Pipeline) (dest1 dest2 : String)
    (b : Int) (bf bu : List (Int × Nat)) (bc : List (Int × Ctx))
    (ids : List Int) (s1 : Pipeline) (b2 : Int) (s2 : Pipeline)
    (hg : PipelineGood s)
    (hbd : s.batchPayloadData b = some (bf, bu, bc))
    (h1 : s.moveAndUnpackBatch dest1 b = (.ok ids, s1))
    (h2 : s1.moveAndPackFrames dest2 ids = (.ok b2, s2)) :
    ids = bf.map Prod.fst ∧
    ∃ bf2 bu2 bc2, s2.batchPayloadData b2 = some (bf2, bu2, bc2) ∧
      (∀ m, kvLookup m bf2 = kvLookup m bf) ∧
      (∀ m, updatesFor m bu2 = updatesFor m bu) := by
  obtain ⟨srcIdx, srcStage, destIdx, destStage0, bfx, bux, bcx, payloads,
    payloads', destStage, dest', hloc, hsrc, hfnd, hlp, hids, hub, hru, hdest,
    hadd, hstg, hflm, hrs, hic⟩ :=
    moveAndUnpackBatch_ok_inv s dest1 b ids s1 h1
  have hbd' : s.batchPayloadData b = some (bfx, bux, bcx) := by
    unfold Pipeline.batchPayloadData Pipeline.stagePayloadOf
    rw [hloc]
    dsimp only
    rw [hsrc]
    dsimp only
    rw [hlp]
  rw [hbd'] at hbd
  injection hbd with hbd
  obtain ⟨hA, hB⟩ := Prod.mk.injEq _ _ _ _ ▸ hbd
  obtain ⟨hB1, hB2⟩ := Prod.mk.injEq _ _ _ _ ▸ hB
  have hA' : bf = bfx := hA.symm
  have hB1' : bu = bux := hB1.symm
  have hB2' : bc = bcx := hB2.symm
  subst hA'
  subst hB1'
  subst hB2'
  obtain ⟨hbfnd, hbnotin, hmemloc⟩ :=
    inv_batch_facts s hg.inv srcIdx srcStage hsrc b bf bu bc hlp
  obtain ⟨uc1, uc2⟩ := unpackBuild_content s bf bc [] payloads hbfnd hub
  obtain ⟨u1, u2, u3⟩ := unpackBuild_facts s bf bc [] payloads hbfnd
    (by simp) (by simp [kvMem, kvLookup]) (by simp) hub
  obtain ⟨rc1, rc2⟩ := routeUpdates_content bu payloads payloads' hru u1
  obtain ⟨r1, r2, r3⟩ := routeUpdates_facts bu payloads payloads' hru u1 u3
  obtain ⟨hdis, hdesteq⟩ := addPayloads_ok destStage payloads' dest' hadd
  obtain ⟨hbid2, srcIdx2, srcStage2, destIdx2, destStage02, bf2, bu2, bc2,
    src2', bc2', destStage2, dest2', hchk2, hsrc2, hfnd2, hpack2, hrotc2,
    hdest2, hadd2, hstg2, hflm2, hrs2, hic2⟩ :=
    moveAndPackFrames_ok_inv s1 dest2 ids b2 s2 h2
  have hne : ids ≠ [] := by
    intro hc
    subst hc
    unfold Pipeline.checkIdsInTheSameStage at hchk2
    simp at hchk2
  obtain ⟨m0, hm0⟩ := List.exists_mem_of_ne_nil ids hne
  have hm0keys : m0 ∈ bf.map Prod.fst := hids ▸ hm0
  have hloc0 : kvLookup m0 s1.frame_locations = some destIdx := by
    rw [hflm]
    rw [fold_kvSet_const_lookup destIdx (bf.map Prod.fst) _ m0]
    rw [if_pos hm0keys]
  have hloc0' := checkIds_loc s1 ids srcIdx2 hchk2 m0 hm0
  have hidx : srcIdx2 = destIdx := by
    rw [hloc0'] at hloc0
    injection hloc0 with h
  have hget1 : s1.stages.get? destIdx = some dest' := by
    rw [hstg]
    exact get?_set_self _ _ destStage dest' hdest
  have hsrcStage2eq : srcStage2 = dest' := by
    rw [hidx, hget1] at hsrc2
    injection hsrc2 with h
    exact h.symm
  obtain ⟨pc1, pc2, pc3⟩ := packLoop_content ids srcStage2 [] [] []
    (bf2, bu2, bc2) src2' hpack2
  obtain ⟨htype2, hfresh2, hdesteq2⟩ := addBatchPayload_ok destStage2
    (s1.id_counter + 1) (.batch bf2 bu2 bc2') dest2' hadd2
  have hmember : ∀ m f, kvLookup m bf = some f →
      kvLookup m bf2 = some f ∧ updatesFor m bu2 = updatesFor m bu := by
    intro m f hmf
    have hmkeys : m ∈ bf.map Prod.fst :=
      (kvMem_iff_mem_keys m bf).mp (by unfold kvMem; rw [hmf]; rfl)
    have hmids : m ∈ ids := by rw [hids]; exact hmkeys
    obtain ⟨cm, hpm⟩ := uc2 m f hmf
    have hpm' := rc1 m f [] cm hpm
    rw [List.nil_append] at hpm'
    have hdl : kvLookup m dest'.payload =
        some (PipelinePayload.frame f (updatesFor m bu) cm) := by
      rw [hdesteq]
      dsimp only
      rw [fold_kvSet_lookup payloads' destStage.payload r1 m, hpm']
    have hst2 : kvLookup m srcStage2.payload =
        some (PipelinePayload.frame f (updatesFor m bu) cm) := by
      rw [hsrcStage2eq]
      exact hdl
    obtain ⟨d1, d2⟩ := pc3 m f (updatesFor m bu) cm hmids hst2
    refine ⟨d1, ?_⟩
    rw [d2]
    rfl
  have hnonmember : ∀ m, kvLookup m bf = none →
      kvLookup m bf2 = none ∧ updatesFor m bu2 = [] ∧ updatesFor m bu = [] := by
    intro m hmf
    have hmnk : m ∉ bf.map Prod.fst := by
      intro hc
      have hmem := (kvMem_iff_mem_keys m bf).mpr hc
      unfold kvMem at hmem
      rw [hmf] at hmem
      simp at hmem
    have hmni : m ∉ ids := by rw [hids]; exact hmnk
    obtain ⟨d1, d2⟩ := pc2 m hmni
    have hnp : ¬ kvMem m payloads := by
      intro hc
      have hmem := (kvMem_iff_mem_keys m payloads).mp hc
      have hcnt := List.count_pos_iff_mem.mpr hmem
      have hu := u2 m
      simp only [List.map_nil, List.count_nil] at hu
      have hpos : 0 < (bf.map Prod.fst).count m := by omega
      exact hmnk (List.count_pos_iff_mem.mp hpos)
    exact ⟨d1.trans rfl, d2.trans rfl, rc2 m hnp⟩
  have hbd2 : s2.batchPayloadData b2 = some (bf2, bu2, bc2') := by
    unfold Pipeline.batchPayloadData Pipeline.stagePayloadOf
    rw [hflm2]
    rw [show b2 = s1.id_counter + 1 from hbid2]
    rw [kvLookup_kvSet, if_pos rfl]
    dsimp only
    have hget2 : s2.stages.get? destIdx2 = some dest2' := by
      rw [hstg2]
      exact get?_set_self _ _ destStage2 dest2' hdest2
    rw [hget2]
    dsimp only
    rw [hdesteq2]
    dsimp only
    rw [kvLookup_kvSet, if_pos rfl]
  refine ⟨hids, bf2, bu2, bc2', hbd2, ?_, ?_⟩
  · intro m
    cases hmf : kvLookup m bf with
    | some f => rw [(hmember m f hmf).1]
    | none => rw [(hnonmember m hmf).1]
  · intro m
    cases hmf : kvLookup m bf with
    | some f => exact (hmember m f hmf).2
    | none =>
      obtain ⟨_, d2, d3⟩ := hnonmember m hmf
      rw [d2, d3]

/-- A four-stage configuration with a batch stage after a frame stage twice,
so that a packed batch can be unpacked forward and re-packed forward. -/
def cfgW : List (String × StageType) :=
  [("input", .frame), ("b1", .batch), ("f1", .frame), ("b2", .batch)]

def exW0 : Pipeline := (Pipeline.new cfgW).toOption.getD {}

/-- After `add_frame("input", 7)` (id 1) and
`move_and_pack_frames("b1", [1])` (batch id 2). -/
def exW2 : Pipeline := ((exW0.addFrame "input" 7).2.moveAndPackFrames "b1" [1]).2

/-- After additionally `move_and_unpack_batch("f1", 2)` (returns [1]). -/
def exW3 : Pipeline := (exW2.moveAndUnpackBatch "f1" 2).2

/-- After additionally `move_and_pack_frames("b2", [1])` (batch id 3). -/
def exW4 : Pipeline := (exW3.moveAndPackFrames "b2" [1]).2

theorem c6_unpack_pack_roundtrip_witness :
    [(1 : Int)] = ([((1 : Int), (7 : Nat))] : List (Int × Nat)).map Prod.fst ∧
    exW4.batchPayloadData 3 = some ([(1, 7)], [], [(1, false)]) := by
  obtain ⟨hids, bf2, bu2, bc2, hbd2, hmm, huu⟩ :=
    c6_unpack_pack_roundtrip exW2 "f1" "b2" 2 [(1, 7)] [] [(1, false)] [1]
      exW3 3 exW4
      (runOps_good [POp.addFrame "input" 7, POp.moveAndPackFrames "b1" [1]]
        exW0 exW2 rfl (new_good cfgW exW0 rfl))
      rfl rfl rfl
  exact ⟨hids, rfl⟩
